import Mathlib

/-!
# biorbd muscles: State, Muscle, WrappingCylinder, HillThelenType, entry point, reader

Shallow embedding of `src/Muscles/State.cpp`, of the constructors, the accessors and
`setState` of `src/Muscles/Muscle.cpp`, of `src/Muscles/WrappingCylinder.cpp`, of the two
force-length multipliers of `src/Muscles/HillThelenType.cpp`, of the entry point
`binding/matlab/Matlab_muscleJointTorqueFromActivation.h`, and of the branches `imu`,
`muscle`, `viapoint` and `wrap` of `readModelFile` (`src/ModelReader.cpp`).

* A C++ `double` is a `Dbl α`: NaN, an infinity, or a number of an ordered
  field `α` (`ℚ` where a term is evaluated).  Comparisons, `abs` and the
  assignments are those of IEEE 754 (a comparison with NaN is false).  The
  rounded operations `+ - * /` and `sqrt` are the fields of an `Arith`
  record and the functions of `<math.h>` those of a `Libm` record, so that the
  statements on the control flow do not depend on how they round.  `Arith.binary64`
  and `Libm.binary64` are these operations on IEEE 754 binary64 (rounding to
  nearest, overflow to an infinity), on the rationals, and `Arith.rounded` is the
  arithmetic of any rounding.  The statements on exact values of `exp`, `acos` and
  `sqrt` take the arithmetic of the real numbers, `Arith.exact` and `Libm.exact` on
  `ℝ`, where nothing is rounded.
* Every member of the classes is a `std::shared_ptr`.  Pointers are
  addresses into a `Heap`; `std::make_shared` takes the next free address.
* An `unsigned int` expression is a natural number modulo `2 ^ 32` (`u32`, `castU32`).
* The model file is the list of the tokens `file.read` yields one after the other.
-/

namespace biorbd

/-! ## Doubles -/

/-- Value of a C++ `double`: NaN, minus infinity, a number, plus infinity. -/
inductive Dbl (α : Type) where
  | nan : Dbl α
  | ninf : Dbl α
  | num (x : α) : Dbl α
  | pinf : Dbl α
deriving DecidableEq, Repr

namespace Dbl

variable {α : Type} [LinearOrderedField α]

/-- The comparison `a < b` of two doubles; false as soon as one is NaN. -/
def lt : Dbl α → Dbl α → Bool
  | nan, _ => false
  | _, nan => false
  | ninf, ninf => false
  | ninf, _ => true
  | num _, ninf => false
  | num x, num y => decide (x < y)
  | num _, pinf => true
  | pinf, _ => false

/-- The comparison `a <= b` of two doubles; false as soon as one is NaN. -/
def le : Dbl α → Dbl α → Bool
  | nan, _ => false
  | _, nan => false
  | ninf, _ => true
  | num _, ninf => false
  | num x, num y => decide (x ≤ y)
  | num _, pinf => true
  | pinf, pinf => true
  | pinf, _ => false

/-- The comparison `a > b`, which C++ evaluates as `b < a`. -/
def gt (a b : Dbl α) : Bool := lt b a

/-- The comparison `a >= b`, which C++ evaluates as `b <= a`. -/
def ge (a b : Dbl α) : Bool := le b a

/-- Unary minus. -/
def neg : Dbl α → Dbl α
  | nan => nan
  | ninf => pinf
  | num x => num (-x)
  | pinf => ninf

/-- Absolute value of a double (`fabs`). -/
def abs : Dbl α → Dbl α
  | nan => nan
  | ninf => pinf
  | num x => num |x|
  | pinf => pinf

/-- Test `std::isnan`. -/
def isNaN : Dbl α → Bool
  | nan => true
  | _ => false

end Dbl

/-- The rounded floating-point operations of the target machine. -/
structure Arith (α : Type) where
  add : Dbl α → Dbl α → Dbl α
  sub : Dbl α → Dbl α → Dbl α
  mul : Dbl α → Dbl α → Dbl α
  div : Dbl α → Dbl α → Dbl α
  sqrt : Dbl α → Dbl α

namespace Arith

variable {α : Type} [LinearOrderedField α]

/-- Sum of two doubles when no rounding occurs. -/
def exactAdd : Dbl α → Dbl α → Dbl α
  | Dbl.nan, _ => Dbl.nan
  | _, Dbl.nan => Dbl.nan
  | Dbl.pinf, Dbl.ninf => Dbl.nan
  | Dbl.ninf, Dbl.pinf => Dbl.nan
  | Dbl.pinf, _ => Dbl.pinf
  | _, Dbl.pinf => Dbl.pinf
  | Dbl.ninf, _ => Dbl.ninf
  | _, Dbl.ninf => Dbl.ninf
  | Dbl.num x, Dbl.num y => Dbl.num (x + y)

/-- Infinity of the sign of `x` (plus for `0 <= x`). -/
def signedInf (x : α) : Dbl α := if 0 ≤ x then Dbl.pinf else Dbl.ninf

/-- Product of two doubles when no rounding occurs. -/
def exactMul : Dbl α → Dbl α → Dbl α
  | Dbl.nan, _ => Dbl.nan
  | _, Dbl.nan => Dbl.nan
  | Dbl.num x, Dbl.num y => Dbl.num (x * y)
  | Dbl.num x, Dbl.pinf => if x = 0 then Dbl.nan else signedInf x
  | Dbl.num x, Dbl.ninf => if x = 0 then Dbl.nan else signedInf (-x)
  | Dbl.pinf, Dbl.num y => if y = 0 then Dbl.nan else signedInf y
  | Dbl.ninf, Dbl.num y => if y = 0 then Dbl.nan else signedInf (-y)
  | Dbl.pinf, Dbl.pinf => Dbl.pinf
  | Dbl.ninf, Dbl.ninf => Dbl.pinf
  | Dbl.pinf, Dbl.ninf => Dbl.ninf
  | Dbl.ninf, Dbl.pinf => Dbl.ninf

/-- Quotient of two doubles when no rounding occurs; a zero divisor counts as `+0`. -/
def exactDiv : Dbl α → Dbl α → Dbl α
  | Dbl.nan, _ => Dbl.nan
  | _, Dbl.nan => Dbl.nan
  | Dbl.num x, Dbl.num y =>
    if y = 0 then (if x = 0 then Dbl.nan else signedInf x) else Dbl.num (x / y)
  | Dbl.num _, Dbl.pinf => Dbl.num 0
  | Dbl.num _, Dbl.ninf => Dbl.num 0
  | Dbl.pinf, Dbl.num y => signedInf y
  | Dbl.ninf, Dbl.num y => signedInf (-y)
  | Dbl.pinf, Dbl.pinf => Dbl.nan
  | Dbl.pinf, Dbl.ninf => Dbl.nan
  | Dbl.ninf, Dbl.pinf => Dbl.nan
  | Dbl.ninf, Dbl.ninf => Dbl.nan

/-- Square root of a double, `root` giving the root of a non-negative number. -/
def exactSqrt (root : α → α) : Dbl α → Dbl α
  | Dbl.nan => Dbl.nan
  | Dbl.ninf => Dbl.nan
  | Dbl.num x => if x < 0 then Dbl.nan else Dbl.num (root x)
  | Dbl.pinf => Dbl.pinf

/-- Arithmetic without rounding, used to evaluate the code where every intermediate result
is a number the machine represents exactly. -/
def exact (root : α → α) : Arith α :=
  { add := exactAdd
    sub := fun a b => exactAdd a (Dbl.neg b)
    mul := exactMul
    div := exactDiv
    sqrt := exactSqrt root }

/-- Exact arithmetic on the rationals, `Rat.sqrt` being the root of a rational square. -/
def exactRat : Arith ℚ := exact Rat.sqrt

end Arith

/-! ## Heap of shared cells -/

/-- Enumeration `biorbd::muscles::STATE_TYPE` (the enumerators the sources use). -/
inductive STATE_TYPE where
  | SIMPLE_STATE
  | DYNAMIC
  | BUCHANAN
  | NO_STATE_TYPE
deriving DecidableEq, Repr

/-- Memory reached through `std::shared_ptr<double>` and
`std::shared_ptr<STATE_TYPE>`: the contents of each address and the next
address `std::make_shared` hands out. -/
structure Heap (α : Type) where
  dbl : Nat → Dbl α
  typ : Nat → STATE_TYPE
  nextDbl : Nat
  nextTyp : Nat

namespace Heap

variable {α : Type}

/-- The empty memory. -/
def empty : Heap α :=
  { dbl := fun _ => Dbl.nan, typ := fun _ => STATE_TYPE.NO_STATE_TYPE, nextDbl := 0, nextTyp := 0 }

/-- Assignment `*p = v` through a `shared_ptr<double>`. -/
def writeDbl (h : Heap α) (p : Nat) (v : Dbl α) : Heap α :=
  { h with dbl := Function.update h.dbl p v }

/-- Assignment `*p = t` through a `shared_ptr<STATE_TYPE>`. -/
def writeTyp (h : Heap α) (p : Nat) (t : STATE_TYPE) : Heap α :=
  { h with typ := Function.update h.typ p t }

/-- Allocation `std::make_shared<double>(v)`. -/
def allocDbl (h : Heap α) (v : Dbl α) : Nat × Heap α :=
  (h.nextDbl, { h with dbl := Function.update h.dbl h.nextDbl v, nextDbl := h.nextDbl + 1 })

/-- Allocation `std::make_shared<STATE_TYPE>()` followed by the first assignment `t`. -/
def allocTyp (h : Heap α) (t : STATE_TYPE) : Nat × Heap α :=
  (h.nextTyp, { h with typ := Function.update h.typ h.nextTyp t, nextTyp := h.nextTyp + 1 })

end Heap

/-! ## State (`src/Muscles/State.cpp`) -/

/-- Class `biorbd::muscles::State`: four shared pointers. -/
structure State where
  m_stateType : Nat
  m_excitation : Nat
  m_excitationNorm : Nat
  m_activation : Nat
deriving DecidableEq, Repr

namespace State

variable {α : Type} [LinearOrderedField α]

/-- Method `State::setType`. -/
def setType (s : State) (h : Heap α) : Heap α :=
  h.writeTyp s.m_stateType STATE_TYPE.SIMPLE_STATE

/-- Constructor `State::State(double excitation, double activation)`: the members are
allocated in declaration order, then `setType()` runs. -/
def construct (excitation activation : Dbl α) (h : Heap α) : State × Heap α :=
  let (pt, h1) := h.allocTyp STATE_TYPE.SIMPLE_STATE
  let (pe, h2) := h1.allocDbl excitation
  let (pn, h3) := h2.allocDbl (Dbl.num 0)
  let (pa, h4) := h3.allocDbl activation
  let s : State := { m_stateType := pt, m_excitation := pe, m_excitationNorm := pn, m_activation := pa }
  (s, s.setType h4)

/-- Copy constructor `State::State(const State &other)`: the type, excitation and activation
cells are shared with `other`, the normalized excitation is a new cell holding 0. -/
def copyConstruct (other : State) (h : Heap α) : State × Heap α :=
  let (pn, h1) := h.allocDbl (Dbl.num 0)
  ({ m_stateType := other.m_stateType, m_excitation := other.m_excitation,
     m_excitationNorm := pn, m_activation := other.m_activation }, h1)

/-- Method `void State::DeepCopy(const State &other)`. -/
def DeepCopyFrom (s other : State) (h : Heap α) : Heap α :=
  let h1 := h.writeTyp s.m_stateType (h.typ other.m_stateType)
  let h2 := h1.writeDbl s.m_excitation (h1.dbl other.m_excitation)
  let h3 := h2.writeDbl s.m_excitationNorm (h2.dbl other.m_excitationNorm)
  h3.writeDbl s.m_activation (h3.dbl other.m_activation)

/-- Method `State State::DeepCopy() const`.  The local `copy` is returned by value:
`elided = true` is the return without a copy, `elided = false` the return through the copy
constructor. -/
def DeepCopy (s : State) (elided : Bool) (h : Heap α) : State × Heap α :=
  let (c, h1) := construct (Dbl.num 0) (Dbl.num 0) h
  let h2 := c.DeepCopyFrom s h1
  if elided then (c, h2) else copyConstruct c h2

/-- Method `State::setExcitation`. -/
def setExcitation (s : State) (val : Dbl α) (h : Heap α) : Heap α :=
  if Dbl.le (h.dbl s.m_excitation) (Dbl.num 0) then
    h.writeDbl s.m_excitation (Dbl.num 0)
  else
    h.writeDbl s.m_excitation val

/-- Method `State::excitation`. -/
def excitation (s : State) (h : Heap α) : Dbl α := h.dbl s.m_excitation

/-- Method `State::normalizeExcitation`: the quotient, whether `Error::warning` spoke (its
condition was false), and the memory after the call. -/
def normalizeExcitation (A : Arith α) (s emgMax : State) (h : Heap α) : Dbl α × Bool × Heap α :=
  let warned := !(Dbl.lt (h.dbl s.m_excitation) (emgMax.excitation h))
  let h1 := h.writeDbl s.m_excitationNorm (A.div (h.dbl s.m_excitation) (emgMax.excitation h))
  (h1.dbl s.m_excitationNorm, warned, h1)

/-- Method `State::setExcitationNorm`. -/
def setExcitationNorm (s : State) (val : Dbl α) (h : Heap α) : Heap α :=
  h.writeDbl s.m_excitationNorm val

/-- Method `State::excitationNorm`. -/
def excitationNorm (s : State) (h : Heap α) : Dbl α := h.dbl s.m_excitationNorm

/-- Method `State::setActivation`. -/
def setActivation (s : State) (val : Dbl α) (h : Heap α) : Heap α :=
  if Dbl.le (h.dbl s.m_activation) (Dbl.num 0) then
    h.writeDbl s.m_activation (Dbl.num 0)
  else if Dbl.ge (h.dbl s.m_activation) (Dbl.num 1) then
    h.writeDbl s.m_activation (Dbl.num 1)
  else
    h.writeDbl s.m_activation val

/-- Method `State::activation`. -/
def activation (s : State) (h : Heap α) : Dbl α := h.dbl s.m_activation

/-- Method `State::type`. -/
def type (s : State) (h : Heap α) : STATE_TYPE := h.typ s.m_stateType

/-- A State object of the memory `h`: its cells are allocated, and the three `double`
cells are three different cells, as every constructor makes them. -/
def WF (s : State) (h : Heap α) : Prop :=
  s.m_stateType < h.nextTyp ∧ s.m_excitation < h.nextDbl ∧
  s.m_excitationNorm < h.nextDbl ∧ s.m_activation < h.nextDbl ∧
  s.m_excitation ≠ s.m_excitationNorm ∧ s.m_excitation ≠ s.m_activation ∧
  s.m_excitationNorm ≠ s.m_activation

instance (s : State) (h : Heap α) : Decidable (s.WF h) := by
  unfold WF; infer_instance

/-- A call of one of the three setters of a State. -/
inductive Call (α : Type) where
  | setExcitation (val : Dbl α)
  | setActivation (val : Dbl α)
  | setExcitationNorm (val : Dbl α)

/-- One setter call on `s`. -/
def call (s : State) (c : Call α) (h : Heap α) : Heap α :=
  match c with
  | Call.setExcitation v => s.setExcitation v h
  | Call.setActivation v => s.setActivation v h
  | Call.setExcitationNorm v => s.setExcitationNorm v h

/-- A sequence of setter calls on `s`, first call first. -/
def calls (s : State) : List (Call α) → Heap α → Heap α
  | [], h => h
  | c :: cs, h => calls s cs (s.call c h)

end State

/-! ## Muscle (`src/Muscles/Muscle.cpp`) -/

/-- Class `biorbd::muscles::StateDynamics` (`include/Muscles/StateDynamics.h`): a State with
three more shared cells. -/
structure StateDynamics extends State where
  m_previousExcitation : Nat
  m_previousActivation : Nat
  m_activationDot : Nat
deriving DecidableEq, Repr

/-- The objects the members of a Muscle point to.  `G` and `C` are the object representations
of the classes Geometry and Characteristics, whose declarations are not among the sources. -/
structure Objects (G C : Type) where
  geometry : Nat → G
  characteristics : Nat → C
  stateDynamics : Nat → StateDynamics
  nextStateDynamics : Nat

/-- Class `biorbd::muscles::Muscle`: the three shared pointers it declares (the members of
its base class Compound are not touched by the methods below). -/
structure Muscle where
  m_position : Nat
  m_characteristics : Nat
  m_state : Nat
deriving DecidableEq, Repr

namespace Muscle

variable {G C : Type}

/-- Copy constructor `Muscle::Muscle(const Muscle &other)`: each shared pointer is copied,
no object is allocated. -/
def copyConstruct (other : Muscle) : Muscle :=
  { m_position := other.m_position,
    m_characteristics := other.m_characteristics,
    m_state := other.m_state }

/-- Method `Muscle::setPosition`: `*m_position = positions`. -/
def setPosition (m : Muscle) (positions : G) (o : Objects G C) : Objects G C :=
  { o with geometry := Function.update o.geometry m.m_position positions }

/-- Method `Muscle::position`: the object `*m_position`. -/
def position (m : Muscle) (o : Objects G C) : G := o.geometry m.m_position

/-- Method `Muscle::setForceIsoMax`: forwards to `Characteristics::setForceIsoMax` on the
object `*m_characteristics`; that method (not among the sources) is the first argument. -/
def setForceIsoMax {H V : Type} (Characteristics_setForceIsoMax : C → V → H → H)
    (m : Muscle) (forceMax : V) (o : Objects G C) (h : H) : H :=
  Characteristics_setForceIsoMax (o.characteristics m.m_characteristics) forceMax h

/-- Method `Muscle::setCharacteristics`: `*m_characteristics = characteristics`. -/
def setCharacteristics (m : Muscle) (characteristics : C) (o : Objects G C) : Objects G C :=
  { o with characteristics := Function.update o.characteristics m.m_characteristics characteristics }

/-- Method `Muscle::characteristics`: the object `*m_characteristics`. -/
def characteristics (m : Muscle) (o : Objects G C) : C := o.characteristics m.m_characteristics

/-- Method `Muscle::state`: the object `*m_state`. -/
def state (m : Muscle) (o : Objects G C) : StateDynamics := o.stateDynamics m.m_state

end Muscle

/-! ## WrappingCylinder (`src/Muscles/WrappingCylinder.cpp`) -/

/-- Class `biorbd::utils::Vector3d`: the coefficients `(0)`, `(1)`, `(2)`. -/
structure Vector3d (α : Type) where
  x : Dbl α
  y : Dbl α
  z : Dbl α
deriving DecidableEq, Repr

/-- Class `NodeMusclePair`: two points, each a copy of its own. -/
structure NodeMusclePair (α : Type) where
  m_p1 : Vector3d α
  m_p2 : Vector3d α
deriving DecidableEq, Repr

/-- Class `biorbd::utils::RotoTrans`: a 4 by 4 matrix, `R i j` its coefficient `(i, j)`. -/
abbrev RotoTrans (α : Type) := Fin 4 → Fin 4 → Dbl α

namespace Vector3d

variable {α : Type} [LinearOrderedField α]

/-- The vector whose three coefficients are NaN. -/
def allNaN : Vector3d α := { x := Dbl.nan, y := Dbl.nan, z := Dbl.nan }

/-- Difference `a - b` of Eigen, coefficient by coefficient. -/
def sub (A : Arith α) (a b : Vector3d α) : Vector3d α :=
  { x := A.sub a.x b.x, y := A.sub a.y b.y, z := A.sub a.z b.z }

/-- Cross product `a.cross(b)` of Eigen. -/
def cross (A : Arith α) (a b : Vector3d α) : Vector3d α :=
  { x := A.sub (A.mul a.y b.z) (A.mul a.z b.y),
    y := A.sub (A.mul a.z b.x) (A.mul a.x b.z),
    z := A.sub (A.mul a.x b.y) (A.mul a.y b.x) }

/-- Euclidean length `a.norm()` of Eigen. -/
def norm (A : Arith α) (a : Vector3d α) : Dbl α :=
  A.sqrt (A.add (A.add (A.mul a.x a.x) (A.mul a.y a.y)) (A.mul a.z a.z))

/-- Quotient `a / s` of Eigen by a scalar. -/
def divScalar (A : Arith α) (a : Vector3d α) (s : Dbl α) : Vector3d α :=
  { x := A.div a.x s, y := A.div a.y s, z := A.div a.z s }

/-- Modelled from the spec: `Vector3d::applyRT` is not among the sources.  The point is
transformed through the pose: the homogeneous vector `(x, y, z, 1)` is multiplied by the
matrix and the first three coefficients are kept. -/
def applyRT (A : Arith α) (v : Vector3d α) (R : RotoTrans α) : Vector3d α :=
  let row (i : Fin 4) : Dbl α :=
    A.add (A.add (A.add (A.mul (R i 0) v.x) (A.mul (R i 1) v.y)) (A.mul (R i 2) v.z))
      (A.mul (R i 3) (Dbl.num 1))
  { x := row 0, y := row 1, z := row 2 }

end Vector3d

/-- Class `biorbd::muscles::WrappingCylinder`.  `m_isCylinderPositiveSign` is the
`std::shared_ptr<bool>` itself: `none` is the null pointer, `some b` points to `b`. -/
structure WrappingCylinder (α : Type) where
  m_dia : Dbl α
  m_length : Dbl α
  m_isCylinderPositiveSign : Option Bool
  m_p1Wrap : Vector3d α
  m_p2Wrap : Vector3d α
  m_lengthAroundWrap : Dbl α

namespace WrappingCylinder

variable {α : Type} [LinearOrderedField α]

/-- Constructor `WrappingCylinder(rt, diameter, length, isCylinderPositiveSign)`, the pose
left out; `v0` is what `Vector3d()` holds. -/
def construct (v0 : Vector3d α) (diameter length : Dbl α) (isCylinderPositiveSign : Bool) :
    WrappingCylinder α :=
  { m_dia := diameter, m_length := length,
    m_isCylinderPositiveSign := some isCylinderPositiveSign,
    m_p1Wrap := v0, m_p2Wrap := v0, m_lengthAroundWrap := Dbl.num 0 }

/-- Method `WrappingCylinder::radius`. -/
def radius (A : Arith α) (w : WrappingCylinder α) : Dbl α := A.div w.m_dia (Dbl.num 2)

/-- Method `WrappingCylinder::selectTangents`; `if (m_isCylinderPositiveSign)` tests the
shared pointer. -/
def selectTangents (w : WrappingCylinder α) (p1 : NodeMusclePair α) : Vector3d α :=
  if w.m_isCylinderPositiveSign.isSome then
    if Dbl.ge p1.m_p2.x p1.m_p1.x then p1.m_p2 else p1.m_p1
  else
    if Dbl.lt p1.m_p2.x p1.m_p1.x then p1.m_p2 else p1.m_p1

/-- Method `WrappingCylinder::findTangentToCircle`. -/
def findTangentToCircle (A : Arith α) (w : WrappingCylinder α) (p : Vector3d α) : Vector3d α :=
  let p_dot := A.add (A.mul p.x p.x) (A.mul p.y p.y)
  let q := A.div (A.mul (w.radius A) (w.radius A)) p_dot
  let Q0x := A.mul q p.x
  let Q0y := A.mul q p.y
  let s := A.mul (A.div (w.radius A) p_dot) (A.sqrt (A.sub p_dot (A.mul (w.radius A) (w.radius A))))
  let Tx := A.add (A.mul (A.mul s (Dbl.num 0)) p.x) (A.mul (A.mul s (Dbl.num (-1))) p.y)
  let Ty := A.add (A.mul (A.mul s (Dbl.num 1)) p.x) (A.mul (A.mul s (Dbl.num 0)) p.y)
  let m : NodeMusclePair α :=
    { m_p1 := { x := A.add Q0x Tx, y := A.add Q0y Ty, z := p.z },
      m_p2 := { x := A.sub Q0x Tx, y := A.sub Q0y Ty, z := p.z } }
  w.selectTangents m

set_option linter.unusedVariables false in
/-- Method `WrappingCylinder::checkIfWraps`; `if (m_isCylinderPositiveSign)` tests the shared
pointer, and `abs` is the absolute value of a double.  Each `let isWrap` is one assignment
to the local `isWrap`, in the order of the source. -/
def checkIfWraps (A : Arith α) (w : WrappingCylinder α)
    (pointsInGlobal pointsToWrap : NodeMusclePair α) : Bool :=
  let isWrap := true
  let isWrap :=
    if w.m_isCylinderPositiveSign.isSome then
      if Dbl.gt pointsInGlobal.m_p1.x (w.radius A) && Dbl.gt pointsInGlobal.m_p2.x (w.radius A) then
        false
      else isWrap
    else
      if Dbl.lt pointsInGlobal.m_p1.x (Dbl.neg (w.radius A))
          && Dbl.lt pointsInGlobal.m_p2.x (Dbl.neg (w.radius A)) then
        false
      else isWrap
  let isWrap :=
    if (Dbl.gt pointsInGlobal.m_p1.y (Dbl.num 0) && Dbl.gt pointsInGlobal.m_p2.y (Dbl.num 0))
        || (Dbl.lt pointsInGlobal.m_p1.y (Dbl.num 0) && Dbl.lt pointsInGlobal.m_p2.y (Dbl.num 0)) then
      false
    else isWrap
  let isWrap :=
    if Dbl.lt (Dbl.abs pointsInGlobal.m_p1.y) (w.radius A)
        || Dbl.lt (Dbl.abs pointsInGlobal.m_p2.y) (w.radius A) then
      false
    else isWrap
  let isWrap :=
    if (Dbl.lt pointsToWrap.m_p1.x pointsToWrap.m_p2.x
          && Dbl.gt pointsInGlobal.m_p1.x pointsInGlobal.m_p2.x)
        || (Dbl.gt pointsToWrap.m_p1.x pointsToWrap.m_p2.x
          && Dbl.lt pointsInGlobal.m_p1.x pointsInGlobal.m_p2.x) then
      false
    else
      true
  isWrap

/-- Method `WrappingCylinder::findVerticalNode`: the returned flag and the value left in
`pointsToWrap`. -/
def findVerticalNode (A : Arith α) (w : WrappingCylinder α)
    (pointsInGlobal pointsToWrap : NodeMusclePair α) : Bool × NodeMusclePair α :=
  if !(w.checkIfWraps A pointsInGlobal pointsToWrap) then
    (false, { m_p1 := Vector3d.allNaN, m_p2 := Vector3d.allNaN })
  else
    let t1 : Vector3d α := { pointsToWrap.m_p1 with z := Dbl.num 0 }
    let t2 : Vector3d α := { pointsToWrap.m_p2 with z := Dbl.num 0 }
    let X := Vector3d.sub A pointsInGlobal.m_p2 pointsInGlobal.m_p1
    let Z : Vector3d α := { x := Dbl.num 0, y := Dbl.num 0, z := Dbl.num 1 }
    let Y := Vector3d.cross A Z X
    let X := Vector3d.cross A Y Z
    let X := Vector3d.divScalar A X (Vector3d.norm A X)
    let Y := Vector3d.divScalar A Y (Vector3d.norm A Y)
    let Z := Vector3d.divScalar A Z (Vector3d.norm A Z)
    let R : RotoTrans α :=
      ![![X.x, X.y, X.z, Dbl.num 0],
        ![Y.x, Y.y, Y.z, Dbl.num 0],
        ![Z.x, Z.y, Z.z, Dbl.num 0],
        ![Dbl.num 0, Dbl.num 0, Dbl.num 0, Dbl.num 1]]
    let globA := Vector3d.applyRT A pointsInGlobal.m_p1 R
    let globB := Vector3d.applyRT A pointsInGlobal.m_p2 R
    let wrapA := Vector3d.applyRT A t1 R
    let wrapB := Vector3d.applyRT A t2 R
    let dz := A.sub pointsInGlobal.m_p1.z pointsInGlobal.m_p2.z
    let z1 := A.add (A.mul (A.div (A.sub wrapA.x globB.x) (A.sub globA.x globB.x)) dz)
      pointsInGlobal.m_p2.z
    let z2 := A.add (A.mul (A.div (A.sub wrapB.x globB.x) (A.sub globA.x globB.x)) dz)
      pointsInGlobal.m_p2.z
    (true, { m_p1 := { t1 with z := z1 }, m_p2 := { t2 with z := z2 } })

end WrappingCylinder


/-! ## Inputs at which the code is evaluated -/

/-- The memory after `State s(1/2, 1/2);` in the empty memory, with the object `s`. -/
def halfState : State × Heap ℚ := State.construct (Dbl.num (1 / 2)) (Dbl.num (1 / 2)) Heap.empty

/-- The memory after `State s(-1, 0);` in the empty memory, with the object `s`. -/
def negativeState : State × Heap ℚ := State.construct (Dbl.num (-1)) (Dbl.num 0) Heap.empty

/-- The memory after `State s(1/2, 1/2); State emgMax(2, 0);` in the empty memory, with the
objects `s` and `emgMax`. -/
def twoStates : State × State × Heap ℚ :=
  let r := State.construct (Dbl.num 2) (Dbl.num 0) halfState.2
  (halfState.1, r.1, r.2)

/-- A Muscle whose three members point to the objects at address 0. -/
def firstMuscle : Muscle := { m_position := 0, m_characteristics := 0, m_state := 0 }

/-- Objects of `firstMuscle`; a Characteristics is told here by its maximal isometric force
and a Geometry by its length, every Characteristics having the force 100. -/
def firstObjects : Objects ℚ ℚ :=
  { geometry := fun _ => 1
    characteristics := fun _ => 100
    stateDynamics := fun _ =>
      { m_stateType := 0, m_excitation := 0, m_excitationNorm := 1, m_activation := 2,
        m_previousExcitation := 3, m_previousActivation := 4, m_activationDot := 5 }
    nextStateDynamics := 1 }

/-- The cylinder `WrappingCylinder(rt, 2, 1, true)`: radius 1, positive sign. -/
def unitCylinder : WrappingCylinder ℚ :=
  WrappingCylinder.construct { x := Dbl.num 0, y := Dbl.num 0, z := Dbl.num 0 }
    (Dbl.num 2) (Dbl.num 1) true

/-- The cylinder `WrappingCylinder(rt, 4, 1, true)`: radius 2, positive sign. -/
def wideCylinder : WrappingCylinder ℚ :=
  WrappingCylinder.construct { x := Dbl.num 0, y := Dbl.num 0, z := Dbl.num 0 }
    (Dbl.num 4) (Dbl.num 1) true

/-- A point of rational coordinates. -/
def point (x y z : ℚ) : Vector3d ℚ := { x := Dbl.num x, y := Dbl.num y, z := Dbl.num z }

/-- The tangent points `wrapPoints` hands to `findVerticalNode` (its lines 92 to 98), for
endpoints already in the frame of the cylinder. -/
def tangentPoints {α : Type} [LinearOrderedField α] (A : Arith α) (w : WrappingCylinder α)
    (p_glob : NodeMusclePair α) : NodeMusclePair α :=
  { m_p1 := w.findTangentToCircle A p_glob.m_p1, m_p2 := w.findTangentToCircle A p_glob.m_p2 }

/-- Endpoints (2, 1, 0) and (2, -1, 0): both beyond the radius 1 in x, on opposite sides. -/
def endpointsBeyond : NodeMusclePair ℚ := { m_p1 := point 2 1 0, m_p2 := point 2 (-1) 0 }

/-- Endpoints (1, 2, 0) and (-1, 2, 0): both on the side `y > 0`. -/
def endpointsSameSide : NodeMusclePair ℚ := { m_p1 := point 1 2 0, m_p2 := point (-1) 2 0 }

/-- Endpoints (2, 1, 0) and (1, -2, 0): the tangent points come in the opposite x order. -/
def endpointsCrossed : NodeMusclePair ℚ := { m_p1 := point 2 1 0, m_p2 := point 1 (-2) 0 }

/-- Endpoints (1, 2, 3) and (1, -2, 1), on opposite sides of the cylinder. -/
def endpointsAcross : NodeMusclePair ℚ := { m_p1 := point 1 2 3, m_p2 := point 1 (-2) 1 }

/-! ## Functions of `<math.h>` -/

/-- The functions of `<math.h>` the sources call besides `sqrt`. -/
structure Libm (α : Type) where
  exp : Dbl α → Dbl α
  acos : Dbl α → Dbl α
  pow : Dbl α → Dbl α → Dbl α

namespace Libm

variable {α : Type} [LinearOrderedField α]

/-- Exponential of a double, `expf` giving the exponential of a number. -/
def exactExp (expf : α → α) : Dbl α → Dbl α
  | Dbl.nan => Dbl.nan
  | Dbl.ninf => Dbl.num 0
  | Dbl.num x => Dbl.num (expf x)
  | Dbl.pinf => Dbl.pinf

/-- Arc cosine of a double, `acosf` giving the arc cosine of a number of `[-1, 1]`. -/
def exactAcos (acosf : α → α) : Dbl α → Dbl α
  | Dbl.num x => if x < -1 ∨ 1 < x then Dbl.nan else Dbl.num (acosf x)
  | _ => Dbl.nan

/-- Power of two doubles, `powf` giving the power of two numbers and `oddInt` telling the odd
integers; the cases with NaN or an infinity are those of IEEE 754. -/
def exactPow (powf : α → α → α) (oddInt : α → Bool) : Dbl α → Dbl α → Dbl α
  | Dbl.num x, Dbl.num y => Dbl.num (powf x y)
  | Dbl.nan, Dbl.num y => if y = 0 then Dbl.num 1 else Dbl.nan
  | Dbl.nan, _ => Dbl.nan
  | Dbl.num x, Dbl.nan => if x = 1 then Dbl.num 1 else Dbl.nan
  | _, Dbl.nan => Dbl.nan
  | Dbl.num x, Dbl.pinf =>
    if |x| < 1 then Dbl.num 0 else if |x| = 1 then Dbl.num 1 else Dbl.pinf
  | Dbl.num x, Dbl.ninf =>
    if |x| < 1 then Dbl.pinf else if |x| = 1 then Dbl.num 1 else Dbl.num 0
  | Dbl.pinf, Dbl.num y => if y = 0 then Dbl.num 1 else if 0 < y then Dbl.pinf else Dbl.num 0
  | Dbl.pinf, Dbl.pinf => Dbl.pinf
  | Dbl.pinf, Dbl.ninf => Dbl.num 0
  | Dbl.ninf, Dbl.num y =>
    if y = 0 then Dbl.num 1
    else if 0 < y then (if oddInt y then Dbl.ninf else Dbl.pinf)
    else Dbl.num 0
  | Dbl.ninf, Dbl.pinf => Dbl.pinf
  | Dbl.ninf, Dbl.ninf => Dbl.num 0

/-- The functions of `<math.h>` without rounding. -/
def exact (expf acosf : α → α) (powf : α → α → α) (oddInt : α → Bool) : Libm α :=
  { exp := exactExp expf
    acos := exactAcos acosf
    pow := exactPow powf oddInt }

end Libm

/-! ## WrappingCylinder: the length and the cache -/

namespace WrappingCylinder

variable {α : Type} [LinearOrderedField α]

/-- Method `WrappingCylinder::computeLength`. -/
def computeLength (A : Arith α) (M : Libm α) (w : WrappingCylinder α) (p : NodeMusclePair α) :
    Dbl α :=
  let arc :=
    A.mul
      (M.acos
        (A.div (A.add (A.mul p.m_p1.x p.m_p2.x) (A.mul p.m_p1.y p.m_p2.y))
          (A.sqrt
            (A.mul (A.add (A.mul p.m_p1.x p.m_p1.x) (A.mul p.m_p1.y p.m_p1.y))
              (A.add (A.mul p.m_p2.x p.m_p2.x) (A.mul p.m_p2.y p.m_p2.y))))))
      (w.radius A)
  A.sqrt (A.add (A.mul arc arc)
    (A.mul (A.sub p.m_p1.z p.m_p2.z) (A.sub p.m_p1.z p.m_p2.z)))

/-- What a call of `wrapPoints` hands back: the two leave points, and the value stored
through `length` when that pointer is not null. -/
structure WrapResult (α : Type) where
  p1 : Vector3d α
  p2 : Vector3d α
  length : Option (Dbl α)

/-- Method `WrappingCylinder::wrapPoints(rt, p1_bone, p2_bone, p1, p2, length)`, with the
cylinder after the call.  `transpose` is `RotoTrans::transpose` (not among the sources) and
`withLength` tells that `length` is not the null pointer. -/
def wrapPoints (A : Arith α) (M : Libm α) (transpose : RotoTrans α → RotoTrans α)
    (w : WrappingCylinder α) (rt : RotoTrans α) (p1_bone p2_bone : Vector3d α)
    (withLength : Bool) : WrapResult α × WrappingCylinder α :=
  let p_glob : NodeMusclePair α :=
    { m_p1 := Vector3d.applyRT A p1_bone (transpose rt),
      m_p2 := Vector3d.applyRT A p2_bone (transpose rt) }
  let tanPoints := (w.findVerticalNode A p_glob (tangentPoints A w p_glob)).2
  let length : Option (Dbl α) :=
    if withLength then some (w.computeLength A M tanPoints) else none
  let tanPoints : NodeMusclePair α :=
    { m_p1 := Vector3d.applyRT A tanPoints.m_p1 rt, m_p2 := Vector3d.applyRT A tanPoints.m_p2 rt }
  ({ p1 := tanPoints.m_p1, p2 := tanPoints.m_p2, length := length },
   { w with
     m_p1Wrap := tanPoints.m_p1
     m_p2Wrap := tanPoints.m_p2
     m_lengthAroundWrap :=
       match length with
       | some l => l
       | none => w.m_lengthAroundWrap })

/-- Method `WrappingCylinder::wrapPoints(p1, p2, length)`, the accessor of the cache. -/
def wrapPointsCached (w : WrappingCylinder α) (withLength : Bool) : WrapResult α :=
  { p1 := w.m_p1Wrap, p2 := w.m_p2Wrap,
    length := if withLength then some w.m_lengthAroundWrap else none }

end WrappingCylinder

/-! ## HillThelenType (`src/Muscles/HillThelenType.cpp`) -/

/-- Class `biorbd::muscles::HillType` (`include/Muscles/HillType.h`): the shared cells of its
intermediate results and of its constants. -/
structure HillType where
  m_damping : Nat
  m_FlCE : Nat
  m_FlPE : Nat
  m_FvCE : Nat
  m_cste_FlCE_1 : Nat
  m_cste_FlCE_2 : Nat
  m_cste_FvCE_1 : Nat
  m_cste_FvCE_2 : Nat
  m_cste_FlPE_1 : Nat
  m_cste_FlPE_2 : Nat
  m_cste_eccentricForceMultiplier : Nat
  m_cste_damping : Nat
  m_cste_maxShorteningSpeed : Nat
deriving DecidableEq, Repr

namespace HillThelenType

variable {α : Type} [LinearOrderedField α]

/-- Method `HillThelenType::computeFlPE`.  `length`, `tendonSlackLength` and `optimalLength`
are what `position().length()`, `characteristics().tendonSlackLength()` and
`characteristics().optimalLength()` return. -/
def computeFlPE (A : Arith α) (M : Libm α) (m : HillType)
    (length tendonSlackLength optimalLength : Dbl α) (h : Heap α) : Heap α :=
  if Dbl.gt length tendonSlackLength then
    h.writeDbl m.m_FlPE
      (A.div
        (A.sub
          (M.exp (A.mul (h.dbl m.m_cste_FlPE_1) (A.sub (A.div length optimalLength) (Dbl.num 1))))
          (Dbl.num 1))
        (A.sub (M.exp (h.dbl m.m_cste_FlPE_2)) (Dbl.num 1)))
  else
    h.writeDbl m.m_FlPE (Dbl.num 0)

/-- Method `HillThelenType::computeFlCE`; its StateDynamics parameter has no name in the
source. -/
def computeFlCE (A : Arith α) (M : Libm α) (m : HillType) (_emg : StateDynamics)
    (length optimalLength : Dbl α) (h : Heap α) : Heap α :=
  h.writeDbl m.m_FlCE
    (M.exp
      (A.div
        (Dbl.neg (M.pow (A.sub (A.div length optimalLength) (Dbl.num 1)) (Dbl.num 2)))
        (h.dbl m.m_cste_FlCE_2)))

/-- The value `*m_FlPE`, which the accessor `HillType::FlPE` returns. -/
def FlPE (m : HillType) (h : Heap α) : Dbl α := h.dbl m.m_FlPE

/-- The value `*m_FlCE`, which the accessor `HillType::FlCE` returns. -/
def FlCE (m : HillType) (h : Heap α) : Dbl α := h.dbl m.m_FlCE

end HillThelenType

/-! ## Muscle: `setState` -/

namespace Muscle

variable {α : Type} {G C : Type}

/-- What `Muscle::setState` leaves: the message of `Error::raise` when it was reached, the
muscle and the objects. -/
structure SetStateResult (G C : Type) where
  raised : Option String
  muscle : Muscle
  objects : Objects G C

/-- Method `Muscle::setState`.  `std::make_shared` takes the next free address for the new
StateDynamics (or StateDynamicsBuchanan) object, and `*m_state = emg` then assigns every
member of it, so the cells its constructor had allocated are released.  `toStr` is
`STATE_TYPE_toStr`; `Error::raise` leaves the method, before the assignment. -/
def setState (toStr : STATE_TYPE → String) (m : Muscle) (emg : StateDynamics)
    (o : Objects G C) (h : Heap α) : SetStateResult G C :=
  if emg.type h = STATE_TYPE.BUCHANAN then
    let m1 : Muscle := { m with m_state := o.nextStateDynamics }
    { raised := none, muscle := m1,
      objects := { o with stateDynamics := Function.update o.stateDynamics m1.m_state emg,
                          nextStateDynamics := o.nextStateDynamics + 1 } }
  else if emg.type h = STATE_TYPE.DYNAMIC then
    let m1 : Muscle := { m with m_state := o.nextStateDynamics }
    { raised := none, muscle := m1,
      objects := { o with stateDynamics := Function.update o.stateDynamics m1.m_state emg,
                          nextStateDynamics := o.nextStateDynamics + 1 } }
  else
    { raised := some (toStr (emg.type h) ++ " is not a valid type for setState"),
      muscle := m, objects := o }

end Muscle

/-! ## Entry point `Matlab_muscleJointTorqueFromActivation` -/

/-- Value of an `unsigned int` expression: the number modulo `2 ^ 32`. -/
def u32 (n : Nat) : Nat := n % 2 ^ 32

namespace Matlab

/-- The numbers the entry point asks the model, each an `unsigned int`. -/
structure ModelSizes where
  nQ : Nat
  nQdot : Nat
  nTau : Nat
  nRoot : Nat
  nMuscleTotal : Nat
deriving DecidableEq, Repr

/-- What a call of `Muscles::muscularJointTorque` yields: the coefficients of the returned
GeneralizedTorque, the coefficients of the force vector `F`, and the model after the call. -/
structure TorqueCall (α σ : Type) where
  torque : Nat → Dbl α
  force : Nat → Dbl α
  model : σ

/-- The arrays behind `plhs[0]` and `plhs[1]` and the model, while the frames are processed. -/
structure LoopState (α σ : Type) where
  tau : Nat → Dbl α
  Mus : Nat → Dbl α
  model : σ

/-- What the entry point leaves when it returns: the dimensions and the data of `plhs[0]`,
those of `plhs[1]` when it was created, and the model. -/
structure Outputs (α σ : Type) where
  dims : Nat × Nat
  tau : Nat → Dbl α
  plhs1 : Option ((Nat × Nat) × (Nat → Dbl α))
  model : σ

variable {α σ S Qt : Type}

/-- Entry `(j, i)` of a MATLAB array of `rows` rows stored at `a` (column after column). -/
def entry (a : Nat → Dbl α) (rows j i : Nat) : Dbl α := a (j + i * rows)

/-- The loop `for (unsigned int j = 0; j < n; ++j) a[index j] = value j;`. -/
def distribute (n : Nat) (index : Nat → Nat) (value : Nat → Dbl α) (a : Nat → Dbl α) :
    Nat → Dbl α :=
  (List.range n).foldl (fun b j => Function.update b (index j) (value j)) a

/-- Body of the loop over the frames, for the frame `i` whose states are `si`.
`muscularJointTorque model emg withForce updateKin Q QDot` stands for the overloads of
`Muscles::muscularJointTorque` (not among the sources); a pointer that is not passed is
`none`. -/
def frameBody (sizes : ModelSizes)
    (muscularJointTorque : σ → S → Bool → Bool → Option Qt → Option Qt → TorqueCall α σ)
    (withForce updateKin : Bool) (Q QDot : List Qt) (i : Nat) (si : S)
    (st : LoopState α σ) : LoopState α σ :=
  let call :=
    if updateKin then muscularJointTorque st.model si withForce updateKin Q[i]? QDot[i]?
    else muscularJointTorque st.model si withForce updateKin none none
  { tau := distribute sizes.nTau (fun j => u32 (u32 (i * sizes.nTau) + j))
      (fun j => call.torque (u32 (j + sizes.nRoot))) st.tau
    Mus :=
      if withForce then
        distribute sizes.nMuscleTotal (fun j => u32 (u32 (i * sizes.nMuscleTotal) + j))
          (fun j => call.force j) st.Mus
      else st.Mus
    model := call.model }

/-- The loop `for (unsigned int i = 0; i < nFrame; ++i)`, from the frame `i` on, over the
states of the frames that remain. -/
def frames (sizes : ModelSizes)
    (muscularJointTorque : σ → S → Bool → Bool → Option Qt → Option Qt → TorqueCall α σ)
    (withForce updateKin : Bool) (Q QDot : List Qt) :
    Nat → List S → LoopState α σ → LoopState α σ
  | _, [], st => st
  | i, si :: rest, st =>
    frames sizes muscularJointTorque withForce updateKin Q QDot (i + 1) rest
      (frameBody sizes muscularJointTorque withForce updateKin Q QDot i si st)

/-- Function `Matlab_muscleJointTorqueFromActivation`.  `nlhs` and `nrhs` are the counts of
outputs and inputs, `model` the model behind `prhs[1]`, `s` what
`getParameterMuscleStateActivation` returns, `Q` and `QDot` what `getParameterQ` and
`getParameterQdot` return.  An error of `mexErrMsgIdAndTxt` (or of
`checkNombreInputParametres`, which rejects a count of inputs outside 3 to 5) leaves the
function at once: the result is then the message alone. -/
def Matlab_muscleJointTorqueFromActivation [LinearOrderedField α] (sizes : ModelSizes)
    (muscularJointTorque : σ → S → Bool → Bool → Option Qt → Option Qt → TorqueCall α σ)
    (nlhs nrhs : Int) (model : σ) (s : List S) (Q QDot : List Qt) :
    Except String (Outputs α σ) :=
  if nrhs < 3 ∨ 5 < nrhs then
    Except.error "3 arguments are required (+2 optional)"
  else
    let nFrame := u32 s.length
    if 4 ≤ nrhs ∧ nrhs ≠ 5 then
      Except.error "Q and Qdot must be sent to the function"
    else if ¬ 4 ≤ nrhs ∧ 1 < nFrame then
      Except.error "Update == false is incompatible with more than one frame."
    else
      let updateKin : Bool := decide (4 ≤ nrhs)
      if updateKin = true ∧ Q.length ≠ nFrame then
        Except.error "Q must have the same number of frames than muscles states"
      else if updateKin = true ∧ QDot.length ≠ nFrame then
        Except.error "QDot must have the same number of frames than muscles states"
      else
        let withForce : Bool := decide (2 ≤ nlhs)
        let st := frames sizes muscularJointTorque withForce updateKin Q QDot 0
          (s.take nFrame)
          { tau := fun _ => Dbl.num 0, Mus := fun _ => Dbl.num 0, model := model }
        Except.ok
          { dims := (sizes.nTau, nFrame)
            tau := st.tau
            plhs1 := if withForce then some ((sizes.nMuscleTotal, nFrame), st.Mus) else none
            model := st.model }

/-- The calls of `muscularJointTorque` one after the other, from the frame `i` on: the frame
`i + k` is computed by the element `k` of the list. -/
def frameCalls
    (muscularJointTorque : σ → S → Bool → Bool → Option Qt → Option Qt → TorqueCall α σ)
    (withForce updateKin : Bool) (Q QDot : List Qt) : Nat → List S → σ → List (TorqueCall α σ)
  | _, [], _ => []
  | i, si :: rest, model =>
    let call :=
      if updateKin then muscularJointTorque model si withForce updateKin Q[i]? QDot[i]?
      else muscularJointTorque model si withForce updateKin none none
    call :: frameCalls muscularJointTorque withForce updateKin Q QDot (i + 1) rest call.model

/-- A stand-in for `muscularJointTorque` whose model counts the calls: the call number `n`
returns the torque `n` in every coefficient and the force `10 n + j` in the coefficient `j`. -/
def countingTorque : Nat → Unit → Bool → Bool → Option Unit → Option Unit → TorqueCall ℚ Nat :=
  fun n _ _ _ _ _ =>
    { torque := fun _ => Dbl.num n, force := fun j => Dbl.num (10 * n + j), model := n + 1 }

end Matlab

/-! ## Model file reader (`src/ModelReader.cpp`): muscle, viapoint and wrap elements -/

/-- The comparison `a == b` of two doubles; false as soon as one is NaN. -/
def Dbl.eq {α : Type} [LinearOrderedField α] : Dbl α → Dbl α → Bool
  | Dbl.ninf, Dbl.ninf => true
  | Dbl.pinf, Dbl.pinf => true
  | Dbl.num x, Dbl.num y => decide (x = y)
  | _, _ => false

/-- Conversion `static_cast<unsigned int>(i)` of an `int`. -/
def castU32 (i : Int) : Nat := (i % 2 ^ 32).toNat

/-- Enumeration `biorbd::muscles::MUSCLE_TYPE` (the enumerators the reader uses). -/
inductive MUSCLE_TYPE where
  | IDEALIZED_ACTUATOR
  | HILL
  | HILL_THELEN
  | HILL_THELEN_FATIGABLE
  | NO_MUSCLE_TYPE
deriving DecidableEq, Repr

/-- Enumeration `biorbd::muscles::STATE_FATIGUE_TYPE` (the enumerators the reader uses). -/
inductive STATE_FATIGUE_TYPE where
  | SIMPLE_STATE_FATIGUE
  | DYNAMIC_XIA
  | NO_FATIGUE_STATE_TYPE
deriving DecidableEq, Repr

namespace Reader

/-- What the reader asks the model: `getGroupId(name)`, `muscleGroup(g).muscleID(name)` and
`IsBodyId(GetBodyId(name))`. -/
structure Lookups where
  getGroupId : String → Int
  muscleID : Nat → String → Int
  bodyKnown : String → Bool

/-- The four values of a `biorbd::muscles::FatigueParameters`. -/
structure FatigueParameters (α : Type) where
  fatigueRate : Dbl α
  recoveryRate : Dbl α
  developFactor : Dbl α
  recoveryFactor : Dbl α

/-- The local variables of the branch `muscle` of `readModelFile`. -/
structure MuscleVars (α : Type) where
  type : MUSCLE_TYPE
  stateType : STATE_TYPE
  dynamicFatigueType : STATE_FATIGUE_TYPE
  muscleGroup : String
  idxGroup : Int
  origin_pos : Vector3d α
  insert_pos : Vector3d α
  optimalLength : Dbl α
  maxForce : Dbl α
  tendonSlackLength : Dbl α
  pennAngle : Dbl α
  maxExcitation : Dbl α
  maxActivation : Dbl α
  PCSA : Dbl α
  fatigueParameters : FatigueParameters α

variable {α : Type} [LinearOrderedField α]

/-- Method `biorbd::utils::String::tolower`: every character through `tolower`. -/
def tolower (s : String) : String := String.mk (s.data.map Char.toLower)

/-- The token `file.read(text)` stores; at the end of the file `text` keeps its value. -/
def readString (old : String) : List String → String
  | [] => old
  | t :: _ => t

/-- The number `file.read(value, variable)` stores, `parse` turning a token into a number;
at the end of the file `value` keeps its value. -/
def readDouble (parse : String → Dbl α) (old : Dbl α) : List String → Dbl α
  | [] => old
  | t :: _ => parse t

/-- The three reads `for (i = 0; i < 3; ++i) file.read(v(i), variable)`. -/
def readVector (parse : String → Dbl α) (old : Vector3d α) (ts : List String) : Vector3d α :=
  { x := readDouble parse old.x ts
    y := readDouble parse old.y (ts.drop 1)
    z := readDouble parse old.z (ts.drop 2) }

mutual

/-- The loop `while (file.read(property_tag) && property_tag.tolower().compare("endmuscle"))`
of the branch `muscle`, on the tokens that remain in the file: the variables and the tokens
after the loop, or the message of the error raised. -/
def muscleProperties (L : Lookups) (parse : String → Dbl α) :
    List String → MuscleVars α → Except String (MuscleVars α × List String)
  | [], v => Except.ok (v, [])
  | property_tag :: ts, v =>
    if tolower property_tag = "endmuscle" then Except.ok (v, ts)
    else if tolower property_tag = "musclegroup" then
      if L.getGroupId (readString v.muscleGroup ts) = -1 then
        Except.error "Could not find muscle group"
      else
        muscleProperties L parse (ts.drop 1)
          { v with muscleGroup := readString v.muscleGroup ts,
                   idxGroup := L.getGroupId (readString v.muscleGroup ts) }
    else if tolower property_tag = "type" then
      if tolower (readString "" ts) = "idealizedactuator" then
        muscleProperties L parse (ts.drop 1) { v with type := MUSCLE_TYPE.IDEALIZED_ACTUATOR }
      else if tolower (readString "" ts) = "hil" then
        muscleProperties L parse (ts.drop 1) { v with type := MUSCLE_TYPE.HILL }
      else if tolower (readString "" ts) = "hillthelen"
          ∨ tolower (readString "" ts) = "thelen" then
        muscleProperties L parse (ts.drop 1) { v with type := MUSCLE_TYPE.HILL_THELEN }
      else if tolower (readString "" ts) = "hillthelenfatigable"
          ∨ tolower (readString "" ts) = "thelenfatigable" then
        muscleProperties L parse (ts.drop 1)
          { v with type := MUSCLE_TYPE.HILL_THELEN_FATIGABLE }
      else
        Except.error (property_tag ++ " is not a valid muscle type")
    else if tolower property_tag = "statetype" then
      if tolower (readString "" ts) = "buchanan" then
        muscleProperties L parse (ts.drop 1) { v with stateType := STATE_TYPE.BUCHANAN }
      else
        Except.error (property_tag ++ " is not a valid muscle state type")
    else if tolower property_tag = "originposition" then
      muscleProperties L parse (ts.drop 3)
        { v with origin_pos := readVector parse v.origin_pos ts }
    else if tolower property_tag = "insertionposition" then
      muscleProperties L parse (ts.drop 3)
        { v with insert_pos := readVector parse v.insert_pos ts }
    else if tolower property_tag = "optimallength" then
      muscleProperties L parse (ts.drop 1)
        { v with optimalLength := readDouble parse v.optimalLength ts }
    else if tolower property_tag = "tendonslacklength" then
      muscleProperties L parse (ts.drop 1)
        { v with tendonSlackLength := readDouble parse v.tendonSlackLength ts }
    else if tolower property_tag = "pennationangle" then
      muscleProperties L parse (ts.drop 1)
        { v with pennAngle := readDouble parse v.pennAngle ts }
    else if tolower property_tag = "maximalforce" then
      muscleProperties L parse (ts.drop 1)
        { v with maxForce := readDouble parse v.maxForce ts }
    else if tolower property_tag = "maximalexcitation" then
      muscleProperties L parse (ts.drop 1)
        { v with maxExcitation := readDouble parse v.maxExcitation ts }
    else if tolower property_tag = "pcsa" then
      muscleProperties L parse (ts.drop 1) { v with PCSA := readDouble parse v.PCSA ts }
    else if tolower property_tag = "fatigueparameters" then
      fatigueProperties L parse ts v
    else
      muscleProperties L parse ts v
termination_by ts _ => ts.length
decreasing_by
  all_goals simp_wf
  all_goals omega

/-- The inner loop
`while (file.read(subproperty_tag) && subproperty_tag.tolower().compare("endfatigueparameters"))`
of the property `fatigueparameters`; when it ends, the loop of the properties goes on. -/
def fatigueProperties (L : Lookups) (parse : String → Dbl α) :
    List String → MuscleVars α → Except String (MuscleVars α × List String)
  | [], v => Except.ok (v, [])
  | subproperty_tag :: ts, v =>
    if tolower subproperty_tag = "endfatigueparameters" then muscleProperties L parse ts v
    else if tolower subproperty_tag = "type" then
      if tolower (readString "" ts) = "simple" then
        fatigueProperties L parse (ts.drop 1)
          { v with dynamicFatigueType := STATE_FATIGUE_TYPE.SIMPLE_STATE_FATIGUE }
      else if tolower (readString "" ts) = "xia" then
        fatigueProperties L parse (ts.drop 1)
          { v with dynamicFatigueType := STATE_FATIGUE_TYPE.DYNAMIC_XIA }
      else
        Except.error (readString "" ts ++ " is not a value fatigue parameter type")
    else if tolower subproperty_tag = "fatiguerate" then
      fatigueProperties L parse (ts.drop 1)
        { v with fatigueParameters :=
            { v.fatigueParameters with fatigueRate := readDouble parse (Dbl.num 0) ts } }
    else if tolower subproperty_tag = "recoveryrate" then
      fatigueProperties L parse (ts.drop 1)
        { v with fatigueParameters :=
            { v.fatigueParameters with recoveryRate := readDouble parse (Dbl.num 0) ts } }
    else if tolower subproperty_tag = "developfactor" then
      fatigueProperties L parse (ts.drop 1)
        { v with fatigueParameters :=
            { v.fatigueParameters with developFactor := readDouble parse (Dbl.num 0) ts } }
    else if tolower subproperty_tag = "recoveryfactor" then
      fatigueProperties L parse (ts.drop 1)
        { v with fatigueParameters :=
            { v.fatigueParameters with recoveryFactor := readDouble parse (Dbl.num 0) ts } }
    else
      fatigueProperties L parse (ts.drop 1) v
termination_by ts _ => ts.length
decreasing_by
  all_goals simp_wf
  all_goals omega

end

end Reader

namespace Reader

variable {α : Type} [LinearOrderedField α]

/-- The call `model->muscleGroup(group).addMuscle(name, type, geo, characteristics, ...)`
that ends the branch `muscle`: `group` is the unsigned argument of `muscleGroup`. -/
structure AddMuscle (α : Type) where
  group : Nat
  name : String
  vars : MuscleVars α

/-- The branch `muscle` of `readModelFile`, on the tokens after the tag `muscle`: the call
that adds the muscle and the tokens that remain, or the message of the error raised.
`fatigueParameters` is what the default constructor of FatigueParameters holds. -/
def readMuscle (L : Lookups) (parse : String → Dbl α) (fatigueParameters : FatigueParameters α)
    (tokens : List String) : Except String (AddMuscle α × List String) :=
  match muscleProperties L parse (tokens.drop 1)
      { type := MUSCLE_TYPE.NO_MUSCLE_TYPE
        stateType := STATE_TYPE.NO_STATE_TYPE
        dynamicFatigueType := STATE_FATIGUE_TYPE.NO_FATIGUE_STATE_TYPE
        muscleGroup := ""
        idxGroup := -1
        origin_pos := { x := Dbl.num 0, y := Dbl.num 0, z := Dbl.num 0 }
        insert_pos := { x := Dbl.num 0, y := Dbl.num 0, z := Dbl.num 0 }
        optimalLength := Dbl.num 0
        maxForce := Dbl.num 0
        tendonSlackLength := Dbl.num 0
        pennAngle := Dbl.num 0
        maxExcitation := Dbl.num 0
        maxActivation := Dbl.num 0
        PCSA := Dbl.num 1
        fatigueParameters := fatigueParameters } with
  | Except.error e => Except.error e
  | Except.ok (v, rest) =>
    if v.idxGroup = -1 then Except.error "No muscle group was provided!"
    else
      Except.ok ({ group := castU32 v.idxGroup, name := readString "" tokens, vars := v }, rest)

/-- The local variables of the branch `viapoint` of `readModelFile`. -/
structure ViaPointVars (α : Type) where
  parent : String
  muscle : String
  musclegroup : String
  position : Vector3d α

/-- The loop over the properties of the branch `viapoint`. -/
def viaPointProperties (L : Lookups) (parse : String → Dbl α) :
    List String → ViaPointVars α → Except String (ViaPointVars α × List String)
  | [], v => Except.ok (v, [])
  | property_tag :: ts, v =>
    if tolower property_tag = "endviapoint" then Except.ok (v, ts)
    else if tolower property_tag = "parent" then
      if L.bodyKnown (readString v.parent ts) then
        viaPointProperties L parse (ts.drop 1) { v with parent := readString v.parent ts }
      else
        Except.error "Wrong origin parent name for a muscle"
    else if tolower property_tag = "muscle" then
      viaPointProperties L parse (ts.drop 1) { v with muscle := readString v.muscle ts }
    else if tolower property_tag = "musclegroup" then
      viaPointProperties L parse (ts.drop 1)
        { v with musclegroup := readString v.musclegroup ts }
    else if tolower property_tag = "position" then
      viaPointProperties L parse (ts.drop 3)
        { v with position := readVector parse v.position ts }
    else
      viaPointProperties L parse ts v
termination_by ts _ => ts.length
decreasing_by
  all_goals simp_wf
  all_goals omega

/-- The call `model->muscleGroup(group).muscle(muscle).addPathObject(object)` that ends the
branches `viapoint` and `wrap`, with the two `int` indices the lookups returned. -/
structure AddPathObject (V : Type) where
  iMuscleGroup : Int
  iMuscle : Int
  group : Nat
  muscle : Nat
  name : String
  object : V

/-- The branch `viapoint` of `readModelFile`, on the tokens after the tag `viapoint`. -/
def readViaPoint (L : Lookups) (parse : String → Dbl α) (tokens : List String) :
    Except String (AddPathObject (ViaPointVars α) × List String) :=
  match viaPointProperties L parse (tokens.drop 1)
      { parent := "", muscle := "", musclegroup := "",
        position := { x := Dbl.num 0, y := Dbl.num 0, z := Dbl.num 0 } } with
  | Except.error e => Except.error e
  | Except.ok (v, rest) =>
    if L.getGroupId v.musclegroup = -1 then Except.error "No muscle group was provided!"
    else if L.muscleID (castU32 (L.getGroupId v.musclegroup)) v.muscle = -1 then
      Except.error "No muscle was provided!"
    else
      Except.ok
        ({ iMuscleGroup := L.getGroupId v.musclegroup
           iMuscle := L.muscleID (castU32 (L.getGroupId v.musclegroup)) v.muscle
           group := castU32 (L.getGroupId v.musclegroup)
           muscle := castU32 (L.muscleID (castU32 (L.getGroupId v.musclegroup)) v.muscle)
           name := readString "" tokens
           object := v }, rest)

/-- The local variables of the branch `wrap` of `readModelFile`. -/
structure WrapVars (α : Type) where
  muscle : String
  musclegroup : String
  parent : String
  RT : RotoTrans α
  dia : Dbl α
  length : Dbl α
  side : Int

/-- The sixteen reads `file.read(RT(i, j), variable)`, row after row. -/
def readRT (parse : String → Dbl α) (old : RotoTrans α) (ts : List String) : RotoTrans α :=
  fun i j => readDouble parse (old i j) (ts.drop (4 * i.val + j.val))

/-- The loop over the properties of the branch `wrap`; `parseInt` turns a token into an
`int`. -/
def wrapProperties (L : Lookups) (parse : String → Dbl α) (parseInt : String → Int) :
    List String → WrapVars α → Except String (WrapVars α × List String)
  | [], v => Except.ok (v, [])
  | property_tag :: ts, v =>
    if tolower property_tag = "endwrapping" then Except.ok (v, ts)
    else if tolower property_tag = "parent" then
      if L.bodyKnown (readString v.parent ts) then
        wrapProperties L parse parseInt (ts.drop 1) { v with parent := readString v.parent ts }
      else
        Except.error "Wrong origin parent name for a muscle"
    else if tolower property_tag = "rt" then
      wrapProperties L parse parseInt (ts.drop 16) { v with RT := readRT parse v.RT ts }
    else if tolower property_tag = "muscle" then
      wrapProperties L parse parseInt (ts.drop 1) { v with muscle := readString v.muscle ts }
    else if tolower property_tag = "musclegroup" then
      wrapProperties L parse parseInt (ts.drop 1)
        { v with musclegroup := readString v.musclegroup ts }
    else if tolower property_tag = "diameter" then
      wrapProperties L parse parseInt (ts.drop 1) { v with dia := readDouble parse v.dia ts }
    else if tolower property_tag = "length" then
      wrapProperties L parse parseInt (ts.drop 1)
        { v with length := readDouble parse v.length ts }
    else if tolower property_tag = "wrappingside" then
      wrapProperties L parse parseInt (ts.drop 1)
        { v with side := match ts with
                         | [] => v.side
                         | t :: _ => parseInt t }
    else
      wrapProperties L parse parseInt ts v
termination_by ts _ => ts.length
decreasing_by
  all_goals simp_wf
  all_goals omega

/-- The branch `wrap` of `readModelFile`, on the tokens after the tag `wrap`; `RT` is what
the default constructor of RotoTrans holds. -/
def readWrap (L : Lookups) (parse : String → Dbl α) (parseInt : String → Int)
    (RT : RotoTrans α) (tokens : List String) :
    Except String (AddPathObject (WrapVars α) × List String) :=
  match wrapProperties L parse parseInt (tokens.drop 1)
      { muscle := "", musclegroup := "", parent := "", RT := RT,
        dia := Dbl.num 0, length := Dbl.num 0, side := 1 } with
  | Except.error e => Except.error e
  | Except.ok (v, rest) =>
    if Dbl.eq v.dia (Dbl.num 0) then Except.error "Diameter was not defined"
    else if Dbl.eq v.length (Dbl.num 0) then Except.error "Length was not defined"
    else if !(Dbl.lt v.length (Dbl.num 0)) then Except.error "Side was not properly defined"
    else if v.parent = "" then Except.error "Parent was not defined"
    else if L.getGroupId v.musclegroup = -1 then Except.error "No muscle group was provided!"
    else if L.muscleID (castU32 (L.getGroupId v.musclegroup)) v.muscle = -1 then
      Except.error "No muscle was provided!"
    else
      Except.ok
        ({ iMuscleGroup := L.getGroupId v.musclegroup
           iMuscle := L.muscleID (castU32 (L.getGroupId v.musclegroup)) v.muscle
           group := castU32 (L.getGroupId v.musclegroup)
           muscle := castU32 (L.muscleID (castU32 (L.getGroupId v.musclegroup)) v.muscle)
           name := readString "" tokens
           object := v }, rest)

/-- The group index of the variables is still the initial -1, or it is what `getGroupId`
returned for some name. -/
def GroupIndexFound (L : Lookups) (v : MuscleVars α) : Prop :=
  v.idxGroup = -1 ∨ ∃ name, L.getGroupId name = v.idxGroup

/-- The tokens of a viapoint element after the tag `viapoint`. -/
def viaPointTokens : List String :=
  ["via1", "parent", "humerus", "muscle", "biceps", "musclegroup", "arm",
   "position", "0.1", "-0.2", "0.1", "endviapoint"]

/-- A model with the one muscle group `arm` (index 0) holding the one muscle `biceps`
(index 0), and the body `humerus`. -/
def armModel : Lookups :=
  { getGroupId := fun n => if n = "arm" then 0 else -1
    muscleID := fun g n => if g = 0 ∧ n = "biceps" then 0 else -1
    bodyKnown := fun n => decide (n = "humerus") }

/-- A reading of numbers that knows the tokens `0.1` and `-0.2` (every other token reads
as 1). -/
def parseSome : String → Dbl ℚ :=
  fun t => if t = "0.1" then Dbl.num (1 / 10) else if t = "-0.2" then Dbl.num (-2 / 10)
    else Dbl.num 1

end Reader

/-- A HillThelenType muscle whose thirteen cells are the addresses 0 to 12. -/
def someHill : HillType :=
  { m_damping := 0, m_FlCE := 1, m_FlPE := 2, m_FvCE := 3, m_cste_FlCE_1 := 4,
    m_cste_FlCE_2 := 5, m_cste_FvCE_1 := 6, m_cste_FvCE_2 := 7, m_cste_FlPE_1 := 8,
    m_cste_FlPE_2 := 9, m_cste_eccentricForceMultiplier := 10, m_cste_damping := 11,
    m_cste_maxShorteningSpeed := 12 }

/-- The memory of `someHill` with the documented constants `FlCE_2 = 0.45`, `FlPE_1 = 10`
and `FlPE_2 = 5`. -/
def hillHeap {α : Type} [LinearOrderedField α] : Heap α :=
  ((Heap.empty.writeDbl 5 (Dbl.num (45 / 100))).writeDbl 8 (Dbl.num 10)).writeDbl 9 (Dbl.num 5)

/-- A StateDynamics of type DYNAMIC with excitation 1/4 and activation 3/4, in its memory. -/
def dynamicEmg : StateDynamics × Heap ℚ :=
  ({ m_stateType := 0, m_excitation := 0, m_excitationNorm := 1, m_activation := 2,
     m_previousExcitation := 3, m_previousActivation := 4, m_activationDot := 5 },
   { dbl := fun p => if p = 0 then Dbl.num (1 / 4) else if p = 2 then Dbl.num (3 / 4) else Dbl.num 0
     typ := fun _ => STATE_TYPE.DYNAMIC
     nextDbl := 6
     nextTyp := 1 })

/-- The name of a state type, for the message of `setState`. -/
def stateTypeName : STATE_TYPE → String
  | STATE_TYPE.SIMPLE_STATE => "Simple"
  | STATE_TYPE.DYNAMIC => "Dynamic"
  | STATE_TYPE.BUCHANAN => "Buchanan"
  | STATE_TYPE.NO_STATE_TYPE => "NoType"

/-! ## Inputs for the absorbing clamps and for the sign of the cylinder -/

/-- The memory after `State s(1, 1);` in the empty memory, with the object `s`. -/
def fullState : State × Heap ℚ := State.construct (Dbl.num 1) (Dbl.num 1) Heap.empty

/-- The memory after `State s;` in the empty memory (both default arguments are 0), with the
object `s`. -/
def defaultState : State × Heap ℚ := State.construct (Dbl.num 0) (Dbl.num 0) Heap.empty

/-- The cylinder `WrappingCylinder(rt, 2, 1, false)`: radius 1, negative sign. -/
def negativeCylinder : WrappingCylinder ℚ :=
  WrappingCylinder.construct { x := Dbl.num 0, y := Dbl.num 0, z := Dbl.num 0 }
    (Dbl.num 2) (Dbl.num 1) false

namespace WrappingCylinder

variable {α : Type} [LinearOrderedField α]

/-- The local `m` of `WrappingCylinder::findTangentToCircle` when `selectTangents` is called:
`m.m_p1` holds the candidate `Q0 + T` and `m.m_p2` the candidate `Q0 - T`, both with the
third coefficient of `p`. -/
def tangentCandidates (A : Arith α) (w : WrappingCylinder α) (p : Vector3d α) :
    NodeMusclePair α :=
  let p_dot := A.add (A.mul p.x p.x) (A.mul p.y p.y)
  let q := A.div (A.mul (w.radius A) (w.radius A)) p_dot
  let Q0x := A.mul q p.x
  let Q0y := A.mul q p.y
  let s := A.mul (A.div (w.radius A) p_dot) (A.sqrt (A.sub p_dot (A.mul (w.radius A) (w.radius A))))
  let Tx := A.add (A.mul (A.mul s (Dbl.num 0)) p.x) (A.mul (A.mul s (Dbl.num (-1))) p.y)
  let Ty := A.add (A.mul (A.mul s (Dbl.num 1)) p.x) (A.mul (A.mul s (Dbl.num 0)) p.y)
  { m_p1 := { x := A.add Q0x Tx, y := A.add Q0y Ty, z := p.z },
    m_p2 := { x := A.sub Q0x Tx, y := A.sub Q0y Ty, z := p.z } }

end WrappingCylinder

/-! ## Muscle: the constructors taking path modifiers (`src/Muscles/Muscle.cpp`) -/

/-- The objects of a Muscle with the next free address of each class, for `std::make_shared`
in the constructors. -/
structure MuscleObjects (G C : Type) extends Objects G C where
  nextGeometry : Nat
  nextCharacteristics : Nat

/-- What a constructor of Muscle leaves when it does not throw: the base-class part, the three
shared pointers, the objects and the memory. -/
structure Muscle.Constructed (α G C K : Type) where
  compound : K
  muscle : Muscle
  objects : MuscleObjects G C
  heap : Heap α

namespace Muscle

variable {α : Type} {G C K P : Type}

/-- The member initialisers shared by the constructors of Muscle that take a Geometry and a
Characteristics: `m_position(make_shared<Geometry>(position))`,
`m_characteristics(make_shared<Characteristics>(characteristics))` and
`m_state(make_shared<StateDynamics>())`.  The copy constructors of Geometry and of
Characteristics and the constructor `StateDynamics()` are not among the sources: they are the
first three arguments. -/
def initMembers (Geometry_copy : G → G) (Characteristics_copy : C → C)
    (StateDynamics_default : Heap α → StateDynamics × Heap α)
    (position : G) (characteristics : C) (o : MuscleObjects G C) (h : Heap α) :
    Muscle × MuscleObjects G C × Heap α :=
  let m : Muscle :=
    { m_position := o.nextGeometry, m_characteristics := o.nextCharacteristics,
      m_state := o.nextStateDynamics }
  let s := StateDynamics_default h
  (m,
   { geometry := Function.update o.geometry m.m_position (Geometry_copy position)
     characteristics :=
       Function.update o.characteristics m.m_characteristics (Characteristics_copy characteristics)
     stateDynamics := Function.update o.stateDynamics m.m_state s.1
     nextStateDynamics := o.nextStateDynamics + 1
     nextGeometry := o.nextGeometry + 1
     nextCharacteristics := o.nextCharacteristics + 1 },
   s.2)

/-- Constructor `Muscle::Muscle(name, position, characteristics, pathModifiers)`: the base
class is built by `Compound(name, pathModifiers)` (not among the sources, the first argument;
an error it throws leaves the constructor), then the members; the body is empty. -/
def constructWithPathModifiers (Compound_construct : String → P → Except String K)
    (Geometry_copy : G → G) (Characteristics_copy : C → C)
    (StateDynamics_default : Heap α → StateDynamics × Heap α)
    (name : String) (position : G) (characteristics : C) (pathModifiers : P)
    (o : MuscleObjects G C) (h : Heap α) : Except String (Constructed α G C K) :=
  match Compound_construct name pathModifiers with
  | Except.error e => Except.error e
  | Except.ok k =>
    let r := initMembers Geometry_copy Characteristics_copy StateDynamics_default
      position characteristics o h
    Except.ok { compound := k, muscle := r.1, objects := r.2.1, heap := r.2.2 }

/-- Constructor `Muscle::Muscle(name, g, c, pathModifiers, s)`: base class and members as
above, then `setState(s)`, then
`Error::check(pathModifiers.nbWraps() <= 1, "Multiple wrapping objects is not implemented yet")`.
`nbWraps` is `PathModifiers::nbWraps` (not among the sources). -/
def constructWithPathModifiersAndState (Compound_construct : String → P → Except String K)
    (Geometry_copy : G → G) (Characteristics_copy : C → C)
    (StateDynamics_default : Heap α → StateDynamics × Heap α)
    (toStr : STATE_TYPE → String) (nbWraps : P → Nat)
    (name : String) (g : G) (c : C) (pathModifiers : P) (s : StateDynamics)
    (o : MuscleObjects G C) (h : Heap α) : Except String (Constructed α G C K) :=
  match Compound_construct name pathModifiers with
  | Except.error e => Except.error e
  | Except.ok k =>
    let r := initMembers Geometry_copy Characteristics_copy StateDynamics_default g c o h
    let r1 := setState toStr r.1 s r.2.1.toObjects r.2.2
    match r1.raised with
    | some msg => Except.error msg
    | none =>
      if nbWraps pathModifiers ≤ 1 then
        Except.ok { compound := k, muscle := r1.muscle,
                    objects := { r.2.1 with toObjects := r1.objects }, heap := r.2.2 }
      else
        Except.error "Multiple wrapping objects is not implemented yet"

end Muscle

/-- An instance of the constructor `StateDynamics()`, whose definition is not among the
sources: the State part is built by `State(0, 0)`, then three cells holding 0. -/
def defaultStateDynamics (h : Heap ℚ) : StateDynamics × Heap ℚ :=
  let s := State.construct (Dbl.num 0) (Dbl.num 0) h
  let p1 := s.2.allocDbl (Dbl.num 0)
  let p2 := p1.2.allocDbl (Dbl.num 0)
  let p3 := p2.2.allocDbl (Dbl.num 0)
  ({ toState := s.1, m_previousExcitation := p1.1, m_previousActivation := p2.1,
     m_activationDot := p3.1 }, p3.2)

/-- Path modifiers told by the names of their wrapping objects: two of them. -/
def twoWraps : List String := ["wrap1", "wrap2"]

/-- The objects `firstObjects`, the address 0 of each class being taken. -/
def firstMuscleObjects : MuscleObjects ℚ ℚ :=
  { toObjects := firstObjects, nextGeometry := 1, nextCharacteristics := 1 }

/-- An instance of the constructor `Compound(name, pathModifiers)`, whose definition is not
among the sources: it keeps the name and the path modifiers. -/
def keepCompound (name : String) (pathModifiers : List String) :
    Except String (String × List String) :=
  Except.ok (name, pathModifiers)

/-- Height the specification gives a point `(xW, yW)` between the endpoints `A` and `B`:
`zB + ((u.w - u.B) / (u.A - u.B)) * (zA - zB)`, where `u` is the unit direction of the chord
from `A` to `B` projected on the xy plane; `root` is the square root. -/
def interpolatedHeight {α : Type} [LinearOrderedField α] (root : α → α)
    (xA yA zA xB yB zB xW yW : α) : α :=
  let n := root ((xB - xA) * (xB - xA) + (yB - yA) * (yB - yA))
  let ux := (xB - xA) / n
  let uy := (yB - yA) / n
  zB + ((ux * xW + uy * yW) - (ux * xB + uy * yB)) / ((ux * xA + uy * yA) - (ux * xB + uy * yB))
    * (zA - zB)

/-! ## Model file reader: what the specification says of the muscle type, and inputs -/

namespace Reader

/-- The six values the specification gives the property `type` of a muscle element, each
with the muscle type it selects. -/
def muscleTypeTokens : List (String × MUSCLE_TYPE) :=
  [("idealizedactuator", MUSCLE_TYPE.IDEALIZED_ACTUATOR),
   ("hil", MUSCLE_TYPE.HILL),
   ("hillthelen", MUSCLE_TYPE.HILL_THELEN),
   ("thelen", MUSCLE_TYPE.HILL_THELEN),
   ("hillthelenfatigable", MUSCLE_TYPE.HILL_THELEN_FATIGABLE),
   ("thelenfatigable", MUSCLE_TYPE.HILL_THELEN_FATIGABLE)]

/-- The muscle type the specification gives a value of the property `type`: the value is
compared with the six tokens without regard to case, and no type is given to another
value. -/
def muscleTypeOfValue (value : String) : Option MUSCLE_TYPE :=
  muscleTypeTokens.lookup (tolower value)

/-- The variables of the branch `muscle` before its loop, for a fatigue-free muscle. -/
def initialMuscleVars : MuscleVars ℚ :=
  { type := MUSCLE_TYPE.NO_MUSCLE_TYPE
    stateType := STATE_TYPE.NO_STATE_TYPE
    dynamicFatigueType := STATE_FATIGUE_TYPE.NO_FATIGUE_STATE_TYPE
    muscleGroup := ""
    idxGroup := -1
    origin_pos := { x := Dbl.num 0, y := Dbl.num 0, z := Dbl.num 0 }
    insert_pos := { x := Dbl.num 0, y := Dbl.num 0, z := Dbl.num 0 }
    optimalLength := Dbl.num 0
    maxForce := Dbl.num 0
    tendonSlackLength := Dbl.num 0
    pennAngle := Dbl.num 0
    maxExcitation := Dbl.num 0
    maxActivation := Dbl.num 0
    PCSA := Dbl.num 1
    fatigueParameters :=
      { fatigueRate := Dbl.num 0, recoveryRate := Dbl.num 0, developFactor := Dbl.num 0,
        recoveryFactor := Dbl.num 0 } }

/-- The tokens of a wrap element after the tag `wrap`, of diameter 0.1 and of the length
told by the token `length`. -/
def wrapTokens (length : String) : List String :=
  ["wrap1", "parent", "humerus", "muscle", "biceps", "musclegroup", "arm",
   "diameter", "0.1", "length", length, "endwrapping"]

/-- The pose whose sixteen coefficients are 0. -/
def zeroRT : RotoTrans ℚ := fun _ _ => Dbl.num 0

end Reader

/-! ## Model file reader: imu elements (`src/ModelReader.cpp`) -/

namespace Reader

variable {α : Type} [LinearOrderedField α]

/-- The value `file.read(b)` stores in a `bool`, `parseBool` turning a token into a `bool`;
at the end of the file `b` keeps its value. -/
def readBool (parseBool : String → Bool) (old : Bool) : List String → Bool
  | [] => old
  | t :: _ => parseBool t

/-- What the branch `imu` takes from code that is not among the sources: the reading of a
number with the variables of the file (`file.read(value, variable)`), the reading of a number
(`file.read(value)`), the reading of a `bool`, and the constructor
`RotoTrans(rot, trans, seq)`. -/
structure Reads (α : Type) where
  parse : String → Dbl α
  parseNum : String → Dbl α
  parseBool : String → Bool
  fromEuler : Vector3d α → Vector3d α → String → RotoTrans α

/-- The local variables of the branch `imu` of `readModelFile` that its loop assigns. -/
structure IMUVars (α : Type) where
  parent_str : String
  RT : RotoTrans α
  RTinMatrix : Bool
  isRTset : Bool
  technical : Bool
  anatomical : Bool

/-- A call `model->addIMU(RT, technical, anatomical)`, `RT` carrying the name and the parent
that `RT.setName(name)` and `RT.setParent(parent_str)` gave it. -/
structure AddIMU (α : Type) where
  RT : RotoTrans α
  name : String
  parent : String
  technical : Bool
  anatomical : Bool

/-- The call of `addIMU` at the end of an iteration, from the variables at that point. -/
def addIMU (name : String) (v : IMUVars α) : AddIMU α :=
  { RT := v.RT, name := name, parent := v.parent_str, technical := v.technical,
    anatomical := v.anatomical }

/-- The chain of `if` of one iteration of the loop of the branch `imu`, before the call of
`addIMU`: the variables it leaves and the number of tokens it read after the tag, or the
message of the error raised. -/
def imuProperty (L : Lookups) (R : Reads α) (property_tag : String) (ts : List String)
    (v : IMUVars α) : Except String (IMUVars α × Nat) :=
  if tolower property_tag = "parent" then
    if L.bodyKnown (readString v.parent_str ts) then
      Except.ok ({ v with parent_str := readString v.parent_str ts }, 1)
    else
      Except.error "Wrong name in a segment"
  else if tolower property_tag = "rtinmatrix" then
    if v.isRTset then Except.error "RT should not appear before RTinMatrix"
    else Except.ok ({ v with RTinMatrix := readBool R.parseBool v.RTinMatrix ts }, 1)
  else if tolower property_tag = "rt" then
    if v.RTinMatrix then
      Except.ok ({ v with RT := readRT R.parse v.RT ts, isRTset := true }, 16)
    else
      Except.ok
        ({ v with
           RT := R.fromEuler
             (readVector R.parseNum { x := Dbl.num 0, y := Dbl.num 0, z := Dbl.num 0 } ts)
             (readVector R.parseNum { x := Dbl.num 0, y := Dbl.num 0, z := Dbl.num 0 }
               (ts.drop 4))
             (readString "xyz" (ts.drop 3)),
           isRTset := true }, 7)
  else if tolower property_tag = "technical" then
    Except.ok ({ v with technical := readBool R.parseBool v.technical ts }, 1)
  else if tolower property_tag = "anatomical" then
    Except.ok ({ v with anatomical := readBool R.parseBool v.anatomical ts }, 1)
  else
    Except.ok (v, 0)

/-- The loop `while (file.read(property_tag) && !(endimu || endmimu))` of the branch `imu`, on
the tokens that remain in the file: every iteration ends with the call of `addIMU`, recorded
after the calls made so far.  The result is the calls and the tokens after the loop, or the
message of the error raised. -/
def imuProperties (L : Lookups) (R : Reads α) (name : String) :
    List String → IMUVars α → List (AddIMU α) → Except String (List (AddIMU α) × List String)
  | [], _, calls => Except.ok (calls, [])
  | property_tag :: ts, v, calls =>
    if tolower property_tag = "endimu" ∨ tolower property_tag = "endmimu" then
      Except.ok (calls, ts)
    else
      match imuProperty L R property_tag ts v with
      | Except.error e => Except.error e
      | Except.ok (v1, n) =>
        imuProperties L R name (ts.drop n) v1 (calls ++ [addIMU name v1])
termination_by ts _ _ => ts.length
decreasing_by
  all_goals simp_wf
  all_goals omega

/-- The branches `mimu` and `imu` of `readModelFile`, on the tokens after the tag `main_tag`,
for a file of version `version`; `none` when the tag is neither.  `RT` is what the default
constructor of RotoTransNode holds. -/
def readIMU (L : Lookups) (R : Reads α) (RT : RotoTrans α) (version : Nat) (main_tag : String)
    (tokens : List String) : Option (Except String (List (AddIMU α) × List String)) :=
  if tolower main_tag = "mimu" ∧ version ≥ 4 then
    some (Except.error "MIMU is no more the right tag, change it to IMU!")
  else if tolower main_tag = "imu" ∨ tolower main_tag = "mimu" then
    some (imuProperties L R (readString "" tokens) (tokens.drop 1)
      { parent_str := "root", RT := RT, RTinMatrix := if version = 3 then false else true,
        isRTset := false, technical := true, anatomical := false } [])
  else
    none

/-- The variables after each property of the body of an imu element, the body being given
property by property: a tag that is not an end tag, with the tokens of its value.  The result
is `none` when a tag is an end tag, when a property raises an error, or when a value has not
the number of tokens its property reads. -/
def imuStates (L : Lookups) (R : Reads α) :
    List (String × List String) → IMUVars α → Option (List (IMUVars α))
  | [], _ => some []
  | (tag, value) :: ps, v =>
    if tolower tag = "endimu" ∨ tolower tag = "endmimu" then none
    else
      match imuProperty L R tag value v with
      | Except.error _ => none
      | Except.ok (v1, n) =>
        if n = value.length then (imuStates L R ps v1).map (fun l => v1 :: l) else none

/-- The tokens of a body given property by property. -/
def bodyTokens : List (String × List String) → List String
  | [] => []
  | (tag, value) :: ps => tag :: (value ++ bodyTokens ps)

/-- A reading of `bool` values: the token `1` is true, every other token is false. -/
def parseOne : String → Bool := fun t => decide (t = "1")

/-- The readings used to evaluate the branch `imu`. -/
def someReads : Reads ℚ :=
  { parse := parseSome, parseNum := parseSome, parseBool := parseOne,
    fromEuler := fun _ _ _ => zeroRT }

end Reader

/-! ## Rounded arithmetic and binary64 -/

/-- Rounding of the exact result of an operation: a number is rounded by `rnd`, NaN and the
infinities are kept. -/
def Dbl.round {α : Type} (rnd : α → Dbl α) : Dbl α → Dbl α
  | Dbl.num x => rnd x
  | a => a

/-- Arithmetic of a floating-point format: every operation returns the rounding `rnd` of its
exact result, and `rsqrt` is the rounded root of a number `>= 0`. -/
def Arith.rounded {α : Type} [LinearOrderedField α] (rnd rsqrt : α → Dbl α) : Arith α :=
  { add := fun a b => (Arith.exactAdd a b).round rnd
    sub := fun a b => (Arith.exactAdd a (Dbl.neg b)).round rnd
    mul := fun a b => (Arith.exactMul a b).round rnd
    div := fun a b => (Arith.exactDiv a b).round rnd
    sqrt := fun a =>
      match a with
      | Dbl.num x => if x < 0 then Dbl.nan else rsqrt x
      | Dbl.pinf => Dbl.pinf
      | _ => Dbl.nan }

namespace Binary64

/-- Number of binary digits of `n` added to `acc`, the recursion being bounded by `fuel`. -/
def bitsAux : Nat → Nat → Nat → Nat
  | 0, _, acc => acc
  | fuel + 1, n, acc => if n = 0 then acc else bitsAux fuel (n / 2) (acc + 1)

/-- Number of binary digits of `n`: 0 for 0 and `floor (log2 n) + 1` otherwise. -/
def bits (n : Nat) : Nat := bitsAux n n 0

/-- The power `2 ^ e` for an integer `e`. -/
def pow2 (e : Int) : ℚ :=
  if 0 ≤ e then ((2 ^ e.toNat : Nat) : ℚ) else 1 / ((2 ^ (-e).toNat : Nat) : ℚ)

/-- The integer `e` with `2 ^ e <= p / q < 2 ^ (e + 1)`, for `p > 0` and `q > 0`. -/
def exponent (p q : Nat) : Int :=
  if 0 ≤ (bits p : Int) - (bits q : Int) then
    (if q * 2 ^ ((bits p : Int) - (bits q : Int)).toNat ≤ p then (bits p : Int) - (bits q : Int)
     else (bits p : Int) - (bits q : Int) - 1)
  else
    (if q ≤ p * 2 ^ (-((bits p : Int) - (bits q : Int))).toNat then
       (bits p : Int) - (bits q : Int)
     else (bits p : Int) - (bits q : Int) - 1)

/-- The integer nearest to `N / D`, the even one when two are as near. -/
def nearestEven (N D : Nat) : Nat :=
  if 2 * (N % D) < D then N / D
  else if D < 2 * (N % D) then N / D + 1
  else if (N / D) % 2 = 0 then N / D else N / D + 1

/-- Rounding of `p / q > 0`: the integer `n` and the exponent `u` of the nearest value
`n * 2 ^ u` with 53 binary digits, the exponent being -1074 for the subnormal numbers. -/
def roundPos (p q : Nat) : Nat × Int :=
  (if 0 ≤ max (exponent p q) (-1022) - 52 then
     nearestEven p (q * 2 ^ (max (exponent p q) (-1022) - 52).toNat)
   else nearestEven (p * 2 ^ (-(max (exponent p q) (-1022) - 52)).toNat) q,
   max (exponent p q) (-1022) - 52)

/-- Rounding of a number to binary64: to the nearest value, to the even one of two, and to
an infinity from `2 ^ 1024` on. -/
def round64 (x : ℚ) : Dbl ℚ :=
  if x = 0 then Dbl.num 0
  else if pow2 1024 ≤ ((roundPos x.num.natAbs x.den).1 : ℚ) * pow2 (roundPos x.num.natAbs x.den).2
  then (if 0 < x then Dbl.pinf else Dbl.ninf)
  else if 0 < x then
    Dbl.num (((roundPos x.num.natAbs x.den).1 : ℚ) * pow2 (roundPos x.num.natAbs x.den).2)
  else
    Dbl.num (-(((roundPos x.num.natAbs x.den).1 : ℚ) * pow2 (roundPos x.num.natAbs x.den).2))

/-- Integer square root, bit after bit from the bit `i - 1` down. -/
def isqrtAux : Nat → Nat → Nat → Nat
  | 0, _, r => r
  | i + 1, n, r =>
    if (r + 2 ^ i) * (r + 2 ^ i) ≤ n then isqrtAux i n (r + 2 ^ i) else isqrtAux i n r

/-- Integer square root: the greatest `r` with `r * r <= n`. -/
def isqrt (n : Nat) : Nat := isqrtAux (bits n / 2 + 1) n 0

/-- The integer nearest to the square root of `N / D`, the even one when two are as near;
`n0` is the integer part of that root. -/
def nearestRoot (N D n0 : Nat) : Nat :=
  if 4 * N < (2 * n0 + 1) ^ 2 * D then n0
  else if (2 * n0 + 1) ^ 2 * D < 4 * N then n0 + 1
  else if n0 % 2 = 0 then n0 else n0 + 1

/-- Scaled root of `p / q > 0`: the integer `n` nearest to `sqrt (p / q) / 2 ^ u`, for the
exponent `u` that gives it 53 binary digits. -/
def rootPos (p q : Nat) (u : Int) : Nat :=
  if 0 ≤ u then nearestRoot p (q * 4 ^ u.toNat) (isqrt (p / (q * 4 ^ u.toNat)))
  else nearestRoot (p * 4 ^ (-u).toNat) q (isqrt (p * 4 ^ (-u).toNat / q))

/-- Rounded square root `std::sqrt` of a number `x >= 0` in binary64. -/
def sqrt64 (x : ℚ) : Dbl ℚ :=
  if x ≤ 0 then Dbl.num 0
  else
    Dbl.num ((rootPos x.num.natAbs x.den (exponent x.num.natAbs x.den / 2 - 52) : ℚ)
      * pow2 (exponent x.num.natAbs x.den / 2 - 52))

/-- The greatest double whose exponential is not an infinity: 709.782712893384. -/
def expMax : ℚ := 6243314768165359 / 8796093022208

/-- Sum of `n` terms of the exponential series of `x`, from the term `t` of rank `k` on. -/
def expSum : Nat → ℚ → Nat → ℚ → ℚ
  | 0, _, _, _ => 0
  | n + 1, x, k, t => t + expSum n x (k + 1) (t * x / ((k + 1 : Nat) : ℚ))

/-- The exponential of `x` to more digits than binary64 has: for `x >= 0` the sum of the first
`4 * (floor x + 1) + 60` terms of its series, and for `x < 0` the inverse of the exponential
of `-x`. -/
def expSeries (x : ℚ) : ℚ :=
  if x < 0 then 1 / expSum (4 * (x.num.natAbs / x.den + 1) + 60) (-x) 0 1
  else expSum (4 * (x.num.natAbs / x.den + 1) + 60) x 0 1

end Binary64

/-- The arithmetic of the C++ `double` on IEEE 754 binary64, rounding to nearest. -/
def Arith.binary64 : Arith ℚ := Arith.rounded Binary64.round64 Binary64.sqrt64

/-- The functions of `<math.h>` on binary64 as far as their definition fixes them: `exp`
is an infinity above `expMax`, `acos` is NaN outside `[-1, 1]`, `pow` has the cases of IEEE 754
with NaN or an infinity; elsewhere the value is the rounding of `expf`, `acosf` and `powf`,
which stand for the exact functions. -/
def Libm.binary64 (expf acosf : ℚ → ℚ) (powf : ℚ → ℚ → ℚ) (oddInt : ℚ → Bool) : Libm ℚ :=
  { exp := fun a =>
      if Dbl.gt a (Dbl.num Binary64.expMax) then Dbl.pinf
      else (Libm.exactExp expf a).round Binary64.round64
    acos := fun a => (Libm.exactAcos acosf a).round Binary64.round64
    pow := fun a b => (Libm.exactPow powf oddInt a b).round Binary64.round64 }

/-- The functions of `<math.h>` on binary64 with the exponential of `expSeries`; inside their
domain `acos` and `pow` return their first argument, a value no statement depends on. -/
def Libm.binary64Exp : Libm ℚ :=
  Libm.binary64 Binary64.expSeries (fun x => x) (fun x _ => x) (fun _ => false)

section lemmas

variable {α : Type}

@[simp] theorem Heap.writeDbl_dbl_same (h : Heap α) (p : Nat) (v : Dbl α) :
    (h.writeDbl p v).dbl p = v := by
  simp [Heap.writeDbl]

@[simp] theorem Heap.writeDbl_dbl_ne (h : Heap α) {p q : Nat} (v : Dbl α) (hne : q ≠ p) :
    (h.writeDbl p v).dbl q = h.dbl q := by
  simp [Heap.writeDbl, Function.update_noteq hne]

@[simp] theorem Heap.writeDbl_typ (h : Heap α) (p : Nat) (v : Dbl α) :
    (h.writeDbl p v).typ = h.typ := rfl

@[simp] theorem Heap.writeDbl_nextDbl (h : Heap α) (p : Nat) (v : Dbl α) :
    (h.writeDbl p v).nextDbl = h.nextDbl := rfl

@[simp] theorem Heap.writeDbl_nextTyp (h : Heap α) (p : Nat) (v : Dbl α) :
    (h.writeDbl p v).nextTyp = h.nextTyp := rfl

variable [LinearOrderedField α]

theorem Dbl.le_zero_of_ge_one {a : Dbl α} (h : Dbl.ge a (Dbl.num 1) = true) :
    Dbl.le a (Dbl.num 0) = false := by
  cases a with
  | nan => simp [Dbl.le]
  | ninf => simp [Dbl.ge, Dbl.le] at h
  | pinf => simp [Dbl.le]
  | num x =>
    simp only [Dbl.ge, Dbl.le, decide_eq_true_eq] at h
    simp only [Dbl.le, decide_eq_false_iff_not, not_le]
    linarith

/-- A setter of `s` leaves every cell that is not one of the three `double` cells of `s`. -/
theorem State.call_dbl_of_ne (s : State) (c : State.Call α) (h : Heap α) {p : Nat}
    (he : p ≠ s.m_excitation) (hn : p ≠ s.m_excitationNorm) (ha : p ≠ s.m_activation) :
    (s.call c h).dbl p = h.dbl p := by
  cases c <;>
    simp only [State.call, State.setExcitation, State.setActivation, State.setExcitationNorm] <;>
    (try split_ifs) <;> simp [he, hn, ha]

/-- A sequence of setters of `s` leaves every cell that is not one of the three `double`
cells of `s`. -/
theorem State.calls_dbl_of_ne (s : State) (cs : List (State.Call α)) (h : Heap α) {p : Nat}
    (he : p ≠ s.m_excitation) (hn : p ≠ s.m_excitationNorm) (ha : p ≠ s.m_activation) :
    (s.calls cs h).dbl p = h.dbl p := by
  induction cs generalizing h with
  | nil => rfl
  | cons c cs ih => rw [State.calls, ih, State.call_dbl_of_ne s c h he hn ha]

end lemmas

/-! ## State: the setters -/

section StateTheorems

variable {α : Type} [LinearOrderedField α]

/-- C1 (code evaluated where it breaks the claim): after `State s(1/2, 1/2)` the call
`s.setActivation(5)` stores 5, because the two clamps test the stored 1/2 and not the incoming
value; `activation()` is then 5, which is not in the interval from 0 to 1. -/
theorem setActivation_stores_out_of_range :
    halfState.1.activation (halfState.1.setActivation (Dbl.num 5) halfState.2) = Dbl.num 5 ∧
    Dbl.le (halfState.1.activation (halfState.1.setActivation (Dbl.num 5) halfState.2))
      (Dbl.num 1) = false := by
  simp [halfState, State.construct, State.setActivation, State.activation, State.setType,
    Heap.allocDbl, Heap.allocTyp, Heap.writeTyp, Heap.writeDbl, Heap.empty, Dbl.le, Dbl.ge]
  norm_num

/-- C2: for a State with stored activation `a`, after `setActivation(v)` the activation is 0
when `a <= 0`, 1 when `a >= 1` and `v` otherwise (the tests read the stored `a`), and the
excitation and the normalized excitation are unchanged. -/
theorem setActivation_spec (s : State) (h : Heap α) (v : Dbl α) (hs : s.WF h) :
    (Dbl.le (s.activation h) (Dbl.num 0) = true →
      s.activation (s.setActivation v h) = Dbl.num 0) ∧
    (Dbl.ge (s.activation h) (Dbl.num 1) = true →
      s.activation (s.setActivation v h) = Dbl.num 1) ∧
    (Dbl.le (s.activation h) (Dbl.num 0) = false → Dbl.ge (s.activation h) (Dbl.num 1) = false →
      s.activation (s.setActivation v h) = v) ∧
    s.excitation (s.setActivation v h) = s.excitation h ∧
    s.excitationNorm (s.setActivation v h) = s.excitationNorm h := by
  obtain ⟨-, -, -, -, -, hea, hna⟩ := hs
  refine ⟨?_, ?_, ?_, ?_, ?_⟩
  · intro h0
    simp only [State.activation] at h0
    simp [State.setActivation, State.activation, h0]
  · intro h1
    have h0 := Dbl.le_zero_of_ge_one h1
    simp only [State.activation] at h0 h1
    simp [State.setActivation, State.activation, h0, h1]
  · intro h0 h1
    simp only [State.activation] at h0 h1
    simp [State.setActivation, State.activation, h0, h1]
  · simp only [State.setActivation, State.excitation]
    split_ifs <;> simp [hea]
  · simp only [State.setActivation, State.excitationNorm]
    split_ifs <;> simp [hna]

/-- Witness of C2 on `State s(1/2, 1/2); s.setActivation(5)`. -/
theorem setActivation_spec_witness :
    halfState.1.WF halfState.2 ∧
    halfState.1.excitation (halfState.1.setActivation (Dbl.num 5) halfState.2)
      = halfState.1.excitation halfState.2 :=
  ⟨by decide, (setActivation_spec halfState.1 halfState.2 (Dbl.num 5) (by decide)).2.2.2.1⟩

/-- C3: for a State with stored excitation `e`, after `setExcitation(v)` the excitation is 0
when `e <= 0` and `v` otherwise (the test reads the stored `e`), and the activation and the
normalized excitation are unchanged. -/
theorem setExcitation_spec (s : State) (h : Heap α) (v : Dbl α) (hs : s.WF h) :
    (Dbl.le (s.excitation h) (Dbl.num 0) = true →
      s.excitation (s.setExcitation v h) = Dbl.num 0) ∧
    (Dbl.le (s.excitation h) (Dbl.num 0) = false →
      s.excitation (s.setExcitation v h) = v) ∧
    s.activation (s.setExcitation v h) = s.activation h ∧
    s.excitationNorm (s.setExcitation v h) = s.excitationNorm h := by
  obtain ⟨-, -, -, -, hen, hea, -⟩ := hs
  refine ⟨?_, ?_, ?_, ?_⟩
  · intro h0
    simp only [State.excitation] at h0
    simp [State.setExcitation, State.excitation, h0]
  · intro h0
    simp only [State.excitation] at h0
    simp [State.setExcitation, State.excitation, h0]
  · simp only [State.setExcitation, State.activation]
    split_ifs <;> simp [Ne.symm hea]
  · simp only [State.setExcitation, State.excitationNorm]
    split_ifs <;> simp [Ne.symm hen]

/-- Witness of C3 on `State s(1/2, 1/2); s.setExcitation(5)`. -/
theorem setExcitation_spec_witness :
    halfState.1.WF halfState.2 ∧
    halfState.1.activation (halfState.1.setExcitation (Dbl.num 5) halfState.2)
      = halfState.1.activation halfState.2 :=
  ⟨by decide, (setExcitation_spec halfState.1 halfState.2 (Dbl.num 5) (by decide)).2.2.1⟩

/-- C4 (the claim fails here): `State s(-1, 0)` stores the excitation -1 as given, so
`excitation() >= 0` is false right after the constructor. -/
theorem constructor_keeps_negative_excitation :
    negativeState.1.excitation negativeState.2 = Dbl.num (-1) ∧
    Dbl.ge (negativeState.1.excitation negativeState.2) (Dbl.num 0) = false := by
  simp [negativeState, State.construct, State.excitation, State.setType,
    Heap.allocDbl, Heap.allocTyp, Heap.writeTyp, Heap.empty, Dbl.le, Dbl.ge]

/-- C4 (amended): the constructor stores its excitation argument unchanged, whatever the
argument is (a negative one is not clamped); and when that argument is `>= 0` the excitation
is `>= 0` after the constructor and after every later sequence of `setExcitation(v)` calls
whose values are `>= 0`. -/
theorem excitation_nonneg_of_nonneg_inputs (h : Heap α) (e a : Dbl α) (vs : List (Dbl α)) :
    (State.construct e a h).1.excitation (State.construct e a h).2 = e ∧
    (Dbl.ge e (Dbl.num 0) = true → (∀ v ∈ vs, Dbl.ge v (Dbl.num 0) = true) →
      Dbl.ge ((State.construct e a h).1.excitation (State.construct e a h).2)
        (Dbl.num 0) = true ∧
      Dbl.ge ((State.construct e a h).1.excitation
        ((State.construct e a h).1.calls (vs.map State.Call.setExcitation)
          (State.construct e a h).2)) (Dbl.num 0) = true) := by
  have hc : (State.construct e a h).1.excitation (State.construct e a h).2 = e := by
    simp [State.construct, State.excitation, State.setType, Heap.allocDbl, Heap.allocTyp,
      Heap.writeTyp, Function.update_apply]
    intro hh
    omega
  refine ⟨hc, ?_⟩
  intro he hv
  refine ⟨by rw [hc]; exact he, ?_⟩
  have key : ∀ (s : State) (ws : List (Dbl α)) (g : Heap α),
      (∀ v ∈ ws, Dbl.ge v (Dbl.num 0) = true) → Dbl.ge (s.excitation g) (Dbl.num 0) = true →
      Dbl.ge (s.excitation (s.calls (ws.map State.Call.setExcitation) g)) (Dbl.num 0) = true := by
    intro s ws
    induction ws with
    | nil => intro g _ hg; exact hg
    | cons w ws ih =>
      intro g hw hg
      simp only [List.map_cons, State.calls]
      apply ih
      · intro v hvm; exact hw v (List.mem_cons_of_mem _ hvm)
      · have hw0 := hw w (List.mem_cons_self _ _)
        simp only [State.call, State.setExcitation, State.excitation]
        split_ifs
        · simp [Dbl.ge, Dbl.le]
        · simpa using hw0
  exact key _ vs _ hv (by rw [hc]; exact he)

/-- Witness of C4 (amended): `State s(-1, 0)` has the excitation -1, and after
`State s(1/2, 1/2); s.setExcitation(3); s.setExcitation(0)` the excitation is `>= 0`. -/
theorem excitation_nonneg_of_nonneg_inputs_witness :
    negativeState.1.excitation negativeState.2 = Dbl.num (-1) ∧
    Dbl.ge (halfState.1.excitation
      (halfState.1.calls ([Dbl.num 3, Dbl.num 0].map State.Call.setExcitation) halfState.2))
      (Dbl.num 0) = true :=
  ⟨(excitation_nonneg_of_nonneg_inputs Heap.empty (Dbl.num (-1)) (Dbl.num 0) []).1,
   ((excitation_nonneg_of_nonneg_inputs Heap.empty (Dbl.num (1 / 2)) (Dbl.num (1 / 2))
      [Dbl.num 3, Dbl.num 0]).2 (by simp [Dbl.ge, Dbl.le])
      (by intro v hvm; simp at hvm; rcases hvm with rfl | rfl <;> simp [Dbl.ge, Dbl.le])).2⟩

/-- C5: `s.normalizeExcitation(emgMax)` returns the quotient `e / m` of the excitation of `s`
by the excitation of `emgMax` (for every `m`, non-zero ones included), a following
`s.excitationNorm()` returns that value, and the excitation and the activation of `s` are
unchanged. -/
theorem normalizeExcitation_spec (A : Arith α) (s emgMax : State) (h : Heap α) (hs : s.WF h) :
    (s.normalizeExcitation A emgMax h).1 = A.div (s.excitation h) (emgMax.excitation h) ∧
    s.excitationNorm (s.normalizeExcitation A emgMax h).2.2
      = (s.normalizeExcitation A emgMax h).1 ∧
    s.excitation (s.normalizeExcitation A emgMax h).2.2 = s.excitation h ∧
    s.activation (s.normalizeExcitation A emgMax h).2.2 = s.activation h := by
  obtain ⟨-, -, -, -, hen, -, hna⟩ := hs
  simp [State.normalizeExcitation, State.excitation, State.excitationNorm, State.activation,
    hen, Ne.symm hna]

/-- Witness of C5 on `State s(1/2, 1/2); State emgMax(2, 0); s.normalizeExcitation(emgMax)`,
which returns 1/4. -/
theorem normalizeExcitation_spec_witness :
    twoStates.1.WF twoStates.2.2 ∧
    (twoStates.1.normalizeExcitation Arith.exactRat twoStates.2.1 twoStates.2.2).1
      = Dbl.num (1 / 4) := by
  refine ⟨by decide, ?_⟩
  rw [(normalizeExcitation_spec Arith.exactRat twoStates.1 twoStates.2.1 twoStates.2.2
    (by decide)).1]
  simp [twoStates, halfState, State.construct, State.excitation, State.setType,
    Heap.allocDbl, Heap.allocTyp, Heap.writeTyp, Heap.empty, Arith.exactRat, Arith.exact,
    Arith.exactDiv, Function.update_apply]
  norm_num

/-- C6: `c = s.DeepCopy()` has the excitation, the activation and the state type of `s`,
leaves `s` as it was, and shares no cell with `s`: no sequence of `setExcitation`,
`setActivation`, `setExcitationNorm` calls on `c` changes what `s.excitation()`,
`s.activation()`, `s.excitationNorm()` return, and no such sequence on `s` changes `c`.  This
holds whether or not the return of the local copy is elided. -/
theorem DeepCopy_independent (s : State) (h : Heap α) (elided : Bool) (hs : s.WF h) :
    ((s.DeepCopy elided h).1.excitation (s.DeepCopy elided h).2 = s.excitation h ∧
      (s.DeepCopy elided h).1.activation (s.DeepCopy elided h).2 = s.activation h ∧
      (s.DeepCopy elided h).1.type (s.DeepCopy elided h).2 = s.type h) ∧
    (s.excitation (s.DeepCopy elided h).2 = s.excitation h ∧
      s.activation (s.DeepCopy elided h).2 = s.activation h ∧
      s.excitationNorm (s.DeepCopy elided h).2 = s.excitationNorm h ∧
      s.type (s.DeepCopy elided h).2 = s.type h) ∧
    ((s.DeepCopy elided h).1.m_stateType ≠ s.m_stateType ∧
      ∀ p ∈ [(s.DeepCopy elided h).1.m_excitation, (s.DeepCopy elided h).1.m_excitationNorm,
          (s.DeepCopy elided h).1.m_activation],
        ∀ q ∈ [s.m_excitation, s.m_excitationNorm, s.m_activation], p ≠ q) ∧
    (∀ cs : List (State.Call α),
      s.excitation ((s.DeepCopy elided h).1.calls cs (s.DeepCopy elided h).2)
        = s.excitation (s.DeepCopy elided h).2 ∧
      s.activation ((s.DeepCopy elided h).1.calls cs (s.DeepCopy elided h).2)
        = s.activation (s.DeepCopy elided h).2 ∧
      s.excitationNorm ((s.DeepCopy elided h).1.calls cs (s.DeepCopy elided h).2)
        = s.excitationNorm (s.DeepCopy elided h).2) ∧
    (∀ cs : List (State.Call α),
      (s.DeepCopy elided h).1.excitation (s.calls cs (s.DeepCopy elided h).2)
        = (s.DeepCopy elided h).1.excitation (s.DeepCopy elided h).2 ∧
      (s.DeepCopy elided h).1.activation (s.calls cs (s.DeepCopy elided h).2)
        = (s.DeepCopy elided h).1.activation (s.DeepCopy elided h).2 ∧
      (s.DeepCopy elided h).1.excitationNorm (s.calls cs (s.DeepCopy elided h).2)
        = (s.DeepCopy elided h).1.excitationNorm (s.DeepCopy elided h).2) := by
  obtain ⟨ht, he, hn, ha, -, -, -⟩ := hs
  have e0 : s.m_excitation ≠ h.nextDbl := by omega
  have e1 : s.m_excitation ≠ h.nextDbl + 1 := by omega
  have e2 : s.m_excitation ≠ h.nextDbl + 1 + 1 := by omega
  have e3 : s.m_excitation ≠ h.nextDbl + 1 + 1 + 1 := by omega
  have n0 : s.m_excitationNorm ≠ h.nextDbl := by omega
  have n1 : s.m_excitationNorm ≠ h.nextDbl + 1 := by omega
  have n2 : s.m_excitationNorm ≠ h.nextDbl + 1 + 1 := by omega
  have n3 : s.m_excitationNorm ≠ h.nextDbl + 1 + 1 + 1 := by omega
  have a0 : s.m_activation ≠ h.nextDbl := by omega
  have a1 : s.m_activation ≠ h.nextDbl + 1 := by omega
  have a2 : s.m_activation ≠ h.nextDbl + 1 + 1 := by omega
  have a3 : s.m_activation ≠ h.nextDbl + 1 + 1 + 1 := by omega
  have t0 : s.m_stateType ≠ h.nextTyp := by omega
  have k01 : h.nextDbl ≠ h.nextDbl + 1 := by omega
  have k02 : h.nextDbl ≠ h.nextDbl + 1 + 1 := by omega
  have k03 : h.nextDbl ≠ h.nextDbl + 1 + 1 + 1 := by omega
  have k10 : h.nextDbl + 1 ≠ h.nextDbl := by omega
  have k12 : h.nextDbl + 1 ≠ h.nextDbl + 1 + 1 := by omega
  have k13 : h.nextDbl + 1 ≠ h.nextDbl + 1 + 1 + 1 := by omega
  have k20 : h.nextDbl + 1 + 1 ≠ h.nextDbl := by omega
  have k21 : h.nextDbl + 1 + 1 ≠ h.nextDbl + 1 := by omega
  have k23 : h.nextDbl + 1 + 1 ≠ h.nextDbl + 1 + 1 + 1 := by omega
  have k30 : h.nextDbl + 1 + 1 + 1 ≠ h.nextDbl := by omega
  have k31 : h.nextDbl + 1 + 1 + 1 ≠ h.nextDbl + 1 := by omega
  have k32 : h.nextDbl + 1 + 1 + 1 ≠ h.nextDbl + 1 + 1 := by omega
  have ptrs : (s.DeepCopy elided h).1.m_stateType = h.nextTyp ∧
      (s.DeepCopy elided h).1.m_excitation = h.nextDbl ∧
      (s.DeepCopy elided h).1.m_excitationNorm
        = (if elided then h.nextDbl + 1 else h.nextDbl + 1 + 1 + 1) ∧
      (s.DeepCopy elided h).1.m_activation = h.nextDbl + 1 + 1 := by
    cases elided <;>
      simp [State.DeepCopy, State.construct, State.copyConstruct, State.DeepCopyFrom,
        State.setType, Heap.allocDbl, Heap.allocTyp, Heap.writeTyp, Heap.writeDbl]
  obtain ⟨pt, pe, pn, pa⟩ := ptrs
  have pn0 : (s.DeepCopy elided h).1.m_excitationNorm ≠ s.m_excitation ∧
      (s.DeepCopy elided h).1.m_excitationNorm ≠ s.m_excitationNorm ∧
      (s.DeepCopy elided h).1.m_excitationNorm ≠ s.m_activation ∧
      (s.DeepCopy elided h).1.m_excitationNorm ≠ h.nextDbl ∧
      (s.DeepCopy elided h).1.m_excitationNorm ≠ h.nextDbl + 1 + 1 := by
    rw [pn]; cases elided <;> simp <;> omega
  obtain ⟨pn1, pn2, pn3, pn4, pn5⟩ := pn0
  have frame : ∀ q, q < h.nextDbl → (s.DeepCopy elided h).2.dbl q = h.dbl q := by
    intro q hq
    have q0 : q ≠ h.nextDbl := by omega
    have q1 : q ≠ h.nextDbl + 1 := by omega
    have q2 : q ≠ h.nextDbl + 1 + 1 := by omega
    have q3 : q ≠ h.nextDbl + 1 + 1 + 1 := by omega
    cases elided <;>
      simp [State.DeepCopy, State.construct, State.copyConstruct, State.DeepCopyFrom,
        State.setType, Heap.allocDbl, Heap.allocTyp, Heap.writeTyp, Heap.writeDbl,
        Function.update_apply, k01, k02, k03, k10, k12, k13, k20, k21, k23, k30, k31, k32, q0, q1, q2, q3]
  have frameT : (s.DeepCopy elided h).2.typ s.m_stateType = h.typ s.m_stateType := by
    cases elided <;>
      simp [State.DeepCopy, State.construct, State.copyConstruct, State.DeepCopyFrom,
        State.setType, Heap.allocDbl, Heap.allocTyp, Heap.writeTyp, Heap.writeDbl,
        Function.update_apply, k01, k02, k03, k10, k12, k13, k20, k21, k23, k30, k31, k32, t0]
  refine ⟨⟨?_, ?_, ?_⟩, ⟨?_, ?_, ?_, ?_⟩, ⟨?_, ?_⟩, ?_, ?_⟩
  · simp only [State.excitation, pe]
    cases elided <;>
      simp [State.DeepCopy, State.construct, State.copyConstruct, State.DeepCopyFrom,
        State.setType, Heap.allocDbl, Heap.allocTyp, Heap.writeTyp, Heap.writeDbl,
        Function.update_apply, k01, k02, k03, k10, k12, k13, k20, k21, k23, k30, k31, k32, e0, e1, e2, e3]
  · simp only [State.activation, pa]
    cases elided <;>
      simp [State.DeepCopy, State.construct, State.copyConstruct, State.DeepCopyFrom,
        State.setType, Heap.allocDbl, Heap.allocTyp, Heap.writeTyp, Heap.writeDbl,
        Function.update_apply, k01, k02, k03, k10, k12, k13, k20, k21, k23, k30, k31, k32, a0, a1, a2, a3]
  · simp only [State.type, pt]
    cases elided <;>
      simp [State.DeepCopy, State.construct, State.copyConstruct, State.DeepCopyFrom,
        State.setType, Heap.allocDbl, Heap.allocTyp, Heap.writeTyp, Heap.writeDbl,
        Function.update_apply, k01, k02, k03, k10, k12, k13, k20, k21, k23, k30, k31, k32, t0]
  · exact frame _ he
  · exact frame _ ha
  · exact frame _ hn
  · exact frameT
  · rw [pt]; exact Ne.symm t0
  · intro p hp q hq
    simp only [List.mem_cons, List.mem_singleton, List.not_mem_nil, or_false] at hp hq
    rcases hq with rfl | rfl | rfl <;> rcases hp with rfl | rfl | rfl <;>
      first
        | exact pn1 | exact pn2 | exact pn3
        | (rw [pe]; omega) | (rw [pa]; omega)
  · intro cs
    refine ⟨?_, ?_, ?_⟩ <;>
      simp only [State.excitation, State.activation, State.excitationNorm] <;>
      apply State.calls_dbl_of_ne <;>
      first
        | exact Ne.symm pn1 | exact Ne.symm pn2 | exact Ne.symm pn3
        | (rw [pe]; omega) | (rw [pa]; omega)
  · intro cs
    refine ⟨?_, ?_, ?_⟩ <;>
      simp only [State.excitation, State.activation, State.excitationNorm] <;>
      apply State.calls_dbl_of_ne <;>
      first
        | exact pn1 | exact pn2 | exact pn3
        | (rw [pe]; omega) | (rw [pa]; omega)

/-- Witness of C6 on `State s(1/2, 1/2); State c = s.DeepCopy(); c.setActivation(5)`: the
activation of `s` is still 1/2. -/
theorem DeepCopy_independent_witness :
    halfState.1.WF halfState.2 ∧
    halfState.1.activation
      ((halfState.1.DeepCopy true halfState.2).1.calls [State.Call.setActivation (Dbl.num 5)]
        (halfState.1.DeepCopy true halfState.2).2)
      = halfState.1.activation (halfState.1.DeepCopy true halfState.2).2 :=
  ⟨by decide,
    ((DeepCopy_independent halfState.1 halfState.2 true (by decide)).2.2.2.1
      [State.Call.setActivation (Dbl.num 5)]).2.1⟩

end StateTheorems


/-! ## Muscle: the copy constructor -/

section MuscleTheorems

/-- C7 (the claim fails here): with `Muscle m2(m1)`, the call `m2.setCharacteristics(c)` for a
Characteristics `c` of force 250 changes what `m1.characteristics()` returns from the one of
force 100 to `c`. -/
theorem copyConstruct_mutation_reaches_original :
    firstMuscle.characteristics firstObjects = 100 ∧
    firstMuscle.characteristics
      ((Muscle.copyConstruct firstMuscle).setCharacteristics 250 firstObjects) = 250 := by
  simp [firstMuscle, firstObjects, Muscle.characteristics, Muscle.setCharacteristics,
    Muscle.copyConstruct]

/-- C7 (amended): copy-constructing `m2` from `m1` copies the three shared pointers, so `m2`
and `m1` have the same Geometry, Characteristics and State objects: after
`m2.setCharacteristics(c)` the call `m1.characteristics()` returns `c`, after
`m2.setPosition(g)` the call `m1.position()` returns `g`, `m2.state()` is the object
`m1.state()`, and `m2.setForceIsoMax(f)` acts as `m1.setForceIsoMax(f)`. -/
theorem copyConstruct_shares_nested_objects {G C H V : Type} (m1 : Muscle) (o : Objects G C)
    (c : C) (g : G) (setForce : C → V → H → H) (f : V) (h : H) :
    (Muscle.copyConstruct m1).m_position = m1.m_position ∧
    (Muscle.copyConstruct m1).m_characteristics = m1.m_characteristics ∧
    (Muscle.copyConstruct m1).m_state = m1.m_state ∧
    m1.characteristics ((Muscle.copyConstruct m1).setCharacteristics c o) = c ∧
    m1.position ((Muscle.copyConstruct m1).setPosition g o) = g ∧
    (Muscle.copyConstruct m1).state o = m1.state o ∧
    (Muscle.copyConstruct m1).setForceIsoMax setForce f o h = m1.setForceIsoMax setForce f o h := by
  simp [Muscle.copyConstruct, Muscle.characteristics, Muscle.setCharacteristics,
    Muscle.position, Muscle.setPosition, Muscle.state, Muscle.setForceIsoMax]

end MuscleTheorems

/-! ## WrappingCylinder: the validity test -/

section WrapTheorems

variable {α : Type} [LinearOrderedField α]

theorem ratSqrt_four : Rat.sqrt 4 = 2 := by
  have h := Rat.sqrt_eq 2
  rw [abs_of_pos (by norm_num : (0 : ℚ) < 2)] at h
  rw [← h]; norm_num

theorem ratSqrt_one : Rat.sqrt 1 = 1 := by
  have h := Rat.sqrt_eq 1
  rw [abs_of_pos (by norm_num : (0 : ℚ) < 1)] at h
  rw [← h]; norm_num

/-- The tangent points of `endpointsBeyond` on the cylinder of radius 1. -/
theorem tangentPoints_endpointsBeyond :
    tangentPoints Arith.exactRat unitCylinder endpointsBeyond
      = { m_p1 := point (4 / 5) (-3 / 5) 0, m_p2 := point (4 / 5) (3 / 5) 0 } := by
  simp [tangentPoints, endpointsBeyond, point, unitCylinder, WrappingCylinder.construct,
    WrappingCylinder.findTangentToCircle, WrappingCylinder.selectTangents,
    WrappingCylinder.radius, Arith.exactRat, Arith.exact, Arith.exactAdd, Arith.exactMul,
    Arith.exactDiv, Arith.exactSqrt, Dbl.neg, Dbl.ge, Dbl.le, Dbl.lt]
  norm_num [ratSqrt_four]

/-- C8 (code evaluated where it breaks the claim): radius 1, positive sign, endpoints
(2, 1, 0) and (2, -1, 0).  Both x-coordinates exceed the radius, yet `checkIfWraps` returns
true, `findVerticalNode` returns true, and the leave points are (4/5, -3/5, 0) and
(4/5, 3/5, 0), not NaN. -/
theorem checkIfWraps_true_beyond_radius :
    Dbl.gt endpointsBeyond.m_p1.x (unitCylinder.radius Arith.exactRat) = true ∧
    Dbl.gt endpointsBeyond.m_p2.x (unitCylinder.radius Arith.exactRat) = true ∧
    unitCylinder.checkIfWraps Arith.exactRat endpointsBeyond
      (tangentPoints Arith.exactRat unitCylinder endpointsBeyond) = true ∧
    unitCylinder.findVerticalNode Arith.exactRat endpointsBeyond
      (tangentPoints Arith.exactRat unitCylinder endpointsBeyond)
      = (true, { m_p1 := point (4 / 5) (-3 / 5) 0, m_p2 := point (4 / 5) (3 / 5) 0 }) := by
  rw [tangentPoints_endpointsBeyond]
  have hc : unitCylinder.checkIfWraps Arith.exactRat endpointsBeyond
      { m_p1 := point (4 / 5) (-3 / 5) 0, m_p2 := point (4 / 5) (3 / 5) 0 } = true := by
    simp [endpointsBeyond, point, unitCylinder, WrappingCylinder.construct,
      WrappingCylinder.checkIfWraps, WrappingCylinder.radius, Arith.exactRat, Arith.exact,
      Arith.exactDiv, Dbl.neg, Dbl.ge, Dbl.le, Dbl.lt, Dbl.gt, Dbl.abs]
  refine ⟨?_, ?_, hc, ?_⟩
  · simp [endpointsBeyond, point, unitCylinder, WrappingCylinder.construct,
      WrappingCylinder.radius, Arith.exactRat, Arith.exact, Arith.exactDiv, Dbl.gt, Dbl.lt]
  · simp [endpointsBeyond, point, unitCylinder, WrappingCylinder.construct,
      WrappingCylinder.radius, Arith.exactRat, Arith.exact, Arith.exactDiv, Dbl.gt, Dbl.lt]
  · simp only [WrappingCylinder.findVerticalNode, hc]
    simp [endpointsBeyond, point, Vector3d.sub, Vector3d.cross, Vector3d.norm,
      Vector3d.divScalar, Vector3d.applyRT, Arith.exactRat, Arith.exact, Arith.exactAdd,
      Arith.exactMul, Arith.exactDiv, Arith.exactSqrt, Dbl.neg, ratSqrt_four, ratSqrt_one]
    norm_num [ratSqrt_four, ratSqrt_one]

/-- The tangent points of `endpointsSameSide` on the cylinder of radius 1. -/
theorem tangentPoints_endpointsSameSide :
    tangentPoints Arith.exactRat unitCylinder endpointsSameSide
      = { m_p1 := point 1 0 0, m_p2 := point (3 / 5) (4 / 5) 0 } := by
  simp [tangentPoints, endpointsSameSide, point, unitCylinder, WrappingCylinder.construct,
    WrappingCylinder.findTangentToCircle, WrappingCylinder.selectTangents,
    WrappingCylinder.radius, Arith.exactRat, Arith.exact, Arith.exactAdd, Arith.exactMul,
    Arith.exactDiv, Arith.exactSqrt, Dbl.neg, Dbl.ge, Dbl.le, Dbl.lt]
  norm_num [ratSqrt_four]

/-- The tangent points of `endpointsBeyond` on the cylinder of radius 2. -/
theorem tangentPoints_wide_endpointsBeyond :
    tangentPoints Arith.exactRat wideCylinder endpointsBeyond
      = { m_p1 := point 2 0 0, m_p2 := point 2 0 0 } := by
  simp [tangentPoints, endpointsBeyond, point, wideCylinder, WrappingCylinder.construct,
    WrappingCylinder.findTangentToCircle, WrappingCylinder.selectTangents,
    WrappingCylinder.radius, Arith.exactRat, Arith.exact, Arith.exactAdd, Arith.exactMul,
    Arith.exactDiv, Arith.exactSqrt, Dbl.neg, Dbl.ge, Dbl.le, Dbl.lt]
  norm_num [ratSqrt_one]

/-- C9 (code evaluated where it breaks the claim): with radius 1 and the endpoints (1, 2, 0)
and (-1, 2, 0), both on the side `y > 0`, `checkIfWraps` returns true; with radius 2 and the
endpoints (2, 1, 0) and (2, -1, 0), whose `|y| = 1` is smaller than the radius, it returns
true as well. -/
theorem checkIfWraps_true_same_side_and_small_offset :
    (Dbl.gt endpointsSameSide.m_p1.y (Dbl.num 0) = true ∧
      Dbl.gt endpointsSameSide.m_p2.y (Dbl.num 0) = true ∧
      unitCylinder.checkIfWraps Arith.exactRat endpointsSameSide
        (tangentPoints Arith.exactRat unitCylinder endpointsSameSide) = true) ∧
    (Dbl.lt (Dbl.abs endpointsBeyond.m_p1.y) (wideCylinder.radius Arith.exactRat) = true ∧
      Dbl.lt (Dbl.abs endpointsBeyond.m_p2.y) (wideCylinder.radius Arith.exactRat) = true ∧
      wideCylinder.checkIfWraps Arith.exactRat endpointsBeyond
        (tangentPoints Arith.exactRat wideCylinder endpointsBeyond) = true) := by
  rw [tangentPoints_endpointsSameSide, tangentPoints_wide_endpointsBeyond]
  refine ⟨⟨?_, ?_, ?_⟩, ?_, ?_, ?_⟩
  · simp [endpointsSameSide, point, Dbl.gt, Dbl.lt]
  · simp [endpointsSameSide, point, Dbl.gt, Dbl.lt]
  · simp [endpointsSameSide, point, unitCylinder, WrappingCylinder.construct,
      WrappingCylinder.checkIfWraps, WrappingCylinder.radius, Arith.exactRat, Arith.exact,
      Arith.exactDiv, Dbl.neg, Dbl.ge, Dbl.le, Dbl.lt, Dbl.gt, Dbl.abs]
    norm_num
  · simp [endpointsBeyond, point, wideCylinder, WrappingCylinder.construct,
      WrappingCylinder.radius, Arith.exactRat, Arith.exact, Arith.exactDiv, Dbl.lt, Dbl.abs]
    norm_num
  · simp [endpointsBeyond, point, wideCylinder, WrappingCylinder.construct,
      WrappingCylinder.radius, Arith.exactRat, Arith.exact, Arith.exactDiv, Dbl.lt, Dbl.abs]
    norm_num
  · simp [endpointsBeyond, point, wideCylinder, WrappingCylinder.construct,
      WrappingCylinder.checkIfWraps, WrappingCylinder.radius, Arith.exactRat, Arith.exact,
      Arith.exactDiv, Dbl.neg, Dbl.ge, Dbl.le, Dbl.lt, Dbl.gt, Dbl.abs]

/-- C10: when `checkIfWraps` returns false, `findVerticalNode` returns false and leaves NaN
in the three coordinates of both leave points; when `checkIfWraps` returns true,
`findVerticalNode` returns true.  It returns in both cases (it is a total function, nothing
is raised). -/
theorem findVerticalNode_follows_checkIfWraps (A : Arith α) (w : WrappingCylinder α)
    (pointsInGlobal pointsToWrap : NodeMusclePair α) :
    (w.checkIfWraps A pointsInGlobal pointsToWrap = false →
      w.findVerticalNode A pointsInGlobal pointsToWrap
        = (false, { m_p1 := { x := Dbl.nan, y := Dbl.nan, z := Dbl.nan },
                    m_p2 := { x := Dbl.nan, y := Dbl.nan, z := Dbl.nan } })) ∧
    (w.checkIfWraps A pointsInGlobal pointsToWrap = true →
      (w.findVerticalNode A pointsInGlobal pointsToWrap).1 = true) := by
  constructor
  · intro hf
    simp [WrappingCylinder.findVerticalNode, hf, Vector3d.allNaN]
  · intro ht
    simp [WrappingCylinder.findVerticalNode, ht]

/-- The tangent points of `endpointsCrossed` on the cylinder of radius 1. -/
theorem tangentPoints_endpointsCrossed :
    tangentPoints Arith.exactRat unitCylinder endpointsCrossed
      = { m_p1 := point (4 / 5) (-3 / 5) 0, m_p2 := point 1 0 0 } := by
  simp [tangentPoints, endpointsCrossed, point, unitCylinder, WrappingCylinder.construct,
    WrappingCylinder.findTangentToCircle, WrappingCylinder.selectTangents,
    WrappingCylinder.radius, Arith.exactRat, Arith.exact, Arith.exactAdd, Arith.exactMul,
    Arith.exactDiv, Arith.exactSqrt, Dbl.neg, Dbl.ge, Dbl.le, Dbl.lt]
  norm_num [ratSqrt_four]

/-- The tangent points of `endpointsAcross` on the cylinder of radius 1. -/
theorem tangentPoints_endpointsAcross :
    tangentPoints Arith.exactRat unitCylinder endpointsAcross
      = { m_p1 := point 1 0 3, m_p2 := point 1 0 1 } := by
  simp [tangentPoints, endpointsAcross, point, unitCylinder, WrappingCylinder.construct,
    WrappingCylinder.findTangentToCircle, WrappingCylinder.selectTangents,
    WrappingCylinder.radius, Arith.exactRat, Arith.exact, Arith.exactAdd, Arith.exactMul,
    Arith.exactDiv, Arith.exactSqrt, Dbl.neg, Dbl.ge, Dbl.le, Dbl.lt]
  norm_num [ratSqrt_four]

/-- Witness of C10: on the cylinder of radius 1, the endpoints (2, 1, 0) and (1, -2, 0) fail
`checkIfWraps` and get NaN leave points, the endpoints (1, 2, 3) and (1, -2, 1) pass it and
`findVerticalNode` returns true. -/
theorem findVerticalNode_follows_checkIfWraps_witness :
    unitCylinder.findVerticalNode Arith.exactRat endpointsCrossed
        (tangentPoints Arith.exactRat unitCylinder endpointsCrossed)
      = (false, { m_p1 := { x := Dbl.nan, y := Dbl.nan, z := Dbl.nan },
                  m_p2 := { x := Dbl.nan, y := Dbl.nan, z := Dbl.nan } }) ∧
    (unitCylinder.findVerticalNode Arith.exactRat endpointsAcross
        (tangentPoints Arith.exactRat unitCylinder endpointsAcross)).1 = true :=
  ⟨(findVerticalNode_follows_checkIfWraps Arith.exactRat unitCylinder endpointsCrossed
      (tangentPoints Arith.exactRat unitCylinder endpointsCrossed)).1
      (by
        rw [tangentPoints_endpointsCrossed]
        simp [endpointsCrossed, point, unitCylinder, WrappingCylinder.construct,
          WrappingCylinder.checkIfWraps, WrappingCylinder.radius, Arith.exactRat, Arith.exact,
          Arith.exactDiv, Dbl.neg, Dbl.ge, Dbl.le, Dbl.lt, Dbl.gt, Dbl.abs]
        norm_num),
    (findVerticalNode_follows_checkIfWraps Arith.exactRat unitCylinder endpointsAcross
      (tangentPoints Arith.exactRat unitCylinder endpointsAcross)).2
      (by
        rw [tangentPoints_endpointsAcross]
        simp [endpointsAcross, point, unitCylinder, WrappingCylinder.construct,
          WrappingCylinder.checkIfWraps, WrappingCylinder.radius, Arith.exactRat, Arith.exact,
          Arith.exactDiv, Dbl.neg, Dbl.ge, Dbl.le, Dbl.lt, Dbl.gt, Dbl.abs])⟩

end WrapTheorems

/-! ## Arithmetic without rounding on numbers -/

section ExactLemmas

variable {α : Type} [LinearOrderedField α]

theorem Arith.exact_add (root : α → α) (x y : α) :
    (Arith.exact root).add (Dbl.num x) (Dbl.num y) = Dbl.num (x + y) := rfl

theorem Arith.exact_sub (root : α → α) (x y : α) :
    (Arith.exact root).sub (Dbl.num x) (Dbl.num y) = Dbl.num (x - y) := by
  simp [Arith.exact, Arith.exactAdd, Dbl.neg, sub_eq_add_neg]

theorem Arith.exact_mul (root : α → α) (x y : α) :
    (Arith.exact root).mul (Dbl.num x) (Dbl.num y) = Dbl.num (x * y) := rfl

theorem Arith.exact_div (root : α → α) (x : α) {y : α} (hy : y ≠ 0) :
    (Arith.exact root).div (Dbl.num x) (Dbl.num y) = Dbl.num (x / y) := by
  simp [Arith.exact, Arith.exactDiv, hy]

theorem Arith.exact_sqrt (root : α → α) {x : α} (hx : 0 ≤ x) :
    (Arith.exact root).sqrt (Dbl.num x) = Dbl.num (root x) := by
  simp [Arith.exact, Arith.exactSqrt, not_lt.mpr hx]

theorem Libm.exact_exp (expf acosf : α → α) (powf : α → α → α) (odd : α → Bool) (x : α) :
    (Libm.exact expf acosf powf odd).exp (Dbl.num x) = Dbl.num (expf x) := rfl

theorem Libm.exact_acos (expf acosf : α → α) (powf : α → α → α) (odd : α → Bool) {x : α}
    (h1 : -1 ≤ x) (h2 : x ≤ 1) :
    (Libm.exact expf acosf powf odd).acos (Dbl.num x) = Dbl.num (acosf x) := by
  simp [Libm.exact, Libm.exactAcos, not_lt.mpr h1, not_lt.mpr h2]

theorem Libm.exact_pow (expf acosf : α → α) (powf : α → α → α) (odd : α → Bool) (x y : α) :
    (Libm.exact expf acosf powf odd).pow (Dbl.num x) (Dbl.num y) = Dbl.num (powf x y) := rfl

end ExactLemmas

/-! ## WrappingCylinder: the cache -/

section CacheTheorems

variable {α : Type} [LinearOrderedField α]

/-- C12: after the computing overload `wrapPoints(rt, p1_bone, p2_bone, p1, p2, &length)`
returned the leave points `p1`, `p2` and the length `L`, the accessor
`wrapPoints(q1, q2, &len)` returns `q1 = p1`, `q2 = p2` and `len = L`, for every pose and
every pair of endpoints; the accessor only reads the three cached members. -/
theorem wrapPoints_cache_round_trip (A : Arith α) (M : Libm α)
    (transpose : RotoTrans α → RotoTrans α) (w : WrappingCylinder α) (rt : RotoTrans α)
    (p1_bone p2_bone : Vector3d α) :
    (WrappingCylinder.wrapPoints A M transpose w rt p1_bone p2_bone true).2.wrapPointsCached true
      = (WrappingCylinder.wrapPoints A M transpose w rt p1_bone p2_bone true).1 ∧
    (∀ v : WrappingCylinder α, v.wrapPointsCached true
      = { p1 := v.m_p1Wrap, p2 := v.m_p2Wrap, length := some v.m_lengthAroundWrap }) := by
  constructor
  · simp [WrappingCylinder.wrapPoints, WrappingCylinder.wrapPointsCached]
  · intro v
    simp [WrappingCylinder.wrapPointsCached]

/-- The length in the arithmetic of the real numbers, where nothing is rounded: for two leave
points on the circle of radius `r > 0` around the cylinder axis, at the angles `a` and `b`,
whose central angle is `θ` in `[0, π]` (`cos (b - a) = cos θ`), and of heights `z1` and `z2`,
`computeLength` returns `sqrt((r θ)^2 + (z1 - z2)^2)`. -/
theorem computeLength_on_circle (expf : ℝ → ℝ) (powf : ℝ → ℝ → ℝ) (odd : ℝ → Bool)
    (w : WrappingCylinder ℝ) (r a b θ z1 z2 : ℝ) (hw : w.m_dia = Dbl.num (2 * r)) (hr : 0 < r)
    (h0 : 0 ≤ θ) (hpi : θ ≤ Real.pi) (hθ : Real.cos (b - a) = Real.cos θ) :
    w.computeLength (Arith.exact Real.sqrt) (Libm.exact expf Real.arccos powf odd)
      { m_p1 := { x := Dbl.num (r * Real.cos a), y := Dbl.num (r * Real.sin a), z := Dbl.num z1 },
        m_p2 := { x := Dbl.num (r * Real.cos b), y := Dbl.num (r * Real.sin b), z := Dbl.num z2 } }
      = Dbl.num (Real.sqrt ((r * θ) ^ 2 + (z1 - z2) ^ 2)) := by
  have hr2 : r * r ≠ 0 := mul_ne_zero (ne_of_gt hr) (ne_of_gt hr)
  have n1 : r * Real.cos a * (r * Real.cos a) + r * Real.sin a * (r * Real.sin a) = r * r := by
    have := Real.sin_sq_add_cos_sq a
    nlinarith [this]
  have n2 : r * Real.cos b * (r * Real.cos b) + r * Real.sin b * (r * Real.sin b) = r * r := by
    have := Real.sin_sq_add_cos_sq b
    nlinarith [this]
  have hdot : r * Real.cos a * (r * Real.cos b) + r * Real.sin a * (r * Real.sin b)
      = r * r * Real.cos θ := by
    rw [← hθ, Real.cos_sub]
    ring
  have hroot : Real.sqrt (r * r * (r * r)) = r * r :=
    Real.sqrt_mul_self (le_of_lt (mul_pos hr hr))
  have hquot : r * r * Real.cos θ / (r * r) = Real.cos θ := by
    field_simp
  have hrad : (2 * r) / 2 = r := by ring
  simp only [WrappingCylinder.computeLength, WrappingCylinder.radius, hw, Arith.exact_add,
    Arith.exact_mul, Arith.exact_sub, n1, n2, hdot]
  rw [Arith.exact_sqrt Real.sqrt (le_of_lt (mul_pos (mul_pos hr hr) (mul_pos hr hr))), hroot,
    Arith.exact_div Real.sqrt _ hr2, hquot,
    Libm.exact_acos expf Real.arccos powf odd (Real.neg_one_le_cos θ) (Real.cos_le_one θ),
    Real.arccos_cos h0 hpi, Arith.exact_div Real.sqrt _ (two_ne_zero), hrad]
  simp only [Arith.exact_add, Arith.exact_mul]
  rw [Arith.exact_sqrt Real.sqrt (add_nonneg (mul_self_nonneg _) (mul_self_nonneg _))]
  congr 2
  ring

/-- The length without rounding for the radius 1 and the leave points (1, 0, 0) and
(0, 1, 0), 90 degrees apart and of equal heights: `π / 2`. -/
theorem computeLength_on_circle_witness :
    (WrappingCylinder.construct { x := Dbl.num 0, y := Dbl.num 0, z := Dbl.num 0 }
        (Dbl.num 2) (Dbl.num 1) true : WrappingCylinder ℝ).computeLength
      (Arith.exact Real.sqrt) (Libm.exact Real.exp Real.arccos (fun x y => x ^ y) (fun _ => false))
      { m_p1 := { x := Dbl.num 1, y := Dbl.num 0, z := Dbl.num 0 },
        m_p2 := { x := Dbl.num 0, y := Dbl.num 1, z := Dbl.num 0 } }
      = Dbl.num (Real.pi / 2) := by
  have h := computeLength_on_circle Real.exp (fun x y => x ^ y) (fun _ => false)
    (WrappingCylinder.construct { x := Dbl.num 0, y := Dbl.num 0, z := Dbl.num 0 }
      (Dbl.num 2) (Dbl.num 1) true) 1 0 (Real.pi / 2) (Real.pi / 2) 0 0
    (by simp [WrappingCylinder.construct]) one_pos (by positivity)
    (by linarith [Real.pi_pos]) (by simp)
  simp only [mul_one, one_mul, Real.cos_zero, Real.sin_zero, Real.cos_pi_div_two,
    Real.sin_pi_div_two, sub_zero, ne_eq, OfNat.ofNat_ne_zero, not_false_eq_true, zero_pow,
    add_zero] at h
  rw [h]
  congr 1
  exact Real.sqrt_sq (by positivity)

end CacheTheorems

/-! ## HillThelenType: the force-length multipliers -/

section HillTheorems

variable {α : Type} [LinearOrderedField α]

theorem Dbl.gt_eq_false_of_le {a b : Dbl α} (h : Dbl.le a b = true) : Dbl.gt a b = false := by
  cases a <;> cases b <;> simp_all [Dbl.le, Dbl.gt, Dbl.lt]

/-- C13: after `computeFlPE`, FlPE is exactly 0 for every path length `L` with
`L <= tendonSlackLength`, whatever the optimal length and the constants are (and however the
arithmetic rounds). -/
theorem FlPE_zero_up_to_slack_length (A : Arith α) (M : Libm α) (m : HillType)
    (length tendonSlackLength optimalLength : Dbl α) (h : Heap α)
    (hle : Dbl.le length tendonSlackLength = true) :
    HillThelenType.FlPE m
      (HillThelenType.computeFlPE A M m length tendonSlackLength optimalLength h) = Dbl.num 0 := by
  simp [HillThelenType.computeFlPE, HillThelenType.FlPE, Dbl.gt_eq_false_of_le hle]

/-- Witness of C13 with the length 1, the tendon slack length 2 and the optimal length 3. -/
theorem FlPE_zero_up_to_slack_length_witness :
    HillThelenType.FlPE someHill
      (HillThelenType.computeFlPE Arith.exactRat
        (Libm.exact (fun x => x) (fun x => x) (fun x _ => x) (fun _ => false)) someHill
        (Dbl.num 1) (Dbl.num 2) (Dbl.num 3) hillHeap) = Dbl.num 0 :=
  FlPE_zero_up_to_slack_length Arith.exactRat _ someHill (Dbl.num 1) (Dbl.num 2) (Dbl.num 3)
    hillHeap (by simp [Dbl.le])

/-- The value `computeFlPE` stores for a length beyond the tendon slack length, in
arithmetic without rounding. -/
theorem FlPE_beyond_slack_length (root acosf : ℝ → ℝ) (powf : ℝ → ℝ → ℝ) (odd : ℝ → Bool)
    (m : HillType) (h : Heap ℝ) (k1 k2 tsl Lopt L : ℝ)
    (hk1 : h.dbl m.m_cste_FlPE_1 = Dbl.num k1) (hk2 : h.dbl m.m_cste_FlPE_2 = Dbl.num k2)
    (hk2pos : 0 < k2) (hLopt : 0 < Lopt) (hL : tsl < L) :
    HillThelenType.FlPE m
      (HillThelenType.computeFlPE (Arith.exact root) (Libm.exact Real.exp acosf powf odd) m
        (Dbl.num L) (Dbl.num tsl) (Dbl.num Lopt) h)
      = Dbl.num ((Real.exp (k1 * (L / Lopt - 1)) - 1) / (Real.exp k2 - 1)) := by
  have hd : Real.exp k2 - 1 ≠ 0 := by
    have := Real.add_one_lt_exp (ne_of_gt hk2pos)
    linarith
  have hgt : Dbl.gt (Dbl.num L) (Dbl.num tsl) = true := by simp [Dbl.gt, Dbl.lt, hL]
  simp only [HillThelenType.computeFlPE, HillThelenType.FlPE, hgt, if_true,
    Heap.writeDbl_dbl_same, hk1, hk2]
  rw [Arith.exact_div root L (ne_of_gt hLopt), Arith.exact_sub, Arith.exact_mul,
    Libm.exact_exp, Libm.exact_exp, Arith.exact_sub, Arith.exact_sub, Arith.exact_div root _ hd]

/-- In the arithmetic of the real numbers, where nothing is rounded and `exp` has no
greatest value: for a HillThelenType muscle with `optimalLength > 0` and constants
`FlPE_1 > 0`, `FlPE_2 > 0` (the documented 10 and 5 among them), FlPE is strictly increasing
in the path length beyond the tendon slack length. -/
theorem FlPE_strictly_increasing (root acosf : ℝ → ℝ) (powf : ℝ → ℝ → ℝ) (odd : ℝ → Bool)
    (m : HillType) (h : Heap ℝ) (k1 k2 tsl Lopt L1 L2 : ℝ)
    (hk1 : h.dbl m.m_cste_FlPE_1 = Dbl.num k1) (hk2 : h.dbl m.m_cste_FlPE_2 = Dbl.num k2)
    (hk1pos : 0 < k1) (hk2pos : 0 < k2) (hLopt : 0 < Lopt) (h1 : tsl < L1) (h12 : L1 < L2) :
    Dbl.lt
      (HillThelenType.FlPE m
        (HillThelenType.computeFlPE (Arith.exact root) (Libm.exact Real.exp acosf powf odd) m
          (Dbl.num L1) (Dbl.num tsl) (Dbl.num Lopt) h))
      (HillThelenType.FlPE m
        (HillThelenType.computeFlPE (Arith.exact root) (Libm.exact Real.exp acosf powf odd) m
          (Dbl.num L2) (Dbl.num tsl) (Dbl.num Lopt) h)) = true := by
  rw [FlPE_beyond_slack_length root acosf powf odd m h k1 k2 tsl Lopt L1 hk1 hk2 hk2pos hLopt h1,
    FlPE_beyond_slack_length root acosf powf odd m h k1 k2 tsl Lopt L2 hk1 hk2 hk2pos hLopt
      (lt_trans h1 h12)]
  have hd : 0 < Real.exp k2 - 1 := by
    have := Real.add_one_lt_exp (ne_of_gt hk2pos)
    linarith
  have hq : L1 / Lopt < L2 / Lopt := div_lt_div_of_pos_right h12 hLopt
  have he : Real.exp (k1 * (L1 / Lopt - 1)) < Real.exp (k1 * (L2 / Lopt - 1)) := by
    apply Real.exp_lt_exp.mpr
    apply mul_lt_mul_of_pos_left _ hk1pos
    linarith
  have hv : (Real.exp (k1 * (L1 / Lopt - 1)) - 1) / (Real.exp k2 - 1)
      < (Real.exp (k1 * (L2 / Lopt - 1)) - 1) / (Real.exp k2 - 1) := by
    apply div_lt_div_of_pos_right _ hd
    linarith
  simp [Dbl.lt, hv]

/-- The strict increase without rounding, with the documented constants 10 and 5, the
optimal length 1, the tendon slack length 1/2 and the lengths 1 and 2. -/
theorem FlPE_strictly_increasing_witness :
    Dbl.lt
      (HillThelenType.FlPE someHill
        (HillThelenType.computeFlPE (Arith.exact Real.sqrt)
          (Libm.exact Real.exp Real.arccos (fun x y => x ^ y) (fun _ => false)) someHill
          (Dbl.num 1) (Dbl.num (1 / 2)) (Dbl.num 1) hillHeap))
      (HillThelenType.FlPE someHill
        (HillThelenType.computeFlPE (Arith.exact Real.sqrt)
          (Libm.exact Real.exp Real.arccos (fun x y => x ^ y) (fun _ => false)) someHill
          (Dbl.num 2) (Dbl.num (1 / 2)) (Dbl.num 1) hillHeap)) = true :=
  FlPE_strictly_increasing Real.sqrt Real.arccos (fun x y => x ^ y) (fun _ => false) someHill
    hillHeap 10 5 (1 / 2) 1 1 2 (by simp [hillHeap, someHill, Heap.writeDbl])
    (by simp [hillHeap, someHill, Heap.writeDbl]) (by norm_num) (by norm_num) (by norm_num)
    (by norm_num) (by norm_num)

/-- C15 (the claim fails here): with the constants 10 and 5, the optimal length 1 and the
tendon slack length 1/2, the length 1 exceeds the tendon slack length and FlPE is 0. -/
theorem FlPE_zero_at_optimal_length :
    Dbl.gt (Dbl.num (1 : ℝ)) (Dbl.num (1 / 2)) = true ∧
    HillThelenType.FlPE someHill
      (HillThelenType.computeFlPE (Arith.exact Real.sqrt)
        (Libm.exact Real.exp Real.arccos (fun x y => x ^ y) (fun _ => false)) someHill
        (Dbl.num 1) (Dbl.num (1 / 2)) (Dbl.num 1) hillHeap) = Dbl.num 0 := by
  constructor
  · simp [Dbl.gt, Dbl.lt]
    norm_num
  · rw [FlPE_beyond_slack_length Real.sqrt Real.arccos (fun x y => x ^ y) (fun _ => false)
      someHill hillHeap 10 5 (1 / 2) 1 1 (by simp [hillHeap, someHill, Heap.writeDbl])
      (by simp [hillHeap, someHill, Heap.writeDbl]) (by norm_num) (by norm_num) (by norm_num)]
    simp

/-- C15 (amended): for a HillThelenType muscle with `optimalLength > 0` and the constants
`FlPE_1 = 10`, `FlPE_2 = 5`, FlPE is non-zero if and only if the path length exceeds the
tendon slack length and differs from the optimal length.  The arithmetic is the one of the
real numbers, without rounding. -/
theorem FlPE_nonzero_iff (root acosf : ℝ → ℝ) (powf : ℝ → ℝ → ℝ) (odd : ℝ → Bool)
    (m : HillType) (h : Heap ℝ) (tsl Lopt L : ℝ)
    (hk1 : h.dbl m.m_cste_FlPE_1 = Dbl.num 10) (hk2 : h.dbl m.m_cste_FlPE_2 = Dbl.num 5)
    (hLopt : 0 < Lopt) :
    HillThelenType.FlPE m
      (HillThelenType.computeFlPE (Arith.exact root) (Libm.exact Real.exp acosf powf odd) m
        (Dbl.num L) (Dbl.num tsl) (Dbl.num Lopt) h) ≠ Dbl.num 0
      ↔ (tsl < L ∧ L ≠ Lopt) := by
  by_cases hL : tsl < L
  · rw [FlPE_beyond_slack_length root acosf powf odd m h 10 5 tsl Lopt L hk1 hk2 (by norm_num)
      hLopt hL]
    have hd : Real.exp 5 - 1 ≠ 0 := by
      have := Real.add_one_lt_exp (show (5 : ℝ) ≠ 0 by norm_num)
      linarith
    have key : (Real.exp (10 * (L / Lopt - 1)) - 1) / (Real.exp 5 - 1) = 0 ↔ L = Lopt := by
      rw [div_eq_zero_iff]
      constructor
      · rintro (h0 | h0)
        · have h1 : Real.exp (10 * (L / Lopt - 1)) = 1 := by linarith
          have h2 : 10 * (L / Lopt - 1) = 0 := by
            rwa [Real.exp_eq_one_iff] at h1
          have h3 : L / Lopt = 1 := by linarith
          exact (div_eq_one_iff_eq (ne_of_gt hLopt)).mp h3
        · exact absurd h0 hd
      · intro hEq
        left
        rw [hEq, div_self (ne_of_gt hLopt)]
        simp
    constructor
    · intro hne
      refine ⟨hL, fun hEq => hne ?_⟩
      rw [key.mpr hEq]
    · rintro ⟨-, hne⟩ hz
      apply hne
      apply key.mp
      exact Dbl.num.inj hz
  · have hgt : Dbl.gt (Dbl.num L) (Dbl.num tsl) = false := by simp [Dbl.gt, Dbl.lt, hL]
    simp [HillThelenType.computeFlPE, HillThelenType.FlPE, hgt, hL]

/-- Witness of C15 (amended) with the optimal length 1, the tendon slack length 1/2 and the
length 2: FlPE is not 0. -/
theorem FlPE_nonzero_iff_witness :
    HillThelenType.FlPE someHill
      (HillThelenType.computeFlPE (Arith.exact Real.sqrt)
        (Libm.exact Real.exp Real.arccos (fun x y => x ^ y) (fun _ => false)) someHill
        (Dbl.num 2) (Dbl.num (1 / 2)) (Dbl.num 1) hillHeap) ≠ Dbl.num 0 :=
  (FlPE_nonzero_iff Real.sqrt Real.arccos (fun x y => x ^ y) (fun _ => false) someHill hillHeap
    (1 / 2) 1 2 (by simp [hillHeap, someHill, Heap.writeDbl])
    (by simp [hillHeap, someHill, Heap.writeDbl]) (by norm_num)).mpr
    ⟨by norm_num, by norm_num⟩

/-- C16: `computeFlCE` sets FlCE to `exp(-((L / Lopt) - 1)^2 / FlCE_2)`, `L` the path length
and `Lopt` the optimal length (both divisors non-zero, arithmetic of the real numbers,
without rounding), and the state it is given plays no part: for every arithmetic two states
give the same memory. -/
theorem computeFlCE_formula (β : Type) [LinearOrderedField β] (root acosf : ℝ → ℝ)
    (odd : ℝ → Bool) (m : HillType) (emg : StateDynamics) (h : Heap ℝ) (c2 Lopt L : ℝ)
    (hc2 : h.dbl m.m_cste_FlCE_2 = Dbl.num c2) (hc2ne : c2 ≠ 0) (hLopt : Lopt ≠ 0) :
    HillThelenType.FlCE m
      (HillThelenType.computeFlCE (Arith.exact root)
        (Libm.exact Real.exp acosf (fun x y => x ^ y) odd) m emg (Dbl.num L) (Dbl.num Lopt) h)
      = Dbl.num (Real.exp (-(L / Lopt - 1) ^ 2 / c2)) ∧
    (∀ (A : Arith β) (M : Libm β) (g : Heap β) (length optimalLength : Dbl β)
      (emg1 emg2 : StateDynamics),
      HillThelenType.computeFlCE A M m emg1 length optimalLength g
        = HillThelenType.computeFlCE A M m emg2 length optimalLength g) := by
  constructor
  · simp only [HillThelenType.computeFlCE, HillThelenType.FlCE, Heap.writeDbl_dbl_same, hc2]
    rw [Arith.exact_div root L hLopt, Arith.exact_sub, Libm.exact_pow]
    simp only [Dbl.neg]
    rw [Arith.exact_div root _ hc2ne, Libm.exact_exp]
    norm_num
  · intro A M g length optimalLength emg1 emg2
    rfl

/-- Witness of C16 with the documented constant `FlCE_2 = 0.45`, the optimal length 1 and
the length 2. -/
theorem computeFlCE_formula_witness :
    HillThelenType.FlCE someHill
      (HillThelenType.computeFlCE (Arith.exact Real.sqrt)
        (Libm.exact Real.exp Real.arccos (fun x y => x ^ y) (fun _ => false)) someHill
        dynamicEmg.1 (Dbl.num 2) (Dbl.num 1) hillHeap)
      = Dbl.num (Real.exp (-(2 / 1 - 1) ^ 2 / (45 / 100))) :=
  (computeFlCE_formula ℚ Real.sqrt Real.arccos (fun _ => false) someHill dynamicEmg.1
    hillHeap (45 / 100) 1 2 (by simp [hillHeap, someHill, Heap.writeDbl]) (by norm_num)
    (by norm_num)).1

end HillTheorems

/-! ## Muscle: `setState` -/

section SetStateTheorems

variable {α : Type} {G C : Type}

/-- C20: `Muscle::setState(emg)` raises if and only if `emg.type()` is neither BUCHANAN nor
DYNAMIC; when it raises, the muscle and its objects are left as they were; when it does not,
`state().excitation()` and `state().activation()` are those of `emg`. -/
theorem setState_spec (toStr : STATE_TYPE → String) (m : Muscle) (emg : StateDynamics)
    (o : Objects G C) (h : Heap α) :
    ((Muscle.setState toStr m emg o h).raised.isSome = true ↔
      (emg.type h ≠ STATE_TYPE.BUCHANAN ∧ emg.type h ≠ STATE_TYPE.DYNAMIC)) ∧
    ((Muscle.setState toStr m emg o h).raised.isSome = true →
      (Muscle.setState toStr m emg o h).muscle = m ∧
      (Muscle.setState toStr m emg o h).objects = o) ∧
    ((Muscle.setState toStr m emg o h).raised = none →
      ((Muscle.setState toStr m emg o h).muscle.state
          (Muscle.setState toStr m emg o h).objects).excitation h = emg.excitation h ∧
      ((Muscle.setState toStr m emg o h).muscle.state
          (Muscle.setState toStr m emg o h).objects).activation h = emg.activation h) := by
  unfold Muscle.setState
  by_cases hb : emg.type h = STATE_TYPE.BUCHANAN
  · simp [hb, Muscle.state]
  · by_cases hd : emg.type h = STATE_TYPE.DYNAMIC
    · simp [hd, Muscle.state]
    · simp [hb, hd]

/-- Witness of C20: `setState` with a state of type DYNAMIC, excitation 1/4 and activation
3/4 does not raise, and `state().activation()` is then 3/4. -/
theorem setState_spec_witness :
    (Muscle.setState stateTypeName firstMuscle dynamicEmg.1 firstObjects dynamicEmg.2).raised
      = none ∧
    ((Muscle.setState stateTypeName firstMuscle dynamicEmg.1 firstObjects dynamicEmg.2).muscle.state
      (Muscle.setState stateTypeName firstMuscle dynamicEmg.1 firstObjects
        dynamicEmg.2).objects).activation dynamicEmg.2 = Dbl.num (3 / 4) := by
  have hr : (Muscle.setState stateTypeName firstMuscle dynamicEmg.1 firstObjects
      dynamicEmg.2).raised = none := by
    simp [Muscle.setState, dynamicEmg, State.type]
  refine ⟨hr, ?_⟩
  rw [((setState_spec stateTypeName firstMuscle dynamicEmg.1 firstObjects dynamicEmg.2).2.2
    hr).2]
  simp [dynamicEmg, State.activation]

end SetStateTheorems

/-! ## Entry point `Matlab_muscleJointTorqueFromActivation` -/

section MatlabTheorems

variable {α σ S Qt : Type}

theorem u32_of_lt {n : Nat} (h : n < 2 ^ 32) : u32 n = n := Nat.mod_eq_of_lt h

theorem Matlab.distribute_succ (n : Nat) (index : Nat → Nat) (value : Nat → Dbl α)
    (a : Nat → Dbl α) :
    Matlab.distribute (n + 1) index value a
      = Function.update (Matlab.distribute n index value a) (index n) (value n) := by
  simp [Matlab.distribute, List.range_succ, List.foldl_append]

/-- A cell no iteration writes keeps its value. -/
theorem Matlab.distribute_of_not_written (n : Nat) (index : Nat → Nat) (value : Nat → Dbl α)
    (a : Nat → Dbl α) (k : Nat) (hk : ∀ j, j < n → index j ≠ k) :
    Matlab.distribute n index value a k = a k := by
  induction n with
  | zero => simp [Matlab.distribute]
  | succ n ih =>
    rw [Matlab.distribute_succ, Function.update_noteq (Ne.symm (hk n (Nat.lt_succ_self n)))]
    exact ih (fun j hj => hk j (Nat.lt_succ_of_lt hj))

/-- When the iterations write different cells, the cell of the iteration `j` holds the value
of the iteration `j`. -/
theorem Matlab.distribute_of_written (n : Nat) (index : Nat → Nat) (value : Nat → Dbl α)
    (a : Nat → Dbl α)
    (hinj : ∀ j1 j2, j1 < n → j2 < n → index j1 = index j2 → j1 = j2) (j : Nat) (hj : j < n) :
    Matlab.distribute n index value a (index j) = value j := by
  induction n with
  | zero => exact absurd hj (Nat.not_lt_zero j)
  | succ n ih =>
    rw [Matlab.distribute_succ]
    by_cases hjn : j = n
    · subst hjn
      simp
    · have hlt : j < n := by omega
      have hne : index j ≠ index n := by
        intro he
        exact hjn (hinj j n hj (Nat.lt_succ_self n) he)
      rw [Function.update_noteq hne]
      exact ih (fun j1 j2 h1 h2 he =>
        hinj j1 j2 (Nat.lt_succ_of_lt h1) (Nat.lt_succ_of_lt h2) he) hlt

/-- The index `i * n + j` computed with `unsigned int`, when it does not pass `2 ^ 32`. -/
theorem u32_index {b j : Nat} (h : b + j < 2 ^ 32) : u32 (u32 b + j) = b + j := by
  have hb : b < 2 ^ 32 := by omega
  rw [u32_of_lt hb, u32_of_lt h]

/-- C18: given 3 to 5 input arguments, `Matlab_muscleJointTorqueFromActivation` raises an
error if and only if (a) there are 4 arguments (Q without Qdot), or (b) there are 3 and the
states hold more than one frame, or (c) there are 5 and the frame count of Q or of QDot
differs from the frame count `nFrame` of the states; the error comes before any output
exists (the result is the message alone) and before any call of `muscularJointTorque` (it
is the same whatever that function and the number of outputs are). -/
theorem validation_spec [LinearOrderedField α] (sizes : Matlab.ModelSizes)
    (muscularJointTorque : σ → S → Bool → Bool → Option Qt → Option Qt → Matlab.TorqueCall α σ)
    (nlhs nrhs : Int) (model : σ) (s : List S) (Q QDot : List Qt)
    (h3 : 3 ≤ nrhs) (h5 : nrhs ≤ 5) :
    ((∃ msg, Matlab.Matlab_muscleJointTorqueFromActivation sizes muscularJointTorque nlhs nrhs
        model s Q QDot = Except.error msg) ↔
      (nrhs = 4 ∨ (nrhs = 3 ∧ 1 < u32 s.length) ∨
        (nrhs = 5 ∧ (Q.length ≠ u32 s.length ∨ QDot.length ≠ u32 s.length)))) ∧
    (∀ msg, Matlab.Matlab_muscleJointTorqueFromActivation sizes muscularJointTorque nlhs nrhs
        model s Q QDot = Except.error msg →
      ∀ (other : σ → S → Bool → Bool → Option Qt → Option Qt → Matlab.TorqueCall α σ)
        (nlhs2 : Int),
        Matlab.Matlab_muscleJointTorqueFromActivation sizes other nlhs2 nrhs model s Q QDot
          = Except.error msg) := by
  have hcases : nrhs = 3 ∨ nrhs = 4 ∨ nrhs = 5 := by omega
  rcases hcases with rfl | rfl | rfl
  · constructor
    · simp only [Matlab.Matlab_muscleJointTorqueFromActivation]
      by_cases hf : 1 < u32 s.length <;> simp [hf]
    · intro msg hmsg other nlhs2
      simp only [Matlab.Matlab_muscleJointTorqueFromActivation] at hmsg ⊢
      by_cases hf : 1 < u32 s.length <;> simp [hf] at hmsg ⊢
      exact hmsg
  · constructor
    · simp [Matlab.Matlab_muscleJointTorqueFromActivation]
    · intro msg hmsg other nlhs2
      simp only [Matlab.Matlab_muscleJointTorqueFromActivation] at hmsg ⊢
      simp at hmsg ⊢
      exact hmsg
  · constructor
    · simp only [Matlab.Matlab_muscleJointTorqueFromActivation]
      by_cases hq : Q.length = u32 s.length <;> by_cases hd : QDot.length = u32 s.length <;>
        simp [hq, hd]
    · intro msg hmsg other nlhs2
      simp only [Matlab.Matlab_muscleJointTorqueFromActivation] at hmsg ⊢
      by_cases hq : Q.length = u32 s.length <;> by_cases hd : QDot.length = u32 s.length <;>
        simp [hq, hd] at hmsg ⊢ <;> exact hmsg

/-- Witness of C18: three arguments and two frames of states raise the error of case (b). -/
theorem validation_spec_witness :
    ∃ msg, Matlab.Matlab_muscleJointTorqueFromActivation
      { nQ := 2, nQdot := 2, nTau := 2, nRoot := 0, nMuscleTotal := 1 } Matlab.countingTorque
      1 3 0 [(), ()] [] [] = Except.error msg :=
  (validation_spec { nQ := 2, nQdot := 2, nTau := 2, nRoot := 0, nMuscleTotal := 1 }
    Matlab.countingTorque 1 3 0 [(), ()] [] [] (by norm_num) (by norm_num)).1.mpr
    (Or.inr (Or.inl ⟨rfl, by simp [u32]⟩))

/-- The torque array after the frames from `i0` on, when no index passes `2 ^ 32`: the cells
before the frame `i0` are kept, and the cell `j + (i0 + i) nTau` holds the coefficient
`j + nRoot` of the torque of the call number `i`. -/
theorem Matlab.frames_tau (sizes : Matlab.ModelSizes)
    (tc : σ → S → Bool → Bool → Option Qt → Option Qt → Matlab.TorqueCall α σ)
    (wf uk : Bool) (Q QDot : List Qt) (hroot : sizes.nTau + sizes.nRoot ≤ 2 ^ 32) :
    ∀ (rest : List S) (i0 : Nat) (st : Matlab.LoopState α σ),
      (i0 + rest.length) * sizes.nTau ≤ 2 ^ 32 →
      (∀ k, k < i0 * sizes.nTau →
        (Matlab.frames sizes tc wf uk Q QDot i0 rest st).tau k = st.tau k) ∧
      (∀ i c, (Matlab.frameCalls tc wf uk Q QDot i0 rest st.model)[i]? = some c →
        ∀ j, j < sizes.nTau →
          (Matlab.frames sizes tc wf uk Q QDot i0 rest st).tau (j + (i0 + i) * sizes.nTau)
            = c.torque (j + sizes.nRoot)) := by
  intro rest
  induction rest with
  | nil =>
    intro i0 st _
    refine ⟨fun k _ => rfl, ?_⟩
    intro i c hc
    simp [Matlab.frameCalls] at hc
  | cons si r ih =>
    intro i0 st hb
    have e1 : (i0 + 1) * sizes.nTau = i0 * sizes.nTau + sizes.nTau := by ring
    have hb1 : (i0 + 1 + r.length) * sizes.nTau ≤ 2 ^ 32 := by
      have : i0 + 1 + r.length = i0 + (si :: r).length := by simp; omega
      rw [this]; exact hb
    have hle : (i0 + 1) * sizes.nTau ≤ (i0 + 1 + r.length) * sizes.nTau :=
      Nat.mul_le_mul_right _ (by omega)
    have hwin : i0 * sizes.nTau + sizes.nTau ≤ 2 ^ 32 := by omega
    obtain ⟨ih1, ih2⟩ := ih (i0 + 1)
      (Matlab.frameBody sizes tc wf uk Q QDot i0 si st) hb1
    have hidx : ∀ j, j < sizes.nTau →
        u32 (u32 (i0 * sizes.nTau) + j) = i0 * sizes.nTau + j :=
      fun j hj => u32_index (by omega)
    constructor
    · intro k hk
      rw [Matlab.frames, ih1 k (by omega)]
      simp only [Matlab.frameBody]
      apply Matlab.distribute_of_not_written
      intro j hj
      rw [hidx j hj]
      omega
    · intro i c hc j hj
      rw [Matlab.frames]
      cases i with
      | zero =>
        simp only [Matlab.frameCalls, List.getElem?_cons_zero, Option.some.injEq] at hc
        have hgoal : j + (i0 + 0) * sizes.nTau = i0 * sizes.nTau + j := by
          rw [Nat.add_zero]; omega
        rw [hgoal, ih1 _ (by omega)]
        simp only [Matlab.frameBody]
        have hw := Matlab.distribute_of_written sizes.nTau
          (fun j => u32 (u32 (i0 * sizes.nTau) + j))
          (fun j => (if uk = true then tc st.model si wf uk Q[i0]? QDot[i0]?
            else tc st.model si wf uk none none).torque (u32 (j + sizes.nRoot))) st.tau
          (by
            intro j1 j2 h1 h2 he
            simp only [hidx j1 h1, hidx j2 h2] at he
            omega) j hj
        simp only [hidx j hj] at hw
        rw [hw, ← hc, u32_of_lt (by omega)]
      | succ i =>
        simp only [Matlab.frameCalls, List.getElem?_cons_succ] at hc
        have h2 := ih2 i c (by simpa [Matlab.frameBody] using hc) j hj
        rw [show i0 + (i + 1) = i0 + 1 + i by omega]
        exact h2

/-- The force array after the frames from `i0` on, when the forces are asked and no index
passes `2 ^ 32`. -/
theorem Matlab.frames_Mus (sizes : Matlab.ModelSizes)
    (tc : σ → S → Bool → Bool → Option Qt → Option Qt → Matlab.TorqueCall α σ)
    (uk : Bool) (Q QDot : List Qt) :
    ∀ (rest : List S) (i0 : Nat) (st : Matlab.LoopState α σ),
      (i0 + rest.length) * sizes.nMuscleTotal ≤ 2 ^ 32 →
      (∀ k, k < i0 * sizes.nMuscleTotal →
        (Matlab.frames sizes tc true uk Q QDot i0 rest st).Mus k = st.Mus k) ∧
      (∀ i c, (Matlab.frameCalls tc true uk Q QDot i0 rest st.model)[i]? = some c →
        ∀ j, j < sizes.nMuscleTotal →
          (Matlab.frames sizes tc true uk Q QDot i0 rest st).Mus
              (j + (i0 + i) * sizes.nMuscleTotal)
            = c.force j) := by
  intro rest
  induction rest with
  | nil =>
    intro i0 st _
    refine ⟨fun k _ => rfl, ?_⟩
    intro i c hc
    simp [Matlab.frameCalls] at hc
  | cons si r ih =>
    intro i0 st hb
    have e1 : (i0 + 1) * sizes.nMuscleTotal = i0 * sizes.nMuscleTotal + sizes.nMuscleTotal := by
      ring
    have hb1 : (i0 + 1 + r.length) * sizes.nMuscleTotal ≤ 2 ^ 32 := by
      have : i0 + 1 + r.length = i0 + (si :: r).length := by simp; omega
      rw [this]; exact hb
    have hle : (i0 + 1) * sizes.nMuscleTotal ≤ (i0 + 1 + r.length) * sizes.nMuscleTotal :=
      Nat.mul_le_mul_right _ (by omega)
    have hwin : i0 * sizes.nMuscleTotal + sizes.nMuscleTotal ≤ 2 ^ 32 := by omega
    obtain ⟨ih1, ih2⟩ := ih (i0 + 1)
      (Matlab.frameBody sizes tc true uk Q QDot i0 si st) hb1
    have hidx : ∀ j, j < sizes.nMuscleTotal →
        u32 (u32 (i0 * sizes.nMuscleTotal) + j) = i0 * sizes.nMuscleTotal + j :=
      fun j hj => u32_index (by omega)
    constructor
    · intro k hk
      rw [Matlab.frames, ih1 k (by omega)]
      simp only [Matlab.frameBody, if_true]
      apply Matlab.distribute_of_not_written
      intro j hj
      rw [hidx j hj]
      omega
    · intro i c hc j hj
      rw [Matlab.frames]
      cases i with
      | zero =>
        simp only [Matlab.frameCalls, List.getElem?_cons_zero, Option.some.injEq] at hc
        have hgoal : j + (i0 + 0) * sizes.nMuscleTotal = i0 * sizes.nMuscleTotal + j := by
          rw [Nat.add_zero]; omega
        rw [hgoal, ih1 _ (by omega)]
        simp only [Matlab.frameBody, if_true]
        have hw := Matlab.distribute_of_written sizes.nMuscleTotal
          (fun j => u32 (u32 (i0 * sizes.nMuscleTotal) + j))
          (fun j => (if uk = true then tc st.model si true uk Q[i0]? QDot[i0]?
            else tc st.model si true uk none none).force j) st.Mus
          (by
            intro j1 j2 h1 h2 he
            simp only [hidx j1 h1, hidx j2 h2] at he
            omega) j hj
        simp only [hidx j hj] at hw
        rw [hw, ← hc]
      | succ i =>
        simp only [Matlab.frameCalls, List.getElem?_cons_succ] at hc
        have h2 := ih2 i c (by simpa [Matlab.frameBody] using hc) j hj
        rw [show i0 + (i + 1) = i0 + 1 + i by omega]
        exact h2

theorem Matlab.frameCalls_length
    (tc : σ → S → Bool → Bool → Option Qt → Option Qt → Matlab.TorqueCall α σ)
    (wf uk : Bool) (Q QDot : List Qt) :
    ∀ (rest : List S) (i0 : Nat) (model : σ),
      (Matlab.frameCalls tc wf uk Q QDot i0 rest model).length = rest.length := by
  intro rest
  induction rest with
  | nil => intro i0 model; rfl
  | cons si r ih => intro i0 model; simp [Matlab.frameCalls, ih]

/-- C17 (the claim fails here): a model of `2 ^ 31` generalized torques, no root coefficient,
three frames, Q and QDot given, one output.  The frames 0, 1, 2 yield the torques 0, 1, 2 in
every coefficient.  For the frame 2 the index `i * nTau + j` is `2 ^ 32 + j`, which an
`unsigned int` holds as `j`: the entry `(0, 0)` of the output is 2, the torque of the frame 2,
and not the torque 0 of the frame 0. -/
theorem torque_layout_wraps_around :
    ∃ out, Matlab.Matlab_muscleJointTorqueFromActivation
        { nQ := 1, nQdot := 1, nTau := 2 ^ 31, nRoot := 0, nMuscleTotal := 1 }
        Matlab.countingTorque 1 5 0 [(), (), ()] [(), (), ()] [(), (), ()] = Except.ok out ∧
      out.dims = (2 ^ 31, 3) ∧
      Matlab.entry out.tau (2 ^ 31) 0 0 = Dbl.num 2 ∧
      (Matlab.frameCalls Matlab.countingTorque false true [(), (), ()] [(), (), ()] 0
          [(), (), ()] 0).map (fun c => c.torque (0 + 0))
        = [Dbl.num 0, Dbl.num 1, Dbl.num 2] := by
  have h3 : u32 3 = 3 := by simp [u32]
  have hout : Matlab.Matlab_muscleJointTorqueFromActivation
      { nQ := 1, nQdot := 1, nTau := 2 ^ 31, nRoot := 0, nMuscleTotal := 1 }
      Matlab.countingTorque 1 5 0 [(), (), ()] [(), (), ()] [(), (), ()]
      = Except.ok
        { dims := (2 ^ 31, 3)
          tau := (Matlab.frames { nQ := 1, nQdot := 1, nTau := 2 ^ 31, nRoot := 0, nMuscleTotal := 1 }
            Matlab.countingTorque false true [(), (), ()] [(), (), ()] 0 [(), (), ()]
            { tau := fun _ => Dbl.num 0, Mus := fun _ => Dbl.num 0, model := 0 }).tau
          plhs1 := none
          model := (Matlab.frames
            { nQ := 1, nQdot := 1, nTau := 2 ^ 31, nRoot := 0, nMuscleTotal := 1 }
            Matlab.countingTorque false true [(), (), ()] [(), (), ()] 0 [(), (), ()]
            { tau := fun _ => Dbl.num 0, Mus := fun _ => Dbl.num 0, model := 0 }).model } := by
    simp [Matlab.Matlab_muscleJointTorqueFromActivation, h3]
  refine ⟨_, hout, ?_, ?_, ?_⟩
  · simp
  · simp only [Matlab.entry, Matlab.frames, Matlab.frameBody, Nat.zero_mul, Nat.add_zero,
      Nat.zero_add]
    have hidx : ∀ j, j < 2 ^ 31 → u32 (u32 (2 * 2 ^ 31) + j) = j := by
      intro j hj
      simp only [u32]
      omega
    have hw := Matlab.distribute_of_written (2 ^ 31)
      (fun j => u32 (u32 (2 * 2 ^ 31) + j))
      (fun j => (Matlab.countingTorque 2 () false true (some ()) (some ())).torque (u32 (j + 0)))
      (Matlab.distribute (2 ^ 31) (fun j => u32 (u32 (1 * 2 ^ 31) + j))
        (fun j => (Matlab.countingTorque 1 () false true (some ()) (some ())).torque
          (u32 (j + 0)))
        (Matlab.distribute (2 ^ 31) (fun j => u32 (u32 (0 * 2 ^ 31) + j))
          (fun j => (Matlab.countingTorque 0 () false true (some ()) (some ())).torque
            (u32 (j + 0)))
          (fun _ => Dbl.num 0)))
      (by
        intro j1 j2 h1 h2 he
        simp only [hidx j1 h1, hidx j2 h2] at he
        exact he) 0 (by norm_num)
    simp only [hidx 0 (by norm_num)] at hw
    simpa [Matlab.countingTorque] using hw
  · simp [Matlab.frameCalls, Matlab.countingTorque]

/-- C17 (amended): when the entry point returns and the linear indices fit an `unsigned int`
(`nTau * nFrame <= 2 ^ 32`, and `nMuscleTotal * nFrame <= 2 ^ 32` for the second output;
`nTau + nRoot <= 2 ^ 32`), the torque output has `nTau` rows and `nFrame` columns, each of
the `nFrame` frames has its call of `muscularJointTorque`, and the entry `(j, i)` is the
coefficient `j + nRoot` of the torque of the frame `i`; when a second output is asked, it
has `nMuscleTotal` rows and `nFrame` columns and its entry `(j, i)` is the coefficient `j`
of the force vector of the frame `i`. -/
theorem torque_layout [LinearOrderedField α] (sizes : Matlab.ModelSizes)
    (muscularJointTorque : σ → S → Bool → Bool → Option Qt → Option Qt → Matlab.TorqueCall α σ)
    (nlhs nrhs : Int) (model : σ) (s : List S) (Q QDot : List Qt) (out : Matlab.Outputs α σ)
    (hok : Matlab.Matlab_muscleJointTorqueFromActivation sizes muscularJointTorque nlhs nrhs
      model s Q QDot = Except.ok out)
    (hfit : sizes.nTau * u32 s.length ≤ 2 ^ 32) (hroot : sizes.nTau + sizes.nRoot ≤ 2 ^ 32) :
    out.dims = (sizes.nTau, u32 s.length) ∧
    (Matlab.frameCalls muscularJointTorque (decide (2 ≤ nlhs)) (decide (4 ≤ nrhs)) Q QDot 0
      (s.take (u32 s.length)) model).length = u32 s.length ∧
    (∀ i c, (Matlab.frameCalls muscularJointTorque (decide (2 ≤ nlhs)) (decide (4 ≤ nrhs))
        Q QDot 0 (s.take (u32 s.length)) model)[i]? = some c →
      ∀ j, j < sizes.nTau → Matlab.entry out.tau sizes.nTau j i = c.torque (j + sizes.nRoot)) ∧
    (2 ≤ nlhs → sizes.nMuscleTotal * u32 s.length ≤ 2 ^ 32 →
      ∃ Mus, out.plhs1 = some ((sizes.nMuscleTotal, u32 s.length), Mus) ∧
        ∀ i c, (Matlab.frameCalls muscularJointTorque (decide (2 ≤ nlhs)) (decide (4 ≤ nrhs))
            Q QDot 0 (s.take (u32 s.length)) model)[i]? = some c →
          ∀ j, j < sizes.nMuscleTotal →
            Matlab.entry Mus sizes.nMuscleTotal j i = c.force j) := by
  have hlen : (s.take (u32 s.length)).length = u32 s.length := by
    rw [List.length_take]
    exact Nat.min_eq_left (Nat.mod_le _ _)
  have hfields : out.dims = (sizes.nTau, u32 s.length) ∧
      out.tau = (Matlab.frames sizes muscularJointTorque (decide (2 ≤ nlhs))
        (decide (4 ≤ nrhs)) Q QDot 0 (s.take (u32 s.length))
        { tau := fun _ => Dbl.num 0, Mus := fun _ => Dbl.num 0, model := model }).tau ∧
      out.plhs1 = (if decide (2 ≤ nlhs) = true then
        some ((sizes.nMuscleTotal, u32 s.length),
          (Matlab.frames sizes muscularJointTorque (decide (2 ≤ nlhs)) (decide (4 ≤ nrhs))
            Q QDot 0 (s.take (u32 s.length))
            { tau := fun _ => Dbl.num 0, Mus := fun _ => Dbl.num 0, model := model }).Mus)
        else none) := by
    simp only [Matlab.Matlab_muscleJointTorqueFromActivation] at hok
    split_ifs at hok <;> cases hok <;> simp [*]
  obtain ⟨hdims, htau, hplhs1⟩ := hfields
  refine ⟨hdims, ?_, ?_, ?_⟩
  · rw [Matlab.frameCalls_length, hlen]
  · intro i c hc j hj
    have hb : (0 + (s.take (u32 s.length)).length) * sizes.nTau ≤ 2 ^ 32 := by
      rw [hlen, Nat.zero_add, Nat.mul_comm]; exact hfit
    have h := (Matlab.frames_tau sizes muscularJointTorque (decide (2 ≤ nlhs))
      (decide (4 ≤ nrhs)) Q QDot hroot (s.take (u32 s.length)) 0
      { tau := fun _ => Dbl.num 0, Mus := fun _ => Dbl.num 0, model := model } hb).2 i c hc j hj
    rw [htau]
    simpa [Matlab.entry] using h
  · intro h2 hfitM
    have hwf : decide (2 ≤ nlhs) = true := by simpa using h2
    rw [hwf] at hplhs1
    refine ⟨_, hplhs1, ?_⟩
    intro i c hc j hj
    have hb : (0 + (s.take (u32 s.length)).length) * sizes.nMuscleTotal ≤ 2 ^ 32 := by
      rw [hlen, Nat.zero_add, Nat.mul_comm]; exact hfitM
    rw [hwf] at hc
    have h := (Matlab.frames_Mus sizes muscularJointTorque (decide (4 ≤ nrhs)) Q QDot
      (s.take (u32 s.length)) 0
      { tau := fun _ => Dbl.num 0, Mus := fun _ => Dbl.num 0, model := model } hb).2 i c hc j hj
    simpa [Matlab.entry] using h

/-- Witness of C17 (amended): two torques, one root coefficient, one muscle, two frames with
Q and QDot, two outputs.  The entry `(1, 1)` of the torque output is the coefficient 2 of the
torque of the frame 1, which is 1. -/
theorem torque_layout_witness :
    ∃ out, Matlab.Matlab_muscleJointTorqueFromActivation
        { nQ := 3, nQdot := 3, nTau := 2, nRoot := 1, nMuscleTotal := 1 }
        Matlab.countingTorque 2 5 0 [(), ()] [(), ()] [(), ()] = Except.ok out ∧
      Matlab.entry out.tau 2 1 1 = Dbl.num 1 := by
  have h2 : u32 2 = 2 := by simp [u32]
  have hout : Matlab.Matlab_muscleJointTorqueFromActivation
      { nQ := 3, nQdot := 3, nTau := 2, nRoot := 1, nMuscleTotal := 1 }
      Matlab.countingTorque 2 5 0 [(), ()] [(), ()] [(), ()]
      = Except.ok
        { dims := (2, 2)
          tau := (Matlab.frames { nQ := 3, nQdot := 3, nTau := 2, nRoot := 1, nMuscleTotal := 1 }
            Matlab.countingTorque true true [(), ()] [(), ()] 0 [(), ()]
            { tau := fun _ => Dbl.num 0, Mus := fun _ => Dbl.num 0, model := 0 }).tau
          plhs1 := some ((1, 2),
            (Matlab.frames { nQ := 3, nQdot := 3, nTau := 2, nRoot := 1, nMuscleTotal := 1 }
              Matlab.countingTorque true true [(), ()] [(), ()] 0 [(), ()]
              { tau := fun _ => Dbl.num 0, Mus := fun _ => Dbl.num 0, model := 0 }).Mus)
          model := (Matlab.frames
            { nQ := 3, nQdot := 3, nTau := 2, nRoot := 1, nMuscleTotal := 1 }
            Matlab.countingTorque true true [(), ()] [(), ()] 0 [(), ()]
            { tau := fun _ => Dbl.num 0, Mus := fun _ => Dbl.num 0, model := 0 }).model } := by
    simp [Matlab.Matlab_muscleJointTorqueFromActivation, h2]
  refine ⟨_, hout, ?_⟩
  have h := (torque_layout { nQ := 3, nQdot := 3, nTau := 2, nRoot := 1, nMuscleTotal := 1 }
    Matlab.countingTorque 2 5 0 [(), ()] [(), ()] [(), ()] _ hout (by simp [h2])
    (by norm_num)).2.2.1 1 (Matlab.countingTorque 1 () true true (some ()) (some ()))
    (by simp [Matlab.frameCalls, Matlab.countingTorque, h2]) 1 (by norm_num)
  simpa [Matlab.countingTorque] using h

end MatlabTheorems

/-! ## Model file reader: the lookups -/

section ReaderTheorems

variable {α : Type} [LinearOrderedField α]

/-- Both loops of the branch `muscle` keep `GroupIndexFound`. -/
theorem Reader.properties_groupIndexFound (L : Reader.Lookups) (parse : String → Dbl α) :
    ∀ (n : Nat) (ts : List String) (v v' : Reader.MuscleVars α) (rest : List String),
      ts.length ≤ n → Reader.GroupIndexFound L v →
      (Reader.muscleProperties L parse ts v = Except.ok (v', rest) →
        Reader.GroupIndexFound L v') ∧
      (Reader.fatigueProperties L parse ts v = Except.ok (v', rest) →
        Reader.GroupIndexFound L v') := by
  intro n
  induction n with
  | zero =>
    intro ts v v' rest hlen hinv
    have hts : ts = [] := List.length_eq_zero.mp (Nat.le_zero.mp hlen)
    subst hts
    constructor
    · intro h
      rw [Reader.muscleProperties] at h
      obtain ⟨rfl, -⟩ := Prod.mk.inj (Except.ok.inj h)
      exact hinv
    · intro h
      rw [Reader.fatigueProperties] at h
      obtain ⟨rfl, -⟩ := Prod.mk.inj (Except.ok.inj h)
      exact hinv
  | succ n ih =>
    intro ts v v' rest hlen hinv
    cases ts with
    | nil =>
      constructor
      · intro h
        rw [Reader.muscleProperties] at h
        obtain ⟨rfl, -⟩ := Prod.mk.inj (Except.ok.inj h)
        exact hinv
      · intro h
        rw [Reader.fatigueProperties] at h
        obtain ⟨rfl, -⟩ := Prod.mk.inj (Except.ok.inj h)
        exact hinv
    | cons tag ts =>
      simp only [List.length_cons] at hlen
      have hd1 : (ts.drop 1).length ≤ n := by rw [List.length_drop]; omega
      have hd3 : (ts.drop 3).length ≤ n := by rw [List.length_drop]; omega
      have hd0 : ts.length ≤ n := by omega
      constructor
      · intro h
        rw [Reader.muscleProperties] at h
        generalize Reader.tolower tag = t at h
        generalize Reader.tolower (Reader.readString "" ts) = u at h
        by_cases c0 : t = "endmuscle"
        · rw [if_pos c0] at h
          obtain ⟨rfl, -⟩ := Prod.mk.inj (Except.ok.inj h)
          exact hinv
        rw [if_neg c0] at h
        by_cases c1 : t = "musclegroup"
        · rw [if_pos c1] at h
          by_cases g : L.getGroupId (Reader.readString v.muscleGroup ts) = -1
          · rw [if_pos g] at h
            exact absurd h (by simp)
          · rw [if_neg g] at h
            exact (ih _ _ _ _ hd1 (Or.inr ⟨_, rfl⟩)).1 h
        rw [if_neg c1] at h
        by_cases c2 : t = "type"
        · rw [if_pos c2] at h
          by_cases d0 : u = "idealizedactuator"
          · rw [if_pos d0] at h
            exact (ih _ _ _ _ hd1 (by exact hinv)).1 h
          rw [if_neg d0] at h
          by_cases d1 : u = "hil"
          · rw [if_pos d1] at h
            exact (ih _ _ _ _ hd1 (by exact hinv)).1 h
          rw [if_neg d1] at h
          by_cases d2 : u = "hillthelen" ∨ u = "thelen"
          · rw [if_pos d2] at h
            exact (ih _ _ _ _ hd1 (by exact hinv)).1 h
          rw [if_neg d2] at h
          by_cases d3 : u = "hillthelenfatigable" ∨ u = "thelenfatigable"
          · rw [if_pos d3] at h
            exact (ih _ _ _ _ hd1 (by exact hinv)).1 h
          rw [if_neg d3] at h
          exact absurd h (by simp)
        rw [if_neg c2] at h
        by_cases c3 : t = "statetype"
        · rw [if_pos c3] at h
          by_cases d0 : u = "buchanan"
          · rw [if_pos d0] at h
            exact (ih _ _ _ _ hd1 (by exact hinv)).1 h
          rw [if_neg d0] at h
          exact absurd h (by simp)
        rw [if_neg c3] at h
        by_cases c4 : t = "originposition"
        · rw [if_pos c4] at h
          exact (ih _ _ _ _ hd3 (by exact hinv)).1 h
        rw [if_neg c4] at h
        by_cases c5 : t = "insertionposition"
        · rw [if_pos c5] at h
          exact (ih _ _ _ _ hd3 (by exact hinv)).1 h
        rw [if_neg c5] at h
        by_cases c6 : t = "optimallength"
        · rw [if_pos c6] at h
          exact (ih _ _ _ _ hd1 (by exact hinv)).1 h
        rw [if_neg c6] at h
        by_cases c7 : t = "tendonslacklength"
        · rw [if_pos c7] at h
          exact (ih _ _ _ _ hd1 (by exact hinv)).1 h
        rw [if_neg c7] at h
        by_cases c8 : t = "pennationangle"
        · rw [if_pos c8] at h
          exact (ih _ _ _ _ hd1 (by exact hinv)).1 h
        rw [if_neg c8] at h
        by_cases c9 : t = "maximalforce"
        · rw [if_pos c9] at h
          exact (ih _ _ _ _ hd1 (by exact hinv)).1 h
        rw [if_neg c9] at h
        by_cases c10 : t = "maximalexcitation"
        · rw [if_pos c10] at h
          exact (ih _ _ _ _ hd1 (by exact hinv)).1 h
        rw [if_neg c10] at h
        by_cases c11 : t = "pcsa"
        · rw [if_pos c11] at h
          exact (ih _ _ _ _ hd1 (by exact hinv)).1 h
        rw [if_neg c11] at h
        by_cases c12 : t = "fatigueparameters"
        · rw [if_pos c12] at h
          exact (ih _ _ _ _ hd0 (by exact hinv)).2 h
        rw [if_neg c12] at h
        exact (ih _ _ _ _ hd0 (by exact hinv)).1 h
      · intro h
        rw [Reader.fatigueProperties] at h
        generalize Reader.tolower tag = t at h
        generalize Reader.tolower (Reader.readString "" ts) = u at h
        by_cases c0 : t = "endfatigueparameters"
        · rw [if_pos c0] at h
          exact (ih _ _ _ _ hd0 (by exact hinv)).1 h
        rw [if_neg c0] at h
        by_cases c1 : t = "type"
        · rw [if_pos c1] at h
          by_cases d0 : u = "simple"
          · rw [if_pos d0] at h
            exact (ih _ _ _ _ hd1 (by exact hinv)).2 h
          rw [if_neg d0] at h
          by_cases d1 : u = "xia"
          · rw [if_pos d1] at h
            exact (ih _ _ _ _ hd1 (by exact hinv)).2 h
          rw [if_neg d1] at h
          exact absurd h (by simp)
        rw [if_neg c1] at h
        by_cases c2 : t = "fatiguerate"
        · rw [if_pos c2] at h
          exact (ih _ _ _ _ hd1 (by exact hinv)).2 h
        rw [if_neg c2] at h
        by_cases c3 : t = "recoveryrate"
        · rw [if_pos c3] at h
          exact (ih _ _ _ _ hd1 (by exact hinv)).2 h
        rw [if_neg c3] at h
        by_cases c4 : t = "developfactor"
        · rw [if_pos c4] at h
          exact (ih _ _ _ _ hd1 (by exact hinv)).2 h
        rw [if_neg c4] at h
        by_cases c5 : t = "recoveryfactor"
        · rw [if_pos c5] at h
          exact (ih _ _ _ _ hd1 (by exact hinv)).2 h
        rw [if_neg c5] at h
        exact (ih _ _ _ _ hd1 (by exact hinv)).2 h

theorem castU32_ne_of_ne {i : Int} (hlo : -(2 ^ 31) ≤ i) (hhi : i < 2 ^ 31) (hne : i ≠ -1) :
    castU32 i ≠ castU32 (-1) := by
  unfold castU32
  omega

/-- C19: the index -1 is checked before it is used.  When the branch `muscle` ends without
error, its group index is not -1 and is what `getGroupId` returned for a name; when the
branch `viapoint` or `wrap` ends without error, its group index is `getGroupId(musclegroup)`
and its muscle index is `muscleID(muscle)`, both different from -1.  So a lookup that returns
-1, and a muscle element that names no group, raise an error, and the unsigned arguments of
`muscleGroup(...)` and `muscle(...)` are never -1 converted (`getGroupId` and `muscleID`
return an `int`). -/
theorem lookups_checked_before_use (L : Reader.Lookups) (parse : String → Dbl α)
    (parseInt : String → Int) (fatigueParameters : Reader.FatigueParameters α)
    (RT : RotoTrans α) (tokens : List String)
    (hG : ∀ n, -(2 ^ 31) ≤ L.getGroupId n ∧ L.getGroupId n < 2 ^ 31)
    (hM : ∀ g n, -(2 ^ 31) ≤ L.muscleID g n ∧ L.muscleID g n < 2 ^ 31) :
    (∀ a rest, Reader.readMuscle L parse fatigueParameters tokens = Except.ok (a, rest) →
      a.vars.idxGroup ≠ -1 ∧ (∃ name, L.getGroupId name = a.vars.idxGroup) ∧
      a.group = castU32 a.vars.idxGroup ∧ a.group ≠ castU32 (-1)) ∧
    (∀ a rest, Reader.readViaPoint L parse tokens = Except.ok (a, rest) →
      a.iMuscleGroup = L.getGroupId a.object.musclegroup ∧ a.iMuscleGroup ≠ -1 ∧
      a.iMuscle = L.muscleID a.group a.object.muscle ∧ a.iMuscle ≠ -1 ∧
      a.group = castU32 a.iMuscleGroup ∧ a.group ≠ castU32 (-1) ∧
      a.muscle = castU32 a.iMuscle ∧ a.muscle ≠ castU32 (-1)) ∧
    (∀ a rest, Reader.readWrap L parse parseInt RT tokens = Except.ok (a, rest) →
      a.iMuscleGroup = L.getGroupId a.object.musclegroup ∧ a.iMuscleGroup ≠ -1 ∧
      a.iMuscle = L.muscleID a.group a.object.muscle ∧ a.iMuscle ≠ -1 ∧
      a.group = castU32 a.iMuscleGroup ∧ a.group ≠ castU32 (-1) ∧
      a.muscle = castU32 a.iMuscle ∧ a.muscle ≠ castU32 (-1)) := by
  refine ⟨?_, ?_, ?_⟩
  · intro a rest h
    unfold Reader.readMuscle at h
    split at h
    · exact absurd h (by simp)
    · rename_i v r hloop
      split_ifs at h with hidx
      obtain ⟨rfl, -⟩ := Prod.mk.inj (Except.ok.inj h)
      have hinv := (Reader.properties_groupIndexFound L parse _ _ _ v r (le_refl _)
        (Or.inl rfl)).1 hloop
      have hex : ∃ name, L.getGroupId name = v.idxGroup := by
        rcases hinv with h1 | h1
        · exact absurd h1 hidx
        · exact h1
      obtain ⟨name, hname⟩ := hex
      refine ⟨hidx, ⟨name, hname⟩, rfl, ?_⟩
      have := hG name
      rw [hname] at this
      exact castU32_ne_of_ne this.1 this.2 hidx
  · intro a rest h
    unfold Reader.readViaPoint at h
    split at h
    · exact absurd h (by simp)
    · rename_i v r hloop
      split_ifs at h with hg hm
      obtain ⟨rfl, -⟩ := Prod.mk.inj (Except.ok.inj h)
      exact ⟨rfl, hg, rfl, hm, rfl, castU32_ne_of_ne (hG _).1 (hG _).2 hg, rfl,
        castU32_ne_of_ne (hM _ _).1 (hM _ _).2 hm⟩
  · intro a rest h
    unfold Reader.readWrap at h
    split at h
    · exact absurd h (by simp)
    · rename_i v r hloop
      split_ifs at h with hd hl hs hp hg hm
      obtain ⟨rfl, -⟩ := Prod.mk.inj (Except.ok.inj h)
      exact ⟨rfl, hg, rfl, hm, rfl, castU32_ne_of_ne (hG _).1 (hG _).2 hg, rfl,
        castU32_ne_of_ne (hM _ _).1 (hM _ _).2 hm⟩

/-- What the branch `viapoint` yields on `viaPointTokens` with the model `armModel`. -/
theorem Reader.readViaPoint_viaPointTokens :
    Reader.readViaPoint Reader.armModel Reader.parseSome Reader.viaPointTokens
      = Except.ok
        ({ iMuscleGroup := 0, iMuscle := 0, group := 0, muscle := 0, name := "via1",
           object :=
             { parent := "humerus", muscle := "biceps", musclegroup := "arm",
               position := { x := Dbl.num (1 / 10), y := Dbl.num (-2 / 10),
                             z := Dbl.num (1 / 10) } } }, []) := by
  simp [Reader.readViaPoint, Reader.viaPointProperties, Reader.viaPointTokens,
    Reader.readString, Reader.readVector, Reader.readDouble, Reader.armModel,
    Reader.parseSome, Reader.tolower, castU32]

/-- Witness of C19: the viapoint element `viaPointTokens` is read without error on the model
`armModel`, and its two indices are not -1. -/
theorem lookups_checked_before_use_witness :
    ∃ a rest, Reader.readViaPoint Reader.armModel Reader.parseSome Reader.viaPointTokens
        = Except.ok (a, rest) ∧
      a.iMuscleGroup ≠ -1 ∧ a.iMuscle ≠ -1 ∧
      a.group ≠ castU32 (-1) ∧ a.muscle ≠ castU32 (-1) :=
  have h := (lookups_checked_before_use Reader.armModel Reader.parseSome (fun _ => 1)
    { fatigueRate := Dbl.num 0, recoveryRate := Dbl.num 0, developFactor := Dbl.num 0,
      recoveryFactor := Dbl.num 0 }
    (fun _ _ => Dbl.num 0) Reader.viaPointTokens
    (by intro n; simp only [Reader.armModel]; split_ifs <;> norm_num)
    (by intro g n; simp only [Reader.armModel]; split_ifs <;> norm_num)).2.1 _ _
    Reader.readViaPoint_viaPointTokens
  ⟨_, _, Reader.readViaPoint_viaPointTokens, h.2.1, h.2.2.2.1, h.2.2.2.2.2.1, h.2.2.2.2.2.2.2⟩

end ReaderTheorems

/-! ## WrappingCylinder: the last test of `checkIfWraps` -/

section LastTest

variable {α : Type} [LinearOrderedField α]

/-- C25: `checkIfWraps` returns the negation of its last test, which reads only the
x-coordinates of the two tangent points and of the two endpoints: false exactly when
`(t1.x < t2.x and p1.x > p2.x) or (t1.x > t2.x and p1.x < p2.x)`.  Another arithmetic, another
cylinder (radius, sign flag) and other y- and z-coordinates of the endpoints give the same
result. -/
theorem checkIfWraps_decided_by_last_test (A B : Arith α) (w v : WrappingCylinder α)
    (g t : NodeMusclePair α) (y1 z1 y2 z2 : Dbl α) :
    w.checkIfWraps A g t =
      !((Dbl.lt t.m_p1.x t.m_p2.x && Dbl.gt g.m_p1.x g.m_p2.x)
        || (Dbl.gt t.m_p1.x t.m_p2.x && Dbl.lt g.m_p1.x g.m_p2.x)) ∧
    v.checkIfWraps B
      { m_p1 := { x := g.m_p1.x, y := y1, z := z1 }, m_p2 := { x := g.m_p2.x, y := y2, z := z2 } } t
      = w.checkIfWraps A g t := by
  have key : ∀ (C : Arith α) (u : WrappingCylinder α) (e : NodeMusclePair α),
      u.checkIfWraps C e t =
        !((Dbl.lt t.m_p1.x t.m_p2.x && Dbl.gt e.m_p1.x e.m_p2.x)
          || (Dbl.gt t.m_p1.x t.m_p2.x && Dbl.lt e.m_p1.x e.m_p2.x)) := by
    intro C u e
    cases h1 : Dbl.lt t.m_p1.x t.m_p2.x <;> cases h2 : Dbl.gt e.m_p1.x e.m_p2.x <;>
      cases h3 : Dbl.gt t.m_p1.x t.m_p2.x <;> cases h4 : Dbl.lt e.m_p1.x e.m_p2.x <;>
      simp [WrappingCylinder.checkIfWraps, h1, h2, h3, h4]
  exact ⟨key A w g, by rw [key, key]⟩

end LastTest

/-! ## WrappingCylinder: the cache without a length -/

section CacheWithoutLength

variable {α : Type} [LinearOrderedField α]

/-- C27: the computing overload of `wrapPoints` called with `length == nullptr` stores the two
leave points it hands back and keeps the cached length, so the accessor then returns these
new points with the old length: the one a former call with a length computed, or the 0 of the
constructor. -/
theorem wrapPoints_without_length_keeps_cached_length (A : Arith α) (M : Libm α)
    (transpose : RotoTrans α → RotoTrans α) (w : WrappingCylinder α) (rt rt0 : RotoTrans α)
    (p1_bone p2_bone q1_bone q2_bone v0 : Vector3d α) (diameter length : Dbl α) (sign : Bool) :
    (w.wrapPoints A M transpose rt p1_bone p2_bone false).1.length = none ∧
    (w.wrapPoints A M transpose rt p1_bone p2_bone false).2.m_p1Wrap
      = (w.wrapPoints A M transpose rt p1_bone p2_bone false).1.p1 ∧
    (w.wrapPoints A M transpose rt p1_bone p2_bone false).2.m_p2Wrap
      = (w.wrapPoints A M transpose rt p1_bone p2_bone false).1.p2 ∧
    (w.wrapPoints A M transpose rt p1_bone p2_bone false).2.m_lengthAroundWrap
      = w.m_lengthAroundWrap ∧
    (w.wrapPoints A M transpose rt p1_bone p2_bone false).2.wrapPointsCached true
      = { p1 := (w.wrapPoints A M transpose rt p1_bone p2_bone false).1.p1,
          p2 := (w.wrapPoints A M transpose rt p1_bone p2_bone false).1.p2,
          length := some w.m_lengthAroundWrap } ∧
    (((w.wrapPoints A M transpose rt0 q1_bone q2_bone true).2.wrapPoints A M transpose rt
        p1_bone p2_bone false).2.wrapPointsCached true).length
      = (w.wrapPoints A M transpose rt0 q1_bone q2_bone true).1.length ∧
    ((((WrappingCylinder.construct v0 diameter length sign).wrapPoints A M transpose rt
        p1_bone p2_bone false).2.wrapPointsCached true).length = some (Dbl.num 0)) := by
  simp [WrappingCylinder.wrapPoints, WrappingCylinder.wrapPointsCached,
    WrappingCylinder.construct]

end CacheWithoutLength

/-! ## State: the clamp values are absorbing -/

section Absorbing

variable {α : Type} [LinearOrderedField α]

/-- Once the stored activation is 0 it stays 0 under `setActivation`. -/
theorem State.calls_setActivation_zero (s : State) (vs : List (Dbl α)) (h : Heap α)
    (h0 : s.activation h = Dbl.num 0) :
    s.activation (s.calls (vs.map State.Call.setActivation) h) = Dbl.num 0 := by
  induction vs generalizing h with
  | nil => exact h0
  | cons v vs ih =>
    simp only [List.map_cons, State.calls]
    apply ih
    simp only [State.activation] at h0
    simp [State.call, State.setActivation, State.activation, h0, Dbl.le]

/-- Once the stored activation is 1 it stays 1 under `setActivation`. -/
theorem State.calls_setActivation_one (s : State) (vs : List (Dbl α)) (h : Heap α)
    (h1 : s.activation h = Dbl.num 1) :
    s.activation (s.calls (vs.map State.Call.setActivation) h) = Dbl.num 1 := by
  induction vs generalizing h with
  | nil => exact h1
  | cons v vs ih =>
    simp only [List.map_cons, State.calls]
    apply ih
    simp only [State.activation] at h1
    have hge : Dbl.ge (h.dbl s.m_activation) (Dbl.num 1) = true := by
      rw [h1]; simp [Dbl.ge, Dbl.le]
    have hle := Dbl.le_zero_of_ge_one hge
    simp [State.call, State.setActivation, State.activation, hle, hge]

/-- Once the stored excitation is 0 it stays 0 under `setExcitation`. -/
theorem State.calls_setExcitation_zero (s : State) (vs : List (Dbl α)) (h : Heap α)
    (h0 : s.excitation h = Dbl.num 0) :
    s.excitation (s.calls (vs.map State.Call.setExcitation) h) = Dbl.num 0 := by
  induction vs generalizing h with
  | nil => exact h0
  | cons v vs ih =>
    simp only [List.map_cons, State.calls]
    apply ih
    simp only [State.excitation] at h0
    simp [State.call, State.setExcitation, State.excitation, h0, Dbl.le]

/-- A State whose excitation and activation are 0 keeps both under every sequence of its
setters. -/
theorem State.calls_zero (s : State) (cs : List (State.Call α)) (h : Heap α) (hs : s.WF h)
    (he : s.excitation h = Dbl.num 0) (ha : s.activation h = Dbl.num 0) :
    s.excitation (s.calls cs h) = Dbl.num 0 ∧ s.activation (s.calls cs h) = Dbl.num 0 := by
  induction cs generalizing h with
  | nil => exact ⟨he, ha⟩
  | cons c cs ih =>
    obtain ⟨k1, k2, k3, k4, hen, hea, hna⟩ := hs
    simp only [State.excitation, State.activation] at he ha
    simp only [State.calls]
    apply ih
    · cases c <;>
        simp only [State.call, State.setExcitation, State.setActivation,
          State.setExcitationNorm, State.WF] <;>
        (try split_ifs) <;> exact ⟨k1, k2, k3, k4, hen, hea, hna⟩
    · cases c <;>
        simp [State.call, State.setExcitation, State.setActivation, State.setExcitationNorm,
          State.excitation, he, ha, Dbl.le, hea, hen]
    · cases c <;>
        simp [State.call, State.setExcitation, State.setActivation, State.setExcitationNorm,
          State.activation, he, ha, Dbl.le, Ne.symm hea, Ne.symm hna]

/-- C26: the clamp values of the setters are absorbing.  After `setActivation(v)` followed by
any further `setActivation` calls the activation is 0 when the stored activation was `<= 0`
and 1 when it was `>= 1`; after `setExcitation(v)` followed by any further `setExcitation`
calls the excitation is 0 when the stored excitation was `<= 0`.  A State built with the
default arguments (0, 0) has excitation 0 and activation 0 after every sequence of calls of
its setters. -/
theorem clamp_values_absorbing (s : State) (h h0 : Heap α) (v : Dbl α) (vs : List (Dbl α))
    (cs : List (State.Call α)) :
    (Dbl.le (s.activation h) (Dbl.num 0) = true →
      s.activation (s.calls ((v :: vs).map State.Call.setActivation) h) = Dbl.num 0) ∧
    (Dbl.ge (s.activation h) (Dbl.num 1) = true →
      s.activation (s.calls ((v :: vs).map State.Call.setActivation) h) = Dbl.num 1) ∧
    (Dbl.le (s.excitation h) (Dbl.num 0) = true →
      s.excitation (s.calls ((v :: vs).map State.Call.setExcitation) h) = Dbl.num 0) ∧
    (State.construct (Dbl.num 0) (Dbl.num 0) h0).1.excitation
      ((State.construct (Dbl.num 0) (Dbl.num 0) h0).1.calls cs
        (State.construct (Dbl.num 0) (Dbl.num 0) h0).2) = Dbl.num 0 ∧
    (State.construct (Dbl.num 0) (Dbl.num 0) h0).1.activation
      ((State.construct (Dbl.num 0) (Dbl.num 0) h0).1.calls cs
        (State.construct (Dbl.num 0) (Dbl.num 0) h0).2) = Dbl.num 0 := by
  refine ⟨?_, ?_, ?_, ?_⟩
  · intro hle
    simp only [List.map_cons, State.calls]
    apply State.calls_setActivation_zero
    simp only [State.activation] at hle
    simp [State.call, State.setActivation, State.activation, hle]
  · intro hge
    have hle := Dbl.le_zero_of_ge_one hge
    simp only [List.map_cons, State.calls]
    apply State.calls_setActivation_one
    simp only [State.activation] at hle hge
    simp [State.call, State.setActivation, State.activation, hle, hge]
  · intro hle
    simp only [List.map_cons, State.calls]
    apply State.calls_setExcitation_zero
    simp only [State.excitation] at hle
    simp [State.call, State.setExcitation, State.excitation, hle]
  · have hwf : (State.construct (Dbl.num 0) (Dbl.num 0) h0).1.WF
        (State.construct (Dbl.num 0) (Dbl.num 0) h0).2 := by
      simp [State.construct, State.WF, State.setType, Heap.allocDbl, Heap.allocTyp,
        Heap.writeTyp]
      omega
    have he : (State.construct (Dbl.num 0) (Dbl.num 0) h0).1.excitation
        (State.construct (Dbl.num 0) (Dbl.num 0) h0).2 = Dbl.num 0 := by
      simp [State.construct, State.excitation, State.setType, Heap.allocDbl, Heap.allocTyp,
        Heap.writeTyp, Function.update_apply]
    have ha : (State.construct (Dbl.num 0) (Dbl.num 0) h0).1.activation
        (State.construct (Dbl.num 0) (Dbl.num 0) h0).2 = Dbl.num 0 := by
      simp [State.construct, State.activation, State.setType, Heap.allocDbl, Heap.allocTyp,
        Heap.writeTyp, Function.update_apply]
    exact State.calls_zero _ cs _ hwf he ha

/-- Witness of C26: `State s(-1, 0)` after `setActivation(5); setActivation(1/2)` and after
`setExcitation(5); setExcitation(1/2)`, `State s(1, 1)` after `setActivation(0);
setActivation(1/2)`. -/
theorem clamp_values_absorbing_witness :
    (Dbl.le (negativeState.1.activation negativeState.2) (Dbl.num 0) = true ∧
      negativeState.1.activation (negativeState.1.calls
        ([Dbl.num 5, Dbl.num (1 / 2)].map State.Call.setActivation) negativeState.2)
        = Dbl.num 0) ∧
    (Dbl.ge (fullState.1.activation fullState.2) (Dbl.num 1) = true ∧
      fullState.1.activation (fullState.1.calls
        ([Dbl.num 0, Dbl.num (1 / 2)].map State.Call.setActivation) fullState.2)
        = Dbl.num 1) ∧
    (Dbl.le (negativeState.1.excitation negativeState.2) (Dbl.num 0) = true ∧
      negativeState.1.excitation (negativeState.1.calls
        ([Dbl.num 5, Dbl.num (1 / 2)].map State.Call.setExcitation) negativeState.2)
        = Dbl.num 0) :=
  have a0 : Dbl.le (negativeState.1.activation negativeState.2) (Dbl.num 0) = true := by
    simp [negativeState, State.construct, State.activation, State.setType, Heap.allocDbl,
      Heap.allocTyp, Heap.writeTyp, Heap.empty, Dbl.le]
  have a1 : Dbl.ge (fullState.1.activation fullState.2) (Dbl.num 1) = true := by
    simp [fullState, State.construct, State.activation, State.setType, Heap.allocDbl,
      Heap.allocTyp, Heap.writeTyp, Heap.empty, Dbl.le, Dbl.ge]
  have e0 : Dbl.le (negativeState.1.excitation negativeState.2) (Dbl.num 0) = true := by
    simp [negativeState, State.construct, State.excitation, State.setType, Heap.allocDbl,
      Heap.allocTyp, Heap.writeTyp, Heap.empty, Dbl.le]
  ⟨⟨a0, (clamp_values_absorbing negativeState.1 negativeState.2 Heap.empty (Dbl.num 5)
      [Dbl.num (1 / 2)] []).1 a0⟩,
   ⟨a1, (clamp_values_absorbing fullState.1 fullState.2 Heap.empty (Dbl.num 0)
      [Dbl.num (1 / 2)] []).2.1 a1⟩,
   ⟨e0, (clamp_values_absorbing negativeState.1 negativeState.2 Heap.empty (Dbl.num 5)
      [Dbl.num (1 / 2)] []).2.2.1 e0⟩⟩

end Absorbing

/-! ## WrappingCylinder: the sign of the cylinder -/

/-- C23 (code evaluated where it breaks the claim): radius 1, `isCylinderPositiveSign = false`,
point (2, 1, 0).  The candidates are (0, 1, 0) and (4/5, -3/5, 0); `selectTangents` returns
(4/5, -3/5, 0), the one of greater x, as the cylinder of positive sign does: for every value
of the flag the constructor makes the pointer non-null and the first branch is taken. -/
theorem selectTangents_ignores_negative_sign :
    negativeCylinder.tangentCandidates Arith.exactRat (point 2 1 0)
      = { m_p1 := point 0 1 0, m_p2 := point (4 / 5) (-3 / 5) 0 } ∧
    negativeCylinder.selectTangents { m_p1 := point 0 1 0, m_p2 := point (4 / 5) (-3 / 5) 0 }
      = point (4 / 5) (-3 / 5) 0 ∧
    negativeCylinder.findTangentToCircle Arith.exactRat (point 2 1 0)
      = point (4 / 5) (-3 / 5) 0 ∧
    unitCylinder.findTangentToCircle Arith.exactRat (point 2 1 0)
      = point (4 / 5) (-3 / 5) 0 ∧
    (∀ (v0 : Vector3d ℚ) (diameter length : Dbl ℚ) (sign : Bool) (m : NodeMusclePair ℚ),
      (WrappingCylinder.construct v0 diameter length sign).selectTangents m
        = if Dbl.ge m.m_p2.x m.m_p1.x then m.m_p2 else m.m_p1) := by
  refine ⟨?_, ?_, ?_, ?_, ?_⟩
  · simp [negativeCylinder, point, WrappingCylinder.construct,
      WrappingCylinder.tangentCandidates, WrappingCylinder.radius, Arith.exactRat, Arith.exact,
      Arith.exactAdd, Arith.exactMul, Arith.exactDiv, Arith.exactSqrt, Dbl.neg]
    norm_num [ratSqrt_four]
  · simp [negativeCylinder, point, WrappingCylinder.construct,
      WrappingCylinder.selectTangents, Dbl.ge, Dbl.le]
    norm_num
  · simp [negativeCylinder, point, WrappingCylinder.construct,
      WrappingCylinder.findTangentToCircle, WrappingCylinder.selectTangents,
      WrappingCylinder.radius, Arith.exactRat, Arith.exact, Arith.exactAdd, Arith.exactMul,
      Arith.exactDiv, Arith.exactSqrt, Dbl.neg, Dbl.ge, Dbl.le, Dbl.lt]
    norm_num [ratSqrt_four]
  · simp [unitCylinder, point, WrappingCylinder.construct,
      WrappingCylinder.findTangentToCircle, WrappingCylinder.selectTangents,
      WrappingCylinder.radius, Arith.exactRat, Arith.exact, Arith.exactAdd, Arith.exactMul,
      Arith.exactDiv, Arith.exactSqrt, Dbl.neg, Dbl.ge, Dbl.le, Dbl.lt]
    norm_num [ratSqrt_four]
  · intro v0 diameter length sign m
    simp [WrappingCylinder.construct, WrappingCylinder.selectTangents]

/-! ## Muscle: the constructors taking path modifiers -/

/-- C21 (code evaluated where it breaks the claim): path modifiers with two wrapping objects.
The constructor `Muscle(name, position, characteristics, pathModifiers)` returns a Muscle
without an error; the constructor `Muscle(name, g, c, pathModifiers, s)`, given the same
arguments and a state of type DYNAMIC, raises "Multiple wrapping objects is not implemented
yet". -/
theorem constructor_accepts_two_wraps :
    twoWraps.length = 2 ∧
    Except.map (fun r => r.muscle)
      (Muscle.constructWithPathModifiers keepCompound id id defaultStateDynamics
        "biceps" 1 100 twoWraps firstMuscleObjects dynamicEmg.2)
      = Except.ok { m_position := 1, m_characteristics := 1, m_state := 1 } ∧
    Except.map (fun r => r.compound)
      (Muscle.constructWithPathModifiers keepCompound id id defaultStateDynamics
        "biceps" 1 100 twoWraps firstMuscleObjects dynamicEmg.2)
      = Except.ok ("biceps", twoWraps) ∧
    Except.map (fun r => r.muscle)
      (Muscle.constructWithPathModifiersAndState keepCompound id id defaultStateDynamics
        stateTypeName List.length "biceps" 1 100 twoWraps dynamicEmg.1 firstMuscleObjects
        dynamicEmg.2)
      = Except.error "Multiple wrapping objects is not implemented yet" := by
  refine ⟨rfl, ?_, ?_, ?_⟩
  · simp [Muscle.constructWithPathModifiers, keepCompound, Muscle.initMembers,
      firstMuscleObjects, firstObjects, Except.map]
  · simp [Muscle.constructWithPathModifiers, keepCompound, Except.map]
  · simp [Muscle.constructWithPathModifiersAndState, keepCompound, Muscle.initMembers,
      Muscle.setState, State.type, dynamicEmg, defaultStateDynamics, State.construct,
      State.setType, Heap.allocDbl, Heap.allocTyp, Heap.writeTyp, twoWraps, Except.map]

/-! ## WrappingCylinder: the two candidate tangent points -/

/-- C22: for a radius `r` (every `r > 0` included) and a point `p` with
`px^2 + py^2 > r^2`, the two candidates
`Q0 + T` and `Q0 - T` of `findTangentToCircle` (which hands them to `selectTangents`) are on
the circle of radius `r` around the axis, the segment from `(px, py)` to each candidate is
perpendicular to the radius at the candidate, and both have the third coefficient of `p`.
The arithmetic is the one of the real numbers, without rounding. -/
theorem tangentCandidates_on_circle (w : WrappingCylinder ℝ) (r px py : ℝ) (pz : Dbl ℝ)
    (hw : w.m_dia = Dbl.num (2 * r)) (hp : r ^ 2 < px ^ 2 + py ^ 2) :
    w.findTangentToCircle (Arith.exact Real.sqrt) { x := Dbl.num px, y := Dbl.num py, z := pz }
      = w.selectTangents
        (w.tangentCandidates (Arith.exact Real.sqrt)
          { x := Dbl.num px, y := Dbl.num py, z := pz }) ∧
    ∃ x1 y1 x2 y2 : ℝ,
      w.tangentCandidates (Arith.exact Real.sqrt) { x := Dbl.num px, y := Dbl.num py, z := pz }
        = { m_p1 := { x := Dbl.num x1, y := Dbl.num y1, z := pz },
            m_p2 := { x := Dbl.num x2, y := Dbl.num y2, z := pz } } ∧
      x1 ^ 2 + y1 ^ 2 = r ^ 2 ∧ x2 ^ 2 + y2 ^ 2 = r ^ 2 ∧
      (px - x1) * x1 + (py - y1) * y1 = 0 ∧ (px - x2) * x2 + (py - y2) * y2 = 0 := by
  refine ⟨rfl, ?_⟩
  have hrr : (2 * r) / 2 = r := by ring
  have hd : px * px + py * py ≠ 0 := by nlinarith [sq_nonneg r]
  have hD : 0 ≤ px * px + py * py - r * r := by nlinarith
  have ht : Real.sqrt (px * px + py * py - r * r) * Real.sqrt (px * px + py * py - r * r)
      = px * px + py * py - r * r := Real.mul_self_sqrt hD
  have hc : w.tangentCandidates (Arith.exact Real.sqrt)
      { x := Dbl.num px, y := Dbl.num py, z := pz }
      = { m_p1 :=
            { x := Dbl.num (r * r / (px * px + py * py) * px
                + (r / (px * px + py * py) * Real.sqrt (px * px + py * py - r * r) * 0 * px
                  + r / (px * px + py * py) * Real.sqrt (px * px + py * py - r * r) * (-1) * py)),
              y := Dbl.num (r * r / (px * px + py * py) * py
                + (r / (px * px + py * py) * Real.sqrt (px * px + py * py - r * r) * 1 * px
                  + r / (px * px + py * py) * Real.sqrt (px * px + py * py - r * r) * 0 * py)),
              z := pz },
          m_p2 :=
            { x := Dbl.num (r * r / (px * px + py * py) * px
                - (r / (px * px + py * py) * Real.sqrt (px * px + py * py - r * r) * 0 * px
                  + r / (px * px + py * py) * Real.sqrt (px * px + py * py - r * r) * (-1) * py)),
              y := Dbl.num (r * r / (px * px + py * py) * py
                - (r / (px * px + py * py) * Real.sqrt (px * px + py * py - r * r) * 1 * px
                  + r / (px * px + py * py) * Real.sqrt (px * px + py * py - r * r) * 0 * py)),
              z := pz } } := by
    simp only [WrappingCylinder.tangentCandidates, WrappingCylinder.radius, hw]
    rw [Arith.exact_div Real.sqrt _ (two_ne_zero), hrr]
    simp only [Arith.exact_add, Arith.exact_mul, Arith.exact_sub]
    rw [Arith.exact_div Real.sqrt _ hd, Arith.exact_div Real.sqrt _ hd,
      Arith.exact_sqrt Real.sqrt hD]
    simp only [Arith.exact_add, Arith.exact_mul, Arith.exact_sub]
  refine ⟨_, _, _, _, hc, ?_, ?_, ?_, ?_⟩
  all_goals
    generalize Real.sqrt (px * px + py * py - r * r) = t at ht
    field_simp
    first
      | linear_combination (r ^ 2 * (px * px + py * py)) * ht
      | linear_combination (-(r ^ 2 * (px * px + py * py))) * ht

/-- Witness of C22: radius 1 and the point (2, 1, 0). -/
theorem tangentCandidates_on_circle_witness :
    ∃ x1 y1 x2 y2 : ℝ,
      (WrappingCylinder.construct { x := Dbl.num 0, y := Dbl.num 0, z := Dbl.num 0 }
          (Dbl.num 2) (Dbl.num 1) true : WrappingCylinder ℝ).tangentCandidates
        (Arith.exact Real.sqrt) { x := Dbl.num 2, y := Dbl.num 1, z := Dbl.num 0 }
        = { m_p1 := { x := Dbl.num x1, y := Dbl.num y1, z := Dbl.num 0 },
            m_p2 := { x := Dbl.num x2, y := Dbl.num y2, z := Dbl.num 0 } } ∧
      x1 ^ 2 + y1 ^ 2 = 1 ^ 2 ∧ x2 ^ 2 + y2 ^ 2 = 1 ^ 2 ∧
      (2 - x1) * x1 + (1 - y1) * y1 = 0 ∧ (2 - x2) * x2 + (1 - y2) * y2 = 0 :=
  (tangentCandidates_on_circle
    (WrappingCylinder.construct { x := Dbl.num 0, y := Dbl.num 0, z := Dbl.num 0 }
      (Dbl.num 2) (Dbl.num 1) true) 1 2 1 (Dbl.num 0)
    (by simp [WrappingCylinder.construct]) (by norm_num)).2

/-! ## WrappingCylinder: the height of the leave points -/

/-- C24: when `checkIfWraps` holds and the endpoints `A` and `B` differ in x or in y,
`findVerticalNode` returns true, keeps the x and the y of both tangent points and gives each
the height `zB + ((u.w - u.B) / (u.A - u.B)) * (zA - zB)`, `u` being the unit direction of the
chord from `A` to `B` in the xy plane.  That height is `zA` at `(xA, yA)`, `zB` at `(xB, yB)`,
and `h` everywhere when `zA = zB = h`.  The arithmetic is the one of the real numbers, without
rounding. -/
theorem findVerticalNode_interpolates (w : WrappingCylinder ℝ)
    (xA yA zA xB yB zB x1 y1 x2 y2 : ℝ) (z1 z2 : Dbl ℝ)
    (hne : xA ≠ xB ∨ yA ≠ yB)
    (hwrap : w.checkIfWraps (Arith.exact Real.sqrt)
      { m_p1 := { x := Dbl.num xA, y := Dbl.num yA, z := Dbl.num zA },
        m_p2 := { x := Dbl.num xB, y := Dbl.num yB, z := Dbl.num zB } }
      { m_p1 := { x := Dbl.num x1, y := Dbl.num y1, z := z1 },
        m_p2 := { x := Dbl.num x2, y := Dbl.num y2, z := z2 } } = true) :
    w.findVerticalNode (Arith.exact Real.sqrt)
      { m_p1 := { x := Dbl.num xA, y := Dbl.num yA, z := Dbl.num zA },
        m_p2 := { x := Dbl.num xB, y := Dbl.num yB, z := Dbl.num zB } }
      { m_p1 := { x := Dbl.num x1, y := Dbl.num y1, z := z1 },
        m_p2 := { x := Dbl.num x2, y := Dbl.num y2, z := z2 } }
      = (true,
          { m_p1 := { x := Dbl.num x1, y := Dbl.num y1,
                      z := Dbl.num (interpolatedHeight Real.sqrt xA yA zA xB yB zB x1 y1) },
            m_p2 := { x := Dbl.num x2, y := Dbl.num y2,
                      z := Dbl.num (interpolatedHeight Real.sqrt xA yA zA xB yB zB x2 y2) } }) ∧
    interpolatedHeight Real.sqrt xA yA zA xB yB zB xA yA = zA ∧
    interpolatedHeight Real.sqrt xA yA zA xB yB zB xB yB = zB ∧
    (∀ h : ℝ, zA = h → zB = h →
      interpolatedHeight Real.sqrt xA yA zA xB yB zB x1 y1 = h ∧
      interpolatedHeight Real.sqrt xA yA zA xB yB zB x2 y2 = h) := by
  have hN : 0 < (xB - xA) * (xB - xA) + (yB - yA) * (yB - yA) := by
    rcases hne with h | h
    · have : xB - xA ≠ 0 := sub_ne_zero.mpr (Ne.symm h)
      have := mul_self_pos.mpr this
      nlinarith [mul_self_nonneg (yB - yA)]
    · have : yB - yA ≠ 0 := sub_ne_zero.mpr (Ne.symm h)
      have := mul_self_pos.mpr this
      nlinarith [mul_self_nonneg (xB - xA)]
  have hsq := Real.mul_self_sqrt hN.le
  have hn0 : Real.sqrt ((xB - xA) * (xB - xA) + (yB - yA) * (yB - yA)) ≠ 0 :=
    (Real.sqrt_pos.mpr hN).ne'
  have hden : ∀ n : ℝ, n ≠ 0 → n * n = (xB - xA) * (xB - xA) + (yB - yA) * (yB - yA) →
      (xB - xA) / n * xA + (yB - yA) / n * yA - ((xB - xA) / n * xB + (yB - yA) / n * yB) ≠ 0 := by
    intro n hn hnn
    have : (xB - xA) / n * xA + (yB - yA) / n * yA - ((xB - xA) / n * xB + (yB - yA) / n * yB)
        = -n := by
      field_simp
      linear_combination hnn
    rw [this]
    exact neg_ne_zero.mpr hn
  refine ⟨?_, ?_, ?_, ?_⟩
  · simp only [WrappingCylinder.findVerticalNode, hwrap, Bool.not_true, Bool.false_eq_true,
      if_false, Vector3d.sub, Vector3d.cross, Vector3d.norm, Vector3d.divScalar,
      Vector3d.applyRT, Arith.exact_add, Arith.exact_mul, Arith.exact_sub,
      mul_zero, zero_mul, mul_one, one_mul, sub_zero, zero_sub, add_zero, zero_add, neg_neg,
      Matrix.cons_val_zero, Matrix.cons_val_one, Matrix.head_cons, Matrix.cons_val_two,
      Matrix.tail_cons, Matrix.cons_val_three, interpolatedHeight]
    rw [Arith.exact_sqrt Real.sqrt hN.le]
    generalize Real.sqrt ((xB - xA) * (xB - xA) + (yB - yA) * (yB - yA)) = n at hsq hn0
    simp only [Arith.exact_div Real.sqrt _ hn0, Arith.exact_add, Arith.exact_mul,
      Arith.exact_sub, zero_div, mul_zero, zero_mul, add_zero]
    simp only [Arith.exact_div Real.sqrt _ (hden n hn0 hsq), Arith.exact_add, Arith.exact_mul,
      Arith.exact_sub]
    rw [add_comm (_ / _ * (zA - zB)) zB, add_comm (_ / _ * (zA - zB)) zB]
  · simp only [interpolatedHeight]
    generalize Real.sqrt ((xB - xA) * (xB - xA) + (yB - yA) * (yB - yA)) = n at hsq hn0
    rw [div_self (hden n hn0 hsq)]
    ring
  · simp only [interpolatedHeight, sub_self, zero_div, zero_mul, add_zero]
  · intro h hA hB
    subst hA
    subst hB
    simp only [interpolatedHeight, sub_self, mul_zero, add_zero, and_self]

/-- Witness of C24: radius 1, endpoints (1, 2, 3) and (1, -2, 1), whose tangent points are
both (1, 0, 0). -/
theorem findVerticalNode_interpolates_witness :
    (WrappingCylinder.construct { x := Dbl.num 0, y := Dbl.num 0, z := Dbl.num 0 }
        (Dbl.num 2) (Dbl.num 1) true : WrappingCylinder ℝ).findVerticalNode
      (Arith.exact Real.sqrt)
      { m_p1 := { x := Dbl.num 1, y := Dbl.num 2, z := Dbl.num 3 },
        m_p2 := { x := Dbl.num 1, y := Dbl.num (-2), z := Dbl.num 1 } }
      { m_p1 := { x := Dbl.num 1, y := Dbl.num 0, z := Dbl.num 0 },
        m_p2 := { x := Dbl.num 1, y := Dbl.num 0, z := Dbl.num 0 } }
      = (true,
          { m_p1 := { x := Dbl.num 1, y := Dbl.num 0,
                      z := Dbl.num (interpolatedHeight Real.sqrt 1 2 3 1 (-2) 1 1 0) },
            m_p2 := { x := Dbl.num 1, y := Dbl.num 0,
                      z := Dbl.num (interpolatedHeight Real.sqrt 1 2 3 1 (-2) 1 1 0) } }) :=
  (findVerticalNode_interpolates
    (WrappingCylinder.construct { x := Dbl.num 0, y := Dbl.num 0, z := Dbl.num 0 }
      (Dbl.num 2) (Dbl.num 1) true) 1 2 3 1 (-2) 1 1 0 1 0 (Dbl.num 0) (Dbl.num 0)
    (Or.inr (by norm_num))
    (by simp [WrappingCylinder.checkIfWraps, Dbl.lt, Dbl.gt])).1

/-! ## Model file reader: the type of a muscle -/

section MuscleType

variable {α : Type} [LinearOrderedField α]

/-- The table of the six tokens, read on a lower-case value. -/
theorem Reader.lookup_muscleTypeTokens (u : String) :
    Reader.muscleTypeTokens.lookup u =
      if u = "idealizedactuator" then some MUSCLE_TYPE.IDEALIZED_ACTUATOR
      else if u = "hil" then some MUSCLE_TYPE.HILL
      else if u = "hillthelen" ∨ u = "thelen" then some MUSCLE_TYPE.HILL_THELEN
      else if u = "hillthelenfatigable" ∨ u = "thelenfatigable" then
        some MUSCLE_TYPE.HILL_THELEN_FATIGABLE
      else none := by
  by_cases c1 : u = "idealizedactuator"
  · subst c1; rfl
  by_cases c2 : u = "hil"
  · subst c2; rfl
  by_cases c3 : u = "hillthelen"
  · subst c3; rfl
  by_cases c4 : u = "thelen"
  · subst c4; rfl
  by_cases c5 : u = "hillthelenfatigable"
  · subst c5; rfl
  by_cases c6 : u = "thelenfatigable"
  · subst c6; rfl
  have b1 : (u == "idealizedactuator") = false := beq_eq_false_iff_ne.mpr c1
  have b2 : (u == "hil") = false := beq_eq_false_iff_ne.mpr c2
  have b3 : (u == "hillthelen") = false := beq_eq_false_iff_ne.mpr c3
  have b4 : (u == "thelen") = false := beq_eq_false_iff_ne.mpr c4
  have b5 : (u == "hillthelenfatigable") = false := beq_eq_false_iff_ne.mpr c5
  have b6 : (u == "thelenfatigable") = false := beq_eq_false_iff_ne.mpr c6
  simp [Reader.muscleTypeTokens, List.lookup, b1, b2, b3, b4, b5, b6, c1, c2, c3, c4, c5, c6]

/-- C30: in the loop of a muscle element, a property whose tag is `type` without regard to
case reads the next token as its value and compares it, without regard to case, with the six
tokens `idealizedactuator` (IDEALIZED_ACTUATOR), `hil` (HILL), `hillthelen` and `thelen`
(HILL_THELEN), `hillthelenfatigable` and `thelenfatigable` (HILL_THELEN_FATIGABLE): on one of
them the loop goes on with that type, on every other value (`hill` is one, and so is the
missing value at the end of the file) it raises the tag followed by
" is not a valid muscle type". -/
theorem muscle_type_tokens (L : Reader.Lookups) (parse : String → Dbl α) (tag value : String)
    (ts : List String) (v : Reader.MuscleVars α) (htag : Reader.tolower tag = "type") :
    Reader.muscleProperties L parse (tag :: value :: ts) v
      = (match Reader.muscleTypeOfValue value with
         | some t => Reader.muscleProperties L parse ts { v with type := t }
         | none => Except.error (tag ++ " is not a valid muscle type")) ∧
    (Reader.muscleTypeOfValue value = none ↔
      Reader.tolower value ∉ ["idealizedactuator", "hil", "hillthelen", "thelen",
        "hillthelenfatigable", "thelenfatigable"]) ∧
    Reader.muscleTypeOfValue "hill" = none ∧
    Reader.muscleProperties L parse [tag] v
      = Except.error (tag ++ " is not a valid muscle type") := by
  refine ⟨?_, ?_, ?_, ?_⟩
  · rw [Reader.muscleProperties, htag, Reader.muscleTypeOfValue,
      Reader.lookup_muscleTypeTokens]
    simp only [Reader.readString, List.drop_one, List.tail_cons]
    generalize Reader.tolower value = u
    rw [if_neg (by decide), if_neg (by decide), if_pos True.intro]
    by_cases c1 : u = "idealizedactuator"
    · rw [if_pos c1, if_pos c1]
    rw [if_neg c1, if_neg c1]
    by_cases c2 : u = "hil"
    · rw [if_pos c2, if_pos c2]
    rw [if_neg c2, if_neg c2]
    by_cases c3 : u = "hillthelen" ∨ u = "thelen"
    · rw [if_pos c3, if_pos c3]
    rw [if_neg c3, if_neg c3]
    by_cases c4 : u = "hillthelenfatigable" ∨ u = "thelenfatigable"
    · rw [if_pos c4, if_pos c4]
    rw [if_neg c4, if_neg c4]
  · rw [Reader.muscleTypeOfValue, Reader.lookup_muscleTypeTokens]
    generalize Reader.tolower value = u
    by_cases c1 : u = "idealizedactuator"
    · simp [c1]
    by_cases c2 : u = "hil"
    · simp [c2]
    by_cases c3 : u = "hillthelen"
    · simp [c3]
    by_cases c4 : u = "thelen"
    · simp [c4]
    by_cases c5 : u = "hillthelenfatigable"
    · simp [c5]
    by_cases c6 : u = "thelenfatigable"
    · simp [c6]
    simp [c1, c2, c3, c4, c5, c6]
  · simp [Reader.muscleTypeOfValue, Reader.muscleTypeTokens, Reader.tolower, List.lookup]
  · rw [Reader.muscleProperties, htag]
    rw [if_neg (by decide), if_neg (by decide), if_pos rfl]
    simp [Reader.readString, Reader.tolower]

/-- Witness of C30: the tag `Type` with the value `hill` raises, with the value `HillThelen`
it selects HILL_THELEN. -/
theorem muscle_type_tokens_witness :
    Reader.tolower "Type" = "type" ∧
    Reader.muscleProperties Reader.armModel Reader.parseSome ["Type", "hill", "endmuscle"]
        Reader.initialMuscleVars
      = Except.error "Type is not a valid muscle type" ∧
    Reader.muscleProperties Reader.armModel Reader.parseSome ["Type", "HillThelen", "endmuscle"]
        Reader.initialMuscleVars
      = Except.ok ({ Reader.initialMuscleVars with type := MUSCLE_TYPE.HILL_THELEN }, []) := by
  have htag : Reader.tolower "Type" = "type" := by simp [Reader.tolower]
  refine ⟨htag, ?_, ?_⟩
  · have h := (muscle_type_tokens Reader.armModel Reader.parseSome "Type" "hill" ["endmuscle"]
      Reader.initialMuscleVars htag).1
    have hv : Reader.muscleTypeOfValue "hill" = none := by
      simp [Reader.muscleTypeOfValue, Reader.muscleTypeTokens, Reader.tolower, List.lookup]
    rw [hv] at h
    exact h
  · have h := (muscle_type_tokens Reader.armModel Reader.parseSome "Type" "HillThelen"
      ["endmuscle"] Reader.initialMuscleVars htag).1
    have hv : Reader.muscleTypeOfValue "HillThelen" = some MUSCLE_TYPE.HILL_THELEN := by
      simp [Reader.muscleTypeOfValue, Reader.muscleTypeTokens, Reader.tolower, List.lookup]
    rw [hv] at h
    rw [h]
    simp [Reader.muscleProperties, Reader.tolower]

end MuscleType

/-! ## Model file reader: the dimensions of a wrap element -/

section WrapDimensions

variable {α : Type} [LinearOrderedField α]

/-- C28: a wrap element is read without error only if its diameter is not 0 and its length
is `< 0`, and the cylinder handed to `addPathObject` has these dimensions.  When the loop
over the properties ends without error with a length equal to 0 or `> 0`, the branch raises
an error: "Diameter was not defined" if the diameter is 0 (the first check), and otherwise
"Length was not defined" for the length 0 and "Side was not properly defined" for a length
`> 0`.  An error of the loop is an error of the branch. -/
theorem wrap_dimension_checks (L : Reader.Lookups) (parse : String → Dbl α)
    (parseInt : String → Int) (RT : RotoTrans α) (tokens : List String) :
    (∀ a rest, Reader.readWrap L parse parseInt RT tokens = Except.ok (a, rest) →
      Dbl.eq a.object.dia (Dbl.num 0) = false ∧ Dbl.lt a.object.length (Dbl.num 0) = true ∧
      Dbl.eq a.object.length (Dbl.num 0) = false ∧
      Dbl.gt a.object.length (Dbl.num 0) = false) ∧
    (∀ v rest,
      Reader.wrapProperties L parse parseInt (tokens.drop 1)
        { muscle := "", musclegroup := "", parent := "", RT := RT,
          dia := Dbl.num 0, length := Dbl.num 0, side := 1 } = Except.ok (v, rest) →
      (Dbl.eq v.length (Dbl.num 0) = true →
        Reader.readWrap L parse parseInt RT tokens
          = Except.error (if Dbl.eq v.dia (Dbl.num 0) then "Diameter was not defined"
              else "Length was not defined")) ∧
      (Dbl.gt v.length (Dbl.num 0) = true →
        Reader.readWrap L parse parseInt RT tokens
          = Except.error (if Dbl.eq v.dia (Dbl.num 0) then "Diameter was not defined"
              else "Side was not properly defined"))) ∧
    (∀ e,
      Reader.wrapProperties L parse parseInt (tokens.drop 1)
        { muscle := "", musclegroup := "", parent := "", RT := RT,
          dia := Dbl.num 0, length := Dbl.num 0, side := 1 } = Except.error e →
      Reader.readWrap L parse parseInt RT tokens = Except.error e) := by
  have hpos : ∀ x : Dbl α, Dbl.gt x (Dbl.num 0) = true →
      Dbl.eq x (Dbl.num 0) = false ∧ Dbl.lt x (Dbl.num 0) = false := by
    intro x hx
    cases x with
    | nan => simp [Dbl.gt, Dbl.lt] at hx
    | ninf => simp [Dbl.gt, Dbl.lt] at hx
    | pinf => simp [Dbl.eq, Dbl.lt]
    | num y =>
      simp only [Dbl.gt, Dbl.lt, decide_eq_true_eq] at hx
      simp only [Dbl.eq, Dbl.lt, decide_eq_false_iff_not, not_lt]
      exact ⟨ne_of_gt hx, le_of_lt hx⟩
  have hneg : ∀ x : Dbl α, Dbl.lt x (Dbl.num 0) = true →
      Dbl.eq x (Dbl.num 0) = false ∧ Dbl.gt x (Dbl.num 0) = false := by
    intro x hx
    cases x with
    | nan => simp [Dbl.lt] at hx
    | pinf => simp [Dbl.lt] at hx
    | ninf => simp [Dbl.eq, Dbl.gt, Dbl.lt]
    | num y =>
      simp only [Dbl.lt, decide_eq_true_eq] at hx
      simp only [Dbl.eq, Dbl.gt, Dbl.lt, decide_eq_false_iff_not, not_lt]
      exact ⟨ne_of_lt hx, le_of_lt hx⟩
  refine ⟨?_, ?_, ?_⟩
  · intro a rest h
    unfold Reader.readWrap at h
    split at h
    · exact absurd h (by simp)
    · rename_i v r hloop
      split_ifs at h with hd hl hs hp hg hm
      obtain ⟨rfl, -⟩ := Prod.mk.inj (Except.ok.inj h)
      have hlt : Dbl.lt v.length (Dbl.num 0) = true := by simpa using hs
      exact ⟨by simpa using hd, hlt, (hneg _ hlt).1, (hneg _ hlt).2⟩
  · intro v rest hloop
    constructor
    · intro h0
      unfold Reader.readWrap
      rw [hloop]
      cases hd : Dbl.eq v.dia (Dbl.num 0) <;> simp [hd, h0]
    · intro hgt
      unfold Reader.readWrap
      rw [hloop]
      cases hd : Dbl.eq v.dia (Dbl.num 0) <;> simp [hd, (hpos _ hgt).1, (hpos _ hgt).2]
  · intro e hloop
    unfold Reader.readWrap
    rw [hloop]

/-- What the loop of the branch `wrap` yields on `wrapTokens length` with the model
`armModel`. -/
theorem Reader.wrapProperties_wrapTokens (length : String) :
    Reader.wrapProperties Reader.armModel Reader.parseSome (fun _ => 1)
        ((Reader.wrapTokens length).drop 1)
        { muscle := "", musclegroup := "", parent := "", RT := Reader.zeroRT,
          dia := Dbl.num 0, length := Dbl.num 0, side := 1 }
      = Except.ok
        ({ muscle := "biceps", musclegroup := "arm", parent := "humerus", RT := Reader.zeroRT,
           dia := Dbl.num (1 / 10), length := Reader.parseSome length, side := 1 }, []) := by
  simp [Reader.wrapProperties, Reader.wrapTokens, Reader.readString, Reader.readDouble,
    Reader.armModel, Reader.parseSome, Reader.tolower]

/-- Witness of C28: the wrap element of diameter 0.1 and length 0.1 raises "Side was not
properly defined"; the one of length -0.2 is read, and its length is `< 0`. -/
theorem wrap_dimension_checks_witness :
    Reader.readWrap Reader.armModel Reader.parseSome (fun _ => 1) Reader.zeroRT
        (Reader.wrapTokens "0.1")
      = Except.error "Side was not properly defined" ∧
    ∃ a rest, Reader.readWrap Reader.armModel Reader.parseSome (fun _ => 1) Reader.zeroRT
        (Reader.wrapTokens "-0.2") = Except.ok (a, rest) ∧
      Dbl.lt a.object.length (Dbl.num 0) = true := by
  constructor
  · have h := ((wrap_dimension_checks Reader.armModel Reader.parseSome (fun _ => 1)
      Reader.zeroRT (Reader.wrapTokens "0.1")).2.1 _ _
      (Reader.wrapProperties_wrapTokens "0.1")).2
      (by simp [Reader.parseSome, Dbl.gt, Dbl.lt])
    simpa [Dbl.eq] using h
  · have hr : Reader.readWrap Reader.armModel Reader.parseSome (fun _ => 1) Reader.zeroRT
        (Reader.wrapTokens "-0.2")
        = Except.ok
          ({ iMuscleGroup := 0, iMuscle := 0, group := 0, muscle := 0, name := "wrap1",
             object :=
               { muscle := "biceps", musclegroup := "arm", parent := "humerus",
                 RT := Reader.zeroRT, dia := Dbl.num (1 / 10),
                 length := Reader.parseSome "-0.2", side := 1 } }, []) := by
      unfold Reader.readWrap
      rw [Reader.wrapProperties_wrapTokens]
      simp [Reader.parseSome, Reader.armModel, Reader.wrapTokens, Reader.readString, Dbl.eq,
        Dbl.lt, castU32]
      norm_num
    exact ⟨_, _, hr, ((wrap_dimension_checks Reader.armModel Reader.parseSome (fun _ => 1)
      Reader.zeroRT (Reader.wrapTokens "-0.2")).1 _ _ hr).2.1⟩

end WrapDimensions

/-! ## Model file reader: the calls of `addIMU` -/

section IMU

variable {α : Type} [LinearOrderedField α]

/-- The token read by `readString` is among the first ones. -/
theorem Reader.readString_drop_append (old : String) (p m : List String) (i : Nat)
    (hi : i < p.length) :
    Reader.readString old ((p ++ m).drop i) = Reader.readString old (p.drop i) := by
  rw [List.drop_append_of_le_length (le_of_lt hi)]
  cases hq : p.drop i with
  | nil =>
    have := congrArg List.length hq
    simp [List.length_drop] at this
    omega
  | cons t q => rfl

/-- The token read by `readDouble` is among the first ones. -/
theorem Reader.readDouble_drop_append (parse : String → Dbl α) (old : Dbl α)
    (p m : List String) (i : Nat) (hi : i < p.length) :
    Reader.readDouble parse old ((p ++ m).drop i) = Reader.readDouble parse old (p.drop i) := by
  rw [List.drop_append_of_le_length (le_of_lt hi)]
  cases hq : p.drop i with
  | nil =>
    have := congrArg List.length hq
    simp [List.length_drop] at this
    omega
  | cons t q => rfl

/-- The token read by `readBool` is the first one. -/
theorem Reader.readBool_append (parseBool : String → Bool) (old : Bool) (p m : List String)
    (hp : 0 < p.length) :
    Reader.readBool parseBool old (p ++ m) = Reader.readBool parseBool old p := by
  cases p with
  | nil => simp at hp
  | cons t q => rfl

/-- The three tokens read by `readVector` are among the first ones. -/
theorem Reader.readVector_drop_append (parse : String → Dbl α) (old : Vector3d α)
    (p m : List String) (i : Nat) (hi : i + 3 ≤ p.length) :
    Reader.readVector parse old ((p ++ m).drop i) = Reader.readVector parse old (p.drop i) := by
  simp only [Reader.readVector, List.drop_drop]
  rw [← List.drop_zero (List.drop i (p ++ m)), ← List.drop_zero (List.drop i p)]
  simp only [List.drop_drop]
  rw [Reader.readDouble_drop_append parse old.x p m _ (by omega),
    Reader.readDouble_drop_append parse old.y p m _ (by omega),
    Reader.readDouble_drop_append parse old.z p m _ (by omega)]

/-- The sixteen tokens read by `readRT` are the first ones. -/
theorem Reader.readRT_append (parse : String → Dbl α) (old : RotoTrans α)
    (p m : List String) (hp : 16 ≤ p.length) :
    Reader.readRT parse old (p ++ m) = Reader.readRT parse old p := by
  funext i j
  simp only [Reader.readRT]
  exact Reader.readDouble_drop_append parse (old i j) p m _ (by omega)

/-- One iteration reads only the tokens it counts: tokens after them do not change it. -/
theorem Reader.imuProperty_append (L : Reader.Lookups) (R : Reader.Reads α) (tag : String)
    (value more : List String) (v v1 : Reader.IMUVars α)
    (h : Reader.imuProperty L R tag value v = Except.ok (v1, value.length)) :
    Reader.imuProperty L R tag (value ++ more) v = Except.ok (v1, value.length) := by
  unfold Reader.imuProperty at h ⊢
  generalize Reader.tolower tag = t at h ⊢
  by_cases c1 : t = "parent"
  · rw [if_pos c1] at h ⊢
    by_cases hb : L.bodyKnown (Reader.readString v.parent_str value) = true
    · rw [if_pos hb] at h
      obtain ⟨rfl, hn⟩ := Prod.mk.inj (Except.ok.inj h)
      have hr : Reader.readString v.parent_str (value ++ more)
          = Reader.readString v.parent_str value :=
        Reader.readString_drop_append v.parent_str value more 0 (by omega)
      rw [hr, if_pos hb, ← hn]
    · rw [if_neg hb] at h
      exact absurd h (by simp)
  rw [if_neg c1] at h ⊢
  by_cases c2 : t = "rtinmatrix"
  · rw [if_pos c2] at h ⊢
    by_cases hs : v.isRTset = true
    · rw [if_pos hs] at h
      exact absurd h (by simp)
    · rw [if_neg hs] at h ⊢
      obtain ⟨rfl, hn⟩ := Prod.mk.inj (Except.ok.inj h)
      rw [Reader.readBool_append R.parseBool v.RTinMatrix value more (by omega), ← hn]
  rw [if_neg c2] at h ⊢
  by_cases c3 : t = "rt"
  · rw [if_pos c3] at h ⊢
    by_cases hm : v.RTinMatrix = true
    · rw [if_pos hm] at h ⊢
      obtain ⟨rfl, hn⟩ := Prod.mk.inj (Except.ok.inj h)
      rw [Reader.readRT_append R.parse v.RT value more (by omega), ← hn]
    · rw [if_neg hm] at h ⊢
      obtain ⟨rfl, hn⟩ := Prod.mk.inj (Except.ok.inj h)
      have h0 := Reader.readVector_drop_append R.parseNum
        { x := Dbl.num 0, y := Dbl.num 0, z := Dbl.num 0 } value more 0 (by omega)
      rw [List.drop_zero, List.drop_zero] at h0
      rw [h0, Reader.readVector_drop_append R.parseNum _ value more 4 (by omega),
        Reader.readString_drop_append "xyz" value more 3 (by omega), ← hn]
  rw [if_neg c3] at h ⊢
  by_cases c4 : t = "technical"
  · rw [if_pos c4] at h ⊢
    obtain ⟨rfl, hn⟩ := Prod.mk.inj (Except.ok.inj h)
    rw [Reader.readBool_append R.parseBool v.technical value more (by omega), ← hn]
  rw [if_neg c4] at h ⊢
  by_cases c5 : t = "anatomical"
  · rw [if_pos c5] at h ⊢
    obtain ⟨rfl, hn⟩ := Prod.mk.inj (Except.ok.inj h)
    rw [Reader.readBool_append R.parseBool v.anatomical value more (by omega), ← hn]
  rw [if_neg c5] at h ⊢
  exact h

/-- The loop of the branch `imu` on a body given property by property: one call of `addIMU`
for each property, made from the variables after that property. -/
theorem Reader.imuProperties_bodyTokens (L : Reader.Lookups) (R : Reader.Reads α)
    (name end_tag : String) (rest : List String)
    (hend : Reader.tolower end_tag = "endimu" ∨ Reader.tolower end_tag = "endmimu") :
    ∀ (props : List (String × List String)) (v : Reader.IMUVars α)
      (calls : List (Reader.AddIMU α)) (states : List (Reader.IMUVars α)),
      Reader.imuStates L R props v = some states →
      Reader.imuProperties L R name (Reader.bodyTokens props ++ end_tag :: rest) v calls
        = Except.ok (calls ++ states.map (Reader.addIMU name), rest) ∧
      states.length = props.length := by
  intro props
  induction props with
  | nil =>
    intro v calls states h
    simp only [Reader.imuStates, Option.some.injEq] at h
    subst h
    simp only [Reader.bodyTokens, List.nil_append, List.map_nil, List.append_nil,
      List.length_nil, and_true]
    rw [Reader.imuProperties, if_pos hend]
  | cons p ps ih =>
    intro v calls states h
    obtain ⟨tag, value⟩ := p
    simp only [Reader.imuStates] at h
    by_cases c : Reader.tolower tag = "endimu" ∨ Reader.tolower tag = "endmimu"
    · rw [if_pos c] at h
      exact absurd h (by simp)
    rw [if_neg c] at h
    cases hp : Reader.imuProperty L R tag value v with
    | error e =>
      rw [hp] at h
      exact absurd h (by simp)
    | ok r =>
      obtain ⟨v1, n⟩ := r
      rw [hp] at h
      simp only at h
      by_cases hn : n = value.length
      · rw [if_pos hn] at h
        subst hn
        cases hs : Reader.imuStates L R ps v1 with
        | none =>
          rw [hs] at h
          exact absurd h (by simp)
        | some l =>
          rw [hs] at h
          simp only [Option.map_some', Option.some.injEq] at h
          subst h
          have hi := ih v1 (calls ++ [Reader.addIMU name v1]) l hs
          have ht : Reader.bodyTokens ((tag, value) :: ps) ++ end_tag :: rest
              = tag :: (value ++ (Reader.bodyTokens ps ++ end_tag :: rest)) := by
            simp [Reader.bodyTokens, List.append_assoc]
          rw [ht, Reader.imuProperties, if_neg c,
            Reader.imuProperty_append L R tag value _ v v1 hp]
          simp only [List.drop_left, List.map_cons, List.length_cons]
          rw [hi.1, hi.2]
          simp
      · rw [if_neg hn] at h
        exact absurd h (by simp)

/-- C29: in an imu element (or a mimu element of a file of version below 4) whose body is
`k` properties before the end tag, `addIMU` is called `k` times, once at the end of the
iteration of each property, with the name of the element and the parent, RT, technical and
anatomical values the variables hold after that property; an element with an empty body
makes no call.  The properties are given as tags with the tokens of their values, and
`imuStates` lists the variables after each. -/
theorem addIMU_once_per_property (L : Reader.Lookups) (R : Reader.Reads α) (RT : RotoTrans α)
    (version : Nat) (main_tag name end_tag : String) (props : List (String × List String))
    (rest : List String) (states : List (Reader.IMUVars α))
    (hmain : Reader.tolower main_tag = "imu" ∨ (Reader.tolower main_tag = "mimu" ∧ version < 4))
    (hend : Reader.tolower end_tag = "endimu" ∨ Reader.tolower end_tag = "endmimu")
    (hbody : Reader.imuStates L R props
      { parent_str := "root", RT := RT, RTinMatrix := if version = 3 then false else true,
        isRTset := false, technical := true, anatomical := false } = some states) :
    Reader.readIMU L R RT version main_tag
        (name :: (Reader.bodyTokens props ++ end_tag :: rest))
      = some (Except.ok (states.map (Reader.addIMU name), rest)) ∧
    (states.map (Reader.addIMU name)).length = props.length ∧
    Reader.readIMU L R RT version main_tag (name :: end_tag :: rest)
      = some (Except.ok ([], rest)) := by
  have h1 : ¬ (Reader.tolower main_tag = "mimu" ∧ version ≥ 4) := by
    rcases hmain with h | h
    · rw [h]; simp
    · intro hc; omega
  have h2 : Reader.tolower main_tag = "imu" ∨ Reader.tolower main_tag = "mimu" := by
    rcases hmain with h | h
    · exact Or.inl h
    · exact Or.inr h.1
  have hloop := Reader.imuProperties_bodyTokens L R name end_tag rest hend props _ [] states
    hbody
  refine ⟨?_, ?_, ?_⟩
  · rw [Reader.readIMU, if_neg h1, if_pos h2]
    simp only [Reader.readString, List.drop_one, List.tail_cons]
    rw [hloop.1, List.nil_append]
  · rw [List.length_map, hloop.2]
  · rw [Reader.readIMU, if_neg h1, if_pos h2]
    simp only [Reader.readString, List.drop_one, List.tail_cons]
    rw [Reader.imuProperties, if_pos hend]

/-- Witness of C29: the element `imu imu1 parent humerus technical 0 endimu` of a file of
version 4 has two properties and makes two calls of `addIMU`, the first one before
`technical` was read. -/
theorem addIMU_once_per_property_witness :
    Reader.readIMU Reader.armModel Reader.someReads Reader.zeroRT 4 "imu"
        ["imu1", "parent", "humerus", "technical", "0", "endimu"]
      = some (Except.ok
          ([{ RT := Reader.zeroRT, name := "imu1", parent := "humerus", technical := true,
              anatomical := false },
            { RT := Reader.zeroRT, name := "imu1", parent := "humerus", technical := false,
              anatomical := false }], [])) := by
  have hbody : Reader.imuStates Reader.armModel Reader.someReads
      [("parent", ["humerus"]), ("technical", ["0"])]
      { parent_str := "root", RT := Reader.zeroRT,
        RTinMatrix := if (4 : Nat) = 3 then false else true,
        isRTset := false, technical := true, anatomical := false }
      = some
        [{ parent_str := "humerus", RT := Reader.zeroRT, RTinMatrix := true, isRTset := false,
           technical := true, anatomical := false },
         { parent_str := "humerus", RT := Reader.zeroRT, RTinMatrix := true, isRTset := false,
           technical := false, anatomical := false }] := by
    simp [Reader.imuStates, Reader.imuProperty, Reader.tolower, Reader.readString,
      Reader.readBool, Reader.armModel, Reader.someReads, Reader.parseOne]
  have h := (addIMU_once_per_property Reader.armModel Reader.someReads Reader.zeroRT 4 "imu"
    "imu1" "endimu" [("parent", ["humerus"]), ("technical", ["0"])] [] _
    (Or.inl (by simp [Reader.tolower])) (Or.inl (by simp [Reader.tolower])) hbody).1
  simpa [Reader.bodyTokens, Reader.addIMU] using h

end IMU

/-! ## Rounded arithmetic: the length around the cylinder -/

/-- The rounding of a double that is not NaN is not NaN, when the rounding of a number never
is. -/
theorem Dbl.round_ne_nan {α : Type} (rnd : α → Dbl α) (hn : ∀ x, rnd x ≠ Dbl.nan) {a : Dbl α}
    (ha : a ≠ Dbl.nan) : a.round rnd ≠ Dbl.nan := by
  cases a with
  | nan => exact absurd rfl ha
  | ninf => simp [Dbl.round]
  | pinf => simp [Dbl.round]
  | num x => exact hn x

section RoundedLength

variable {α : Type} [LinearOrderedField α]

/-- A double `>= 0` is not NaN. -/
theorem Dbl.ne_nan_of_nonneg {a : Dbl α} (ha : Dbl.le (Dbl.num 0) a = true) : a ≠ Dbl.nan := by
  intro h
  rw [h] at ha
  simp [Dbl.le] at ha

end RoundedLength

/-! ## Binary64: the length around the cylinder -/

/-- The rounding to binary64 of a number is not NaN. -/
theorem Binary64.round64_ne_nan (x : ℚ) : Binary64.round64 x ≠ Dbl.nan := by
  unfold Binary64.round64
  split_ifs <;> simp

/-- The power `2 ^ e` is `>= 0`. -/
theorem Binary64.pow2_nonneg (e : Int) : 0 ≤ Binary64.pow2 e := by
  unfold Binary64.pow2
  split_ifs <;> positivity

namespace Binary64

/-- The power `pow2 e` is `2 ^ e`. -/
theorem pow2_eq (e : Int) : pow2 e = (2 : ℚ) ^ e := by
  unfold pow2
  split_ifs with h
  · obtain ⟨n, rfl⟩ := Int.eq_ofNat_of_zero_le h
    simp
  · obtain ⟨n, hn⟩ := Int.exists_eq_neg_ofNat (le_of_lt (not_le.mp h))
    subst hn
    simp

/-- The digits counted by `bitsAux`: none for 0, and `log2 n + 1` for `n > 0`. -/
theorem bitsAux_eq (fuel : Nat) : ∀ n acc : Nat, n ≤ fuel →
    bitsAux fuel n acc = acc + (if n = 0 then 0 else Nat.log 2 n + 1) := by
  induction fuel with
  | zero =>
    intro n acc hn
    have : n = 0 := by omega
    simp [bitsAux, this]
  | succ fuel ih =>
    intro n acc hn
    by_cases h0 : n = 0
    · simp [bitsAux, h0]
    · have h2 : n / 2 ≤ fuel := by omega
      rw [bitsAux, if_neg h0, ih (n / 2) (acc + 1) h2, if_neg h0]
      by_cases h1 : n / 2 = 0
      · have hn1 : n = 1 := by omega
        simp [hn1]
      · have hle : 2 ≤ n := by omega
        rw [if_neg h1, Nat.log_of_one_lt_of_le (by norm_num) hle]
        omega

/-- The number of digits of `n > 0` is `log2 n + 1`. -/
theorem bits_eq (n : Nat) (hn : 0 < n) : bits n = Nat.log 2 n + 1 := by
  unfold bits
  rw [bitsAux_eq n n 0 (le_refl n), if_neg (by omega)]
  omega

/-- The exponent of `p / q`: `2 ^ e <= p / q < 2 ^ (e + 1)`. -/
theorem exponent_spec (p q : Nat) (hp : 0 < p) (hq : 0 < q) :
    (2 : ℚ) ^ (exponent p q) ≤ (p : ℚ) / q ∧ (p : ℚ) / q < (2 : ℚ) ^ (exponent p q + 1) := by
  have hP : (0 : ℚ) < p := by exact_mod_cast hp
  have hQ : (0 : ℚ) < q := by exact_mod_cast hq
  have hA1 : ((2 : ℚ) ^ (Nat.log 2 p)) ≤ p := by
    exact_mod_cast Nat.pow_log_le_self 2 (by omega)
  have hA2 : (p : ℚ) < 2 * (2 : ℚ) ^ (Nat.log 2 p) := by
    have := Nat.lt_pow_succ_log_self (by norm_num : 1 < 2) p
    rw [pow_succ] at this
    have h2 : ((p : Nat) : ℚ) < ((2 ^ Nat.log 2 p * 2 : Nat) : ℚ) := by exact_mod_cast this
    push_cast at h2
    linarith
  have hB1 : ((2 : ℚ) ^ (Nat.log 2 q)) ≤ q := by
    exact_mod_cast Nat.pow_log_le_self 2 (by omega)
  have hB2 : (q : ℚ) < 2 * (2 : ℚ) ^ (Nat.log 2 q) := by
    have := Nat.lt_pow_succ_log_self (by norm_num : 1 < 2) q
    rw [pow_succ] at this
    have h2 : ((q : Nat) : ℚ) < ((2 ^ Nat.log 2 q * 2 : Nat) : ℚ) := by exact_mod_cast this
    push_cast at h2
    linarith
  have hApos : (0 : ℚ) < (2 : ℚ) ^ (Nat.log 2 p) := by positivity
  have hBpos : (0 : ℚ) < (2 : ℚ) ^ (Nat.log 2 q) := by positivity
  have he0 : (bits p : Int) - (bits q : Int) = (Nat.log 2 p : Int) - (Nat.log 2 q : Int) := by
    rw [bits_eq p hp, bits_eq q hq]
    push_cast
    ring
  have hz : (2 : ℚ) ^ ((Nat.log 2 p : Int) - (Nat.log 2 q : Int))
      = (2 : ℚ) ^ (Nat.log 2 p) / (2 : ℚ) ^ (Nat.log 2 q) := by
    rw [zpow_sub₀ (by norm_num : (2 : ℚ) ≠ 0), zpow_natCast, zpow_natCast]
  have hex : exponent p q
      = if (2 : ℚ) ^ ((Nat.log 2 p : Int) - (Nat.log 2 q : Int)) * q ≤ p
        then (Nat.log 2 p : Int) - (Nat.log 2 q : Int)
        else (Nat.log 2 p : Int) - (Nat.log 2 q : Int) - 1 := by
    unfold exponent
    rw [he0]
    generalize (Nat.log 2 p : Int) - (Nat.log 2 q : Int) = e
    by_cases h : 0 ≤ e
    · rw [if_pos h]
      obtain ⟨n, rfl⟩ := Int.eq_ofNat_of_zero_le h
      have hiff : (q * 2 ^ n ≤ p) ↔ ((2 : ℚ) ^ ((n : Nat) : Int) * q ≤ p) := by
        rw [zpow_natCast]
        constructor
        · intro h1
          have : ((q * 2 ^ n : Nat) : ℚ) ≤ (p : ℚ) := by exact_mod_cast h1
          push_cast at this
          linarith
        · intro h1
          have : ((q * 2 ^ n : Nat) : ℚ) ≤ (p : ℚ) := by
            push_cast
            linarith
          exact_mod_cast this
      simp only [Int.toNat_ofNat]
      by_cases h1 : q * 2 ^ n ≤ p
      · rw [if_pos h1, if_pos (hiff.mp h1)]
      · rw [if_neg h1, if_neg (fun h2 => h1 (hiff.mpr h2))]
    · rw [if_neg h]
      obtain ⟨n, hn⟩ := Int.exists_eq_neg_ofNat (le_of_lt (not_le.mp h))
      subst hn
      have hpn : (0 : ℚ) < (2 : ℚ) ^ n := by positivity
      have hiff : (q ≤ p * 2 ^ n) ↔ ((2 : ℚ) ^ (-((n : Nat) : Int)) * q ≤ p) := by
        rw [zpow_neg, zpow_natCast, inv_mul_le_iff₀ hpn]
        constructor
        · intro h1
          have : ((q : Nat) : ℚ) ≤ ((p * 2 ^ n : Nat) : ℚ) := by exact_mod_cast h1
          push_cast at this
          linarith
        · intro h1
          have : ((q : Nat) : ℚ) ≤ ((p * 2 ^ n : Nat) : ℚ) := by
            push_cast
            linarith
          exact_mod_cast this
      simp only [neg_neg, Int.toNat_ofNat]
      by_cases h1 : q ≤ p * 2 ^ n
      · rw [if_pos h1, if_pos (hiff.mp h1)]
      · rw [if_neg h1, if_neg (fun h2 => h1 (hiff.mpr h2))]
  rw [hex]
  generalize hA : (2 : ℚ) ^ (Nat.log 2 p) = A at *
  generalize hB : (2 : ℚ) ^ (Nat.log 2 q) = B at *
  generalize (Nat.log 2 p : Int) - (Nat.log 2 q : Int) = e at *
  have hB0 : B ≠ 0 := ne_of_gt hBpos
  have hQ0 : (q : ℚ) ≠ 0 := ne_of_gt hQ
  by_cases h : (2 : ℚ) ^ e * q ≤ p
  · rw [if_pos h]
    refine ⟨(le_div_iff₀ hQ).mpr h, ?_⟩
    rw [div_lt_iff₀ hQ, zpow_add_one₀ (by norm_num : (2 : ℚ) ≠ 0), hz]
    have h1 : A / B * 2 * q = 2 * A * (q / B) := by ring
    rw [h1]
    have h2 : 1 ≤ (q : ℚ) / B := (one_le_div hBpos).mpr hB1
    nlinarith
  · rw [if_neg h]
    have h3 := not_le.mp h
    constructor
    · rw [le_div_iff₀ hQ, zpow_sub_one₀ (by norm_num : (2 : ℚ) ≠ 0), hz]
      have h1 : A / B * 2⁻¹ * q = A * (q / (2 * B)) := by ring
      rw [h1]
      have h2 : (q : ℚ) / (2 * B) < 1 := (div_lt_one (by positivity)).mpr hB2
      nlinarith
    · rw [div_lt_iff₀ hQ]
      simpa using h3

/-- The integer `nearestEven N D` is at most 1/2 from `N / D`, and even when at 1/2. -/
theorem nearestEven_spec (N D : Nat) (hD : 0 < D) :
    ((nearestEven N D : Nat) : ℚ) - 1 / 2 ≤ (N : ℚ) / D ∧
    (N : ℚ) / D ≤ ((nearestEven N D : Nat) : ℚ) + 1 / 2 ∧
    ((N : ℚ) / D = ((nearestEven N D : Nat) : ℚ) - 1 / 2 → nearestEven N D % 2 = 0) ∧
    ((N : ℚ) / D = ((nearestEven N D : Nat) : ℚ) + 1 / 2 → nearestEven N D % 2 = 0) := by
  have hDq : (0 : ℚ) < D := by exact_mod_cast hD
  have hN : (N : ℚ) = (D : ℚ) * ((N / D : Nat) : ℚ) + ((N % D : Nat) : ℚ) := by
    exact_mod_cast (Nat.div_add_mod N D).symm
  have hm : ((N % D : Nat) : ℚ) < D := by exact_mod_cast Nat.mod_lt N hD
  have hm0 : (0 : ℚ) ≤ ((N % D : Nat) : ℚ) := Nat.cast_nonneg _
  have hr : (N : ℚ) / D = ((N / D : Nat) : ℚ) + ((N % D : Nat) : ℚ) / D := by
    rw [hN]
    field_simp
    ring
  rw [hr]
  generalize hk : N / D = k at *
  generalize hmm : N % D = m at *
  have hfrac0 : (0 : ℚ) ≤ (m : ℚ) / D := div_nonneg hm0 (le_of_lt hDq)
  unfold nearestEven
  rw [hk, hmm]
  by_cases h1 : 2 * m < D
  · rw [if_pos h1]
    have h1q : 2 * (m : ℚ) < D := by exact_mod_cast h1
    have hlt : (m : ℚ) / D < 1 / 2 := by
      rw [div_lt_iff₀ hDq]
      linarith
    refine ⟨by linarith, by linarith, fun h => ?_, fun h => ?_⟩ <;> linarith
  · rw [if_neg h1]
    by_cases h2 : D < 2 * m
    · rw [if_pos h2]
      have h2q : (D : ℚ) < 2 * m := by exact_mod_cast h2
      have hgt : 1 / 2 < (m : ℚ) / D := by
        rw [lt_div_iff₀ hDq]
        linarith
      have hlt : (m : ℚ) / D < 1 := (div_lt_one hDq).mpr hm
      push_cast
      refine ⟨by linarith, by linarith, fun h => ?_, fun h => ?_⟩ <;> linarith
    · rw [if_neg h2]
      have h3 : D = 2 * m := by omega
      have h3q : (D : ℚ) = 2 * m := by exact_mod_cast h3
      have heq : (m : ℚ) / D = 1 / 2 := by
        rw [div_eq_iff (ne_of_gt hDq)]
        linarith
      by_cases h4 : k % 2 = 0
      · rw [if_pos h4]
        refine ⟨by linarith, by linarith, fun h => ?_, fun _ => h4⟩
        linarith
      · rw [if_neg h4]
        push_cast
        refine ⟨by linarith, by linarith, fun _ => by omega, fun h => ?_⟩
        linarith

/-- Two integers nearest to `r <= s`, even when at 1/2, are in the same order. -/
theorem nearest_mono {n m : Nat} {r s : ℚ} (hn1 : (n : ℚ) - 1 / 2 ≤ r)
    (hn3 : r = (n : ℚ) - 1 / 2 → n % 2 = 0)
    (hm2 : s ≤ (m : ℚ) + 1 / 2) (hm4 : s = (m : ℚ) + 1 / 2 → m % 2 = 0) (h : r ≤ s) :
    n ≤ m := by
  by_contra hc
  have hlt : m + 1 ≤ n := by omega
  have hq : (m : ℚ) + 1 ≤ n := by exact_mod_cast hlt
  have e1 : r = (n : ℚ) - 1 / 2 := by linarith
  have e2 : s = (m : ℚ) + 1 / 2 := by linarith
  have e3 : (n : ℚ) = (m : ℚ) + 1 := by linarith
  have e4 : n = m + 1 := by exact_mod_cast e3
  have := hn3 e1
  have := hm4 e2
  omega

/-- The integer of `roundPos p q` is at most 1/2 from `p / q` over `2 ^ u`, for the exponent
`u` of `roundPos p q`, and even when at 1/2. -/
theorem roundPos_spec (p q : Nat) (hq : 0 < q) :
    ((roundPos p q).1 : ℚ) - 1 / 2 ≤ (p : ℚ) / q / (2 : ℚ) ^ (roundPos p q).2 ∧
    (p : ℚ) / q / (2 : ℚ) ^ (roundPos p q).2 ≤ ((roundPos p q).1 : ℚ) + 1 / 2 ∧
    ((p : ℚ) / q / (2 : ℚ) ^ (roundPos p q).2 = ((roundPos p q).1 : ℚ) - 1 / 2 →
      (roundPos p q).1 % 2 = 0) ∧
    ((p : ℚ) / q / (2 : ℚ) ^ (roundPos p q).2 = ((roundPos p q).1 : ℚ) + 1 / 2 →
      (roundPos p q).1 % 2 = 0) := by
  have hQ : (q : ℚ) ≠ 0 := by
    have : (0 : ℚ) < q := by exact_mod_cast hq
    exact ne_of_gt this
  unfold roundPos
  simp only
  generalize max (exponent p q) (-1022) - 52 = u
  by_cases h : 0 ≤ u
  · rw [if_pos h]
    obtain ⟨n, rfl⟩ := Int.eq_ofNat_of_zero_le h
    simp only [Int.toNat_ofNat]
    have hspec := nearestEven_spec p (q * 2 ^ n) (by positivity)
    have hr : ((p : Nat) : ℚ) / ((q * 2 ^ n : Nat) : ℚ) = (p : ℚ) / q / (2 : ℚ) ^ ((n : Nat) : Int) := by
      rw [zpow_natCast]
      push_cast
      rw [div_div]
    rw [hr] at hspec
    exact hspec
  · rw [if_neg h]
    obtain ⟨n, hn⟩ := Int.exists_eq_neg_ofNat (le_of_lt (not_le.mp h))
    subst hn
    simp only [neg_neg, Int.toNat_ofNat]
    have hspec := nearestEven_spec (p * 2 ^ n) q hq
    have hr : ((p * 2 ^ n : Nat) : ℚ) / ((q : Nat) : ℚ)
        = (p : ℚ) / q / (2 : ℚ) ^ (-((n : Nat) : Int)) := by
      rw [zpow_neg, zpow_natCast]
      push_cast
      rw [div_inv_eq_mul]
      ring
    rw [hr] at hspec
    exact hspec

/-- The rounded value of `p / q` does not decrease with `p / q`. -/
theorem roundPos_mono (p q r s : Nat) (hp : 0 < p) (hq : 0 < q) (hr : 0 < r) (hs : 0 < s)
    (h : (p : ℚ) / q ≤ (r : ℚ) / s) :
    ((roundPos p q).1 : ℚ) * pow2 (roundPos p q).2
      ≤ ((roundPos r s).1 : ℚ) * pow2 (roundPos r s).2 := by
  obtain ⟨a1, -, a3, -⟩ := roundPos_spec p q hq
  obtain ⟨-, b2, -, b4⟩ := roundPos_spec r s hs
  obtain ⟨c1, c2⟩ := exponent_spec p q hp hq
  obtain ⟨d1, d2⟩ := exponent_spec r s hr hs
  have h2 : (1 : ℚ) < 2 := by norm_num
  have h20 : (2 : ℚ) ≠ 0 := by norm_num
  have hee : exponent p q ≤ exponent r s := by
    have : (2 : ℚ) ^ (exponent p q) < (2 : ℚ) ^ (exponent r s + 1) :=
      lt_of_le_of_lt c1 (lt_of_le_of_lt h d2)
    have := (zpow_lt_zpow_iff_right₀ h2).mp this
    omega
  rw [pow2_eq, pow2_eq]
  have hu : (roundPos p q).2 = max (exponent p q) (-1022) - 52 := rfl
  have hv : (roundPos r s).2 = max (exponent r s) (-1022) - 52 := rfl
  generalize (roundPos p q).1 = n at *
  generalize (roundPos r s).1 = m at *
  generalize (roundPos p q).2 = u at *
  generalize (roundPos r s).2 = v at *
  generalize exponent p q = e at *
  generalize exponent r s = f at *
  have hupos : (0 : ℚ) < (2 : ℚ) ^ u := zpow_pos (by norm_num) u
  have hvpos : (0 : ℚ) < (2 : ℚ) ^ v := zpow_pos (by norm_num) v
  have huv : u ≤ v := by
    rw [hu, hv]
    have := max_le_max hee (le_refl (-1022 : Int))
    omega
  rcases eq_or_lt_of_le huv with heq | hlt
  · subst heq
    have hnm : n ≤ m :=
      nearest_mono a1 a3 b2 b4 (div_le_div_of_nonneg_right h (le_of_lt hupos))
    have : (n : ℚ) ≤ m := by exact_mod_cast hnm
    exact mul_le_mul_of_nonneg_right this (le_of_lt hupos)
  · have hE : max e (-1022) + 1 = 53 + u := by omega
    have hF : f = 52 + v := by
      have h1 : max e (-1022) < max f (-1022) := by omega
      have h3 : (-1022 : Int) ≤ max e (-1022) := le_max_right _ _
      rcases le_total f (-1022) with h4 | h4
      · rw [max_eq_right h4] at h1
        omega
      · rw [max_eq_left h4] at hv
        omega
    have hn : n ≤ 2 ^ 53 := by
      refine nearest_mono a1 a3 (?_ : (2 : ℚ) ^ 53 ≤ ((2 ^ 53 : Nat) : ℚ) + 1 / 2) ?_ ?_
      · norm_num
      · intro habs
        norm_num at habs
      · rw [div_le_iff₀ hupos]
        have h5 : (2 : ℚ) ^ (e + 1) ≤ (2 : ℚ) ^ (max e (-1022) + 1) :=
          zpow_le_zpow_right₀ (le_of_lt h2) (by have := le_max_left e (-1022); omega)
        rw [hE, zpow_add₀ h20 53 u] at h5
        have h6 : (2 : ℚ) ^ (53 : Int) = (2 : ℚ) ^ 53 := by norm_num
        rw [h6] at h5
        linarith
    have hm : 2 ^ 52 ≤ m := by
      refine nearest_mono (?_ : ((2 ^ 52 : Nat) : ℚ) - 1 / 2 ≤ (2 : ℚ) ^ 52) ?_ b2 b4 ?_
      · norm_num
      · intro habs
        norm_num at habs
      · rw [le_div_iff₀ hvpos]
        rw [hF, zpow_add₀ h20 52 v] at d1
        have h6 : (2 : ℚ) ^ (52 : Int) = (2 : ℚ) ^ 52 := by norm_num
        rw [h6] at d1
        linarith
    have hnq : (n : ℚ) ≤ (2 : ℚ) ^ 53 := by exact_mod_cast hn
    have hmq : (2 : ℚ) ^ 52 ≤ (m : ℚ) := by exact_mod_cast hm
    have h7 : (2 : ℚ) ^ (53 + u) ≤ (2 : ℚ) ^ (52 + v) :=
      zpow_le_zpow_right₀ (le_of_lt h2) (by omega)
    rw [zpow_add₀ h20 53 u, zpow_add₀ h20 52 v] at h7
    have h8 : (2 : ℚ) ^ (53 : Int) = (2 : ℚ) ^ 53 := by norm_num
    have h9 : (2 : ℚ) ^ (52 : Int) = (2 : ℚ) ^ 52 := by norm_num
    rw [h8, h9] at h7
    calc (n : ℚ) * (2 : ℚ) ^ u ≤ (2 : ℚ) ^ 53 * (2 : ℚ) ^ u :=
          mul_le_mul_of_nonneg_right hnq (le_of_lt hupos)
      _ ≤ (2 : ℚ) ^ 52 * (2 : ℚ) ^ v := h7
      _ ≤ (m : ℚ) * (2 : ℚ) ^ v := mul_le_mul_of_nonneg_right hmq (le_of_lt hvpos)

/-- The rounding of a number `> 0`: the rounded value, or the infinity from `2 ^ 1024` on. -/
theorem round64_pos (x : ℚ) (hx : 0 < x) :
    round64 x
      = if pow2 1024 ≤ ((roundPos x.num.natAbs x.den).1 : ℚ) * pow2 (roundPos x.num.natAbs x.den).2
        then Dbl.pinf
        else Dbl.num
          (((roundPos x.num.natAbs x.den).1 : ℚ) * pow2 (roundPos x.num.natAbs x.den).2) := by
  unfold round64
  simp only [if_neg (ne_of_gt hx), if_pos hx]

/-- The rounding of a number `< 0`: the opposite of the rounded value of its opposite. -/
theorem round64_neg (x : ℚ) (hx : x < 0) :
    round64 x
      = if pow2 1024 ≤ ((roundPos x.num.natAbs x.den).1 : ℚ) * pow2 (roundPos x.num.natAbs x.den).2
        then Dbl.ninf
        else Dbl.num
          (-(((roundPos x.num.natAbs x.den).1 : ℚ) * pow2 (roundPos x.num.natAbs x.den).2)) := by
  unfold round64
  simp only [if_neg (ne_of_lt hx), if_neg (not_lt.mpr (le_of_lt hx))]

/-- The rounded value of a number `> 0` does not decrease with the number. -/
theorem roundPos_mono_rat (x y : ℚ) (hx : 0 < x) (hxy : x ≤ y) :
    ((roundPos x.num.natAbs x.den).1 : ℚ) * pow2 (roundPos x.num.natAbs x.den).2
      ≤ ((roundPos y.num.natAbs y.den).1 : ℚ) * pow2 (roundPos y.num.natAbs y.den).2 := by
  have hy : 0 < y := lt_of_lt_of_le hx hxy
  have key : ∀ z : ℚ, 0 < z → 0 < z.num.natAbs ∧ ((z.num.natAbs : Nat) : ℚ) / (z.den : ℚ) = z := by
    intro z hz
    have hnum : 0 < z.num := Rat.num_pos.mpr hz
    have hcast : ((z.num.natAbs : Nat) : Int) = z.num := Int.natAbs_of_nonneg (le_of_lt hnum)
    refine ⟨Int.natAbs_pos.mpr (ne_of_gt hnum), ?_⟩
    have h1 : ((z.num.natAbs : Nat) : ℚ) = ((z.num : Int) : ℚ) := by
      rw [← Int.cast_natCast, hcast]
    rw [h1]
    exact Rat.num_div_den z
  obtain ⟨hpx, hxe⟩ := key x hx
  obtain ⟨hpy, hye⟩ := key y hy
  apply roundPos_mono _ _ _ _ hpx x.den_pos hpy y.den_pos
  rw [hxe, hye]
  exact hxy

/-- The rounding to binary64 does not decrease. -/
theorem round64_mono (x y : ℚ) (hxy : x ≤ y) : Dbl.le (round64 x) (round64 y) = true := by
  have hnn : ∀ z : ℚ,
      0 ≤ ((roundPos z.num.natAbs z.den).1 : ℚ) * pow2 (roundPos z.num.natAbs z.den).2 := by
    intro z
    exact mul_nonneg (Nat.cast_nonneg _) (pow2_nonneg _)
  have h0 : round64 0 = Dbl.num 0 := by
    unfold round64
    simp
  have hpw : (0 : ℚ) < pow2 1024 := by
    rw [pow2_eq]
    exact zpow_pos (by norm_num) _
  rcases lt_trichotomy x 0 with hx | hx | hx
  · rcases lt_trichotomy y 0 with hy | hy | hy
    · have hm := roundPos_mono_rat (-y) (-x) (neg_pos.mpr hy) (neg_le_neg hxy)
      simp only [Rat.neg_num, Rat.neg_den, Int.natAbs_neg] at hm
      rw [round64_neg x hx, round64_neg y hy]
      generalize ((roundPos x.num.natAbs x.den).1 : ℚ) * pow2 (roundPos x.num.natAbs x.den).2
        = X at *
      generalize ((roundPos y.num.natAbs y.den).1 : ℚ) * pow2 (roundPos y.num.natAbs y.den).2
        = Y at *
      split_ifs with h1 h2 h2
      · simp [Dbl.le]
      · simp [Dbl.le]
      · exact absurd (le_trans h2 hm) h1
      · simp [Dbl.le, hm]
    · subst hy
      rw [round64_neg x hx, h0]
      have := hnn x
      split_ifs
      · simp [Dbl.le]
      · simp [Dbl.le, this]
    · rw [round64_neg x hx, round64_pos y hy]
      have hX := hnn x
      have hY := hnn y
      split_ifs
      · simp [Dbl.le]
      · simp [Dbl.le]
      · simp [Dbl.le]
      · simp only [Dbl.le, decide_eq_true_eq]
        linarith
  · subst hx
    rcases lt_or_eq_of_le hxy with hy | hy
    · rw [h0, round64_pos y hy]
      have hY := hnn y
      split_ifs
      · simp [Dbl.le]
      · simp [Dbl.le, hY]
    · rw [← hy, h0]
      simp [Dbl.le]
  · have hy : 0 < y := lt_of_lt_of_le hx hxy
    have hm := roundPos_mono_rat x y hx hxy
    rw [round64_pos x hx, round64_pos y hy]
    generalize ((roundPos x.num.natAbs x.den).1 : ℚ) * pow2 (roundPos x.num.natAbs x.den).2
      = X at *
    generalize ((roundPos y.num.natAbs y.den).1 : ℚ) * pow2 (roundPos y.num.natAbs y.den).2
      = Y at *
    split_ifs with h1 h2 h2
    · simp [Dbl.le]
    · exact absurd (le_trans h1 hm) h2
    · simp [Dbl.le]
    · simp [Dbl.le, hm]

/-- The sum `expSum` is `>= 0` for `x >= 0` and a first term `>= 0`. -/
theorem expSum_nonneg (n : Nat) : ∀ (x : ℚ) (k : Nat) (t : ℚ), 0 ≤ x → 0 ≤ t →
    0 ≤ expSum n x k t := by
  induction n with
  | zero =>
    intro x k t _ _
    simp [expSum]
  | succ n ih =>
    intro x k t hx ht
    rw [expSum]
    have h1 : 0 ≤ t * x / ((k + 1 : Nat) : ℚ) := by positivity
    have := ih x (k + 1) _ hx h1
    linarith

/-- The sum `expSum` does not decrease with the number of terms, `x >= 0` and the first
term. -/
theorem expSum_mono (n : Nat) : ∀ (m : Nat) (x y : ℚ) (k : Nat) (t s : ℚ), n ≤ m → 0 ≤ x →
    x ≤ y → 0 ≤ t → t ≤ s → expSum n x k t ≤ expSum m y k s := by
  induction n with
  | zero =>
    intro m x y k t s _ hx hxy ht hts
    rw [expSum]
    exact expSum_nonneg m y k s (le_trans hx hxy) (le_trans ht hts)
  | succ n ih =>
    intro m x y k t s hnm hx hxy ht hts
    obtain ⟨m, rfl⟩ : ∃ m1, m = m1 + 1 := ⟨m - 1, by omega⟩
    rw [expSum, expSum]
    have hk : (0 : ℚ) < ((k + 1 : Nat) : ℚ) := by positivity
    have h1 : 0 ≤ t * x / ((k + 1 : Nat) : ℚ) := by positivity
    have h2 : t * x / ((k + 1 : Nat) : ℚ) ≤ s * y / ((k + 1 : Nat) : ℚ) := by
      apply div_le_div_of_nonneg_right _ (le_of_lt hk)
      exact mul_le_mul hts hxy hx (le_trans ht hts)
    have := ih m x y (k + 1) _ _ (by omega) hx hxy h1 h2
    linarith

/-- The sum `expSum` of at least one term from the first term 1 is `>= 1` for `x >= 0`. -/
theorem expSum_ge_one (n : Nat) (x : ℚ) (hx : 0 ≤ x) : 1 ≤ expSum (n + 1) x 0 1 := by
  rw [expSum]
  have := expSum_nonneg n x (0 + 1) (1 * x / ((0 + 1 : Nat) : ℚ)) hx (by positivity)
  linarith

/-- The integer part `num / den` does not decrease on the numbers `>= 0`. -/
theorem natAbs_div_den_mono (x y : ℚ) (hx : 0 ≤ x) (hxy : x ≤ y) :
    x.num.natAbs / x.den ≤ y.num.natAbs / y.den := by
  have key : ∀ z : ℚ, 0 ≤ z → z.num.natAbs / z.den = ⌊z⌋₊ := by
    intro z hz
    have hnum : 0 ≤ z.num := Rat.num_nonneg.mpr hz
    have hcast : ((z.num.natAbs : Nat) : Int) = z.num := Int.natAbs_of_nonneg hnum
    have h1 : ((z.num.natAbs : Nat) : ℚ) = ((z.num : Int) : ℚ) := by
      rw [← Int.cast_natCast, hcast]
    have h2 : ((z.num.natAbs : Nat) : ℚ) / (z.den : ℚ) = z := by
      rw [h1]
      exact Rat.num_div_den z
    rw [← Rat.natFloor_natCast_div_natCast, h2]
  rw [key x hx, key y (le_trans hx hxy)]
  exact Nat.floor_mono hxy

/-- The exponential `expSeries` is `> 0`. -/
theorem expSeries_pos (x : ℚ) : 0 < expSeries x := by
  unfold expSeries
  split_ifs with h
  · have := expSum_ge_one (4 * (x.num.natAbs / x.den + 1) + 59) (-x) (by linarith)
    have h1 : 0 < expSum (4 * (x.num.natAbs / x.den + 1) + 60) (-x) 0 1 := by linarith
    positivity
  · have := expSum_ge_one (4 * (x.num.natAbs / x.den + 1) + 59) x (by linarith)
    linarith

/-- The exponential `expSeries` does not decrease. -/
theorem expSeries_mono (x y : ℚ) (hxy : x ≤ y) : expSeries x ≤ expSeries y := by
  have hpos : ∀ a b : ℚ, 0 ≤ a → a ≤ b →
      expSum (4 * (a.num.natAbs / a.den + 1) + 60) a 0 1
        ≤ expSum (4 * (b.num.natAbs / b.den + 1) + 60) b 0 1 := by
    intro a b ha hab
    apply expSum_mono _ _ _ _ _ _ _ _ ha hab (by norm_num) (le_refl _)
    have := natAbs_div_den_mono a b ha hab
    omega
  have hone : ∀ a : ℚ, 0 ≤ a → 1 ≤ expSum (4 * (a.num.natAbs / a.den + 1) + 60) a 0 1 :=
    fun a ha => expSum_ge_one (4 * (a.num.natAbs / a.den + 1) + 59) a ha
  unfold expSeries
  by_cases hx : x < 0
  · rw [if_pos hx]
    have hX := hone (-x) (by linarith)
    simp only [Rat.neg_num, Rat.neg_den, Int.natAbs_neg] at hX
    by_cases hy : y < 0
    · rw [if_pos hy]
      have hY := hone (-y) (by linarith)
      have hYX := hpos (-y) (-x) (by linarith) (by linarith)
      simp only [Rat.neg_num, Rat.neg_den, Int.natAbs_neg] at hY hYX
      exact one_div_le_one_div_of_le (by linarith) hYX
    · rw [if_neg hy]
      have hY := hone y (not_lt.mp hy)
      have : 1 / expSum (4 * (x.num.natAbs / x.den + 1) + 60) (-x) 0 1 ≤ 1 := by
        rw [div_le_one (by linarith)]
        exact hX
      linarith
  · rw [if_neg hx, if_neg (not_lt.mpr (le_trans (not_lt.mp hx) hxy))]
    exact hpos x y (not_lt.mp hx) hxy

end Binary64

/-- The `exp` of `Libm.binary64` at a number. -/
theorem Libm.binary64_exp_num (expf acosf : ℚ → ℚ) (powf : ℚ → ℚ → ℚ) (oddInt : ℚ → Bool)
    (x : ℚ) :
    (Libm.binary64 expf acosf powf oddInt).exp (Dbl.num x)
      = if Binary64.expMax < x then Dbl.pinf else Binary64.round64 (expf x) := by
  simp [Libm.binary64, Libm.exactExp, Dbl.round, Dbl.gt, Dbl.lt]

/-- The `exp` of `Libm.binary64` does not decrease, when `expf` does not and is `>= 0`. -/
theorem Libm.binary64_exp_mono (expf acosf : ℚ → ℚ) (powf : ℚ → ℚ → ℚ) (oddInt : ℚ → Bool)
    (hmono : ∀ x y, x ≤ y → expf x ≤ expf y) (hpos : ∀ x, 0 ≤ expf x) (a b : Dbl ℚ)
    (h : Dbl.le a b = true) :
    Dbl.le ((Libm.binary64 expf acosf powf oddInt).exp a)
      ((Libm.binary64 expf acosf powf oddInt).exp b) = true := by
  have h0 : Binary64.round64 0 = Dbl.num 0 := by
    unfold Binary64.round64
    simp
  have hninf : (Libm.binary64 expf acosf powf oddInt).exp Dbl.ninf = Dbl.num 0 := by
    simp [Libm.binary64, Libm.exactExp, Dbl.round, Dbl.gt, Dbl.lt, h0]
  have hpinf : (Libm.binary64 expf acosf powf oddInt).exp Dbl.pinf = Dbl.pinf := by
    simp [Libm.binary64, Libm.exactExp, Dbl.round, Dbl.gt, Dbl.lt]
  have htop : ∀ z : ℚ, Dbl.le (Binary64.round64 z) Dbl.pinf = true := by
    intro z
    have := Binary64.round64_ne_nan z
    cases hz : Binary64.round64 z with
    | nan => exact absurd hz this
    | ninf => simp [Dbl.le]
    | pinf => simp [Dbl.le]
    | num v => simp [Dbl.le]
  have hzero : ∀ z : ℚ, Dbl.le (Dbl.num 0) (Binary64.round64 (expf z)) = true := by
    intro z
    have := Binary64.round64_mono 0 (expf z) (hpos z)
    rwa [h0] at this
  cases a with
  | nan => simp [Dbl.le] at h
  | ninf =>
    rw [hninf]
    cases b with
    | nan => simp [Dbl.le] at h
    | ninf => rw [hninf]; simp [Dbl.le]
    | pinf => rw [hpinf]; simp [Dbl.le]
    | num y =>
      rw [Libm.binary64_exp_num]
      split_ifs
      · simp [Dbl.le]
      · exact hzero y
  | pinf =>
    cases b with
    | nan => simp [Dbl.le] at h
    | ninf => simp [Dbl.le] at h
    | pinf => rw [hpinf]; simp [Dbl.le]
    | num y => simp [Dbl.le] at h
  | num x =>
    cases b with
    | nan => simp [Dbl.le] at h
    | ninf => simp [Dbl.le] at h
    | pinf =>
      rw [hpinf, Libm.binary64_exp_num]
      split_ifs
      · simp [Dbl.le]
      · exact htop _
    | num y =>
      simp only [Dbl.le, decide_eq_true_eq] at h
      rw [Libm.binary64_exp_num, Libm.binary64_exp_num]
      split_ifs with h1 h2 h2
      · simp [Dbl.le]
      · exact absurd (lt_of_lt_of_le h1 h) h2
      · exact htop _
      · exact Binary64.round64_mono _ _ (hmono x y h)

/-! ## Rounded arithmetic: the passive force-length multiplier does not decrease -/

section Monotone

variable {α : Type} [LinearOrderedField α]

/-- A rounding that does not decrease keeps the order of the doubles. -/
theorem Dbl.round_mono (rnd : α → Dbl α)
    (hrnd : ∀ x y, x ≤ y → Dbl.le (rnd x) (rnd y) = true) {a b : Dbl α}
    (h : Dbl.le a b = true) : Dbl.le (a.round rnd) (b.round rnd) = true := by
  have hn : ∀ y, rnd y ≠ Dbl.nan := by
    intro y hy
    have := hrnd y y (le_refl y)
    rw [hy] at this
    simp [Dbl.le] at this
  cases a with
  | nan => simp [Dbl.le] at h
  | ninf =>
    cases b with
    | nan => simp [Dbl.le] at h
    | ninf => simp [Dbl.round, Dbl.le]
    | pinf => simp [Dbl.round, Dbl.le]
    | num y =>
      simp only [Dbl.round]
      cases hy : rnd y with
      | nan => exact absurd hy (hn y)
      | ninf => simp [Dbl.le]
      | pinf => simp [Dbl.le]
      | num z => simp [Dbl.le]
  | pinf =>
    cases b with
    | nan => simp [Dbl.le] at h
    | ninf => simp [Dbl.le] at h
    | pinf => simp [Dbl.round, Dbl.le]
    | num y => simp [Dbl.le] at h
  | num x =>
    cases b with
    | nan => simp [Dbl.le] at h
    | ninf => simp [Dbl.le] at h
    | pinf =>
      simp only [Dbl.round]
      cases hx : rnd x with
      | nan => exact absurd hx (hn x)
      | ninf => simp [Dbl.le]
      | pinf => simp [Dbl.le]
      | num z => simp [Dbl.le]
    | num y =>
      simp only [Dbl.le, decide_eq_true_eq] at h
      exact hrnd x y h

/-- Adding a number keeps the order of the doubles. -/
theorem Arith.exactAdd_num_mono (c : α) {a b : Dbl α} (h : Dbl.le a b = true) :
    Dbl.le (Arith.exactAdd a (Dbl.num c)) (Arith.exactAdd b (Dbl.num c)) = true := by
  cases a <;> cases b <;> simp_all [Arith.exactAdd, Dbl.le]

/-- Multiplying a number `> 0` by a double keeps the order of the doubles. -/
theorem Arith.exactMul_num_mono {k : α} (hk : 0 < k) {a b : Dbl α} (h : Dbl.le a b = true) :
    Dbl.le (Arith.exactMul (Dbl.num k) a) (Arith.exactMul (Dbl.num k) b) = true := by
  have hk0 : k ≠ 0 := ne_of_gt hk
  have hk1 : (0 : α) ≤ k := le_of_lt hk
  cases a <;> cases b <;>
    simp_all [Arith.exactMul, Arith.signedInf, Dbl.le, mul_le_mul_left, not_le.mpr hk]

/-- Dividing by a number `> 0` keeps the order of the doubles. -/
theorem Arith.exactDiv_num_mono {d : α} (hd : 0 < d) {a b : Dbl α} (h : Dbl.le a b = true) :
    Dbl.le (Arith.exactDiv a (Dbl.num d)) (Arith.exactDiv b (Dbl.num d)) = true := by
  have hd0 : d ≠ 0 := ne_of_gt hd
  have hd1 : (0 : α) ≤ d := le_of_lt hd
  cases a <;> cases b <;>
    simp_all [Arith.exactDiv, Arith.signedInf, Dbl.le, div_le_div_iff_of_pos_right,
      not_le.mpr hd]

/-- C14 (amended): for a HillThelenType muscle with `optimalLength > 0`, where nothing is
rounded (the arithmetic of the real numbers) and the constants `FlPE_1` and `FlPE_2` are
`> 0`, FlPE is strictly increasing in the path length beyond the tendon slack length.  In a
floating-point arithmetic whose rounding does not decrease, with an `exp` that does not
decrease, a constant `FlPE_1 > 0` and a constant `FlPE_2` for which `exp(FlPE_2) - 1` is
computed as a number `d > 0`, FlPE does not decrease with the path length beyond the tendon
slack length: `tendonSlackLength < L1 < L2` gives `FlPE(L1) <= FlPE(L2)`. -/
theorem FlPE_nondecreasing (rnd rsqrt : α → Dbl α) (M : Libm α) (m : HillType) (h : Heap α)
    (k1 d tsl Lopt L1 L2 : α)
    (hrnd : ∀ x y, x ≤ y → Dbl.le (rnd x) (rnd y) = true)
    (hexp : ∀ a b, Dbl.le a b = true → Dbl.le (M.exp a) (M.exp b) = true)
    (hk1 : h.dbl m.m_cste_FlPE_1 = Dbl.num k1) (hk1pos : 0 < k1)
    (hden : (Arith.rounded rnd rsqrt).sub (M.exp (h.dbl m.m_cste_FlPE_2)) (Dbl.num 1)
      = Dbl.num d)
    (hdpos : 0 < d) (hLopt : 0 < Lopt) (h1 : tsl < L1) (h12 : L1 < L2) :
    (∀ (root acosf : ℝ → ℝ) (powf : ℝ → ℝ → ℝ) (odd : ℝ → Bool) (g : Heap ℝ)
        (c1 c2 s o l1 l2 : ℝ),
      g.dbl m.m_cste_FlPE_1 = Dbl.num c1 → g.dbl m.m_cste_FlPE_2 = Dbl.num c2 →
      0 < c1 → 0 < c2 → 0 < o → s < l1 → l1 < l2 →
      Dbl.lt
        (HillThelenType.FlPE m
          (HillThelenType.computeFlPE (Arith.exact root) (Libm.exact Real.exp acosf powf odd) m
            (Dbl.num l1) (Dbl.num s) (Dbl.num o) g))
        (HillThelenType.FlPE m
          (HillThelenType.computeFlPE (Arith.exact root) (Libm.exact Real.exp acosf powf odd) m
            (Dbl.num l2) (Dbl.num s) (Dbl.num o) g)) = true) ∧
    Dbl.le
      (HillThelenType.FlPE m
        (HillThelenType.computeFlPE (Arith.rounded rnd rsqrt) M m
          (Dbl.num L1) (Dbl.num tsl) (Dbl.num Lopt) h))
      (HillThelenType.FlPE m
        (HillThelenType.computeFlPE (Arith.rounded rnd rsqrt) M m
          (Dbl.num L2) (Dbl.num tsl) (Dbl.num Lopt) h)) = true := by
  refine ⟨fun root acosf powf odd g c1 c2 s o l1 l2 g1 g2 p1 p2 po hs hl =>
    FlPE_strictly_increasing root acosf powf odd m g c1 c2 s o l1 l2 g1 g2 p1 p2 po hs hl, ?_⟩
  have hg1 : Dbl.gt (Dbl.num L1) (Dbl.num tsl) = true := by simp [Dbl.gt, Dbl.lt, h1]
  have hg2 : Dbl.gt (Dbl.num L2) (Dbl.num tsl) = true := by
    simp [Dbl.gt, Dbl.lt, lt_trans h1 h12]
  simp only [HillThelenType.computeFlPE, HillThelenType.FlPE, hg1, hg2, if_true,
    Heap.writeDbl_dbl_same, hk1]
  rw [hden]
  simp only [Arith.rounded, Dbl.neg]
  apply Dbl.round_mono rnd hrnd
  apply Arith.exactDiv_num_mono hdpos
  apply Dbl.round_mono rnd hrnd
  apply Arith.exactAdd_num_mono
  apply hexp
  apply Dbl.round_mono rnd hrnd
  apply Arith.exactMul_num_mono hk1pos
  apply Dbl.round_mono rnd hrnd
  apply Arith.exactAdd_num_mono
  apply Dbl.round_mono rnd hrnd
  apply Arith.exactDiv_num_mono hLopt
  simp [Dbl.le, le_of_lt h12]

end Monotone

/-- The divisor `exp(FlPE_2) - 1` of FlPE in binary64 for the documented constant 5: the
double 147.4131591025766. -/
theorem FlPE_divisor_binary64 :
    Arith.binary64.sub (Libm.binary64Exp.exp (hillHeap.dbl someHill.m_cste_FlPE_2)) (Dbl.num 1)
      = Dbl.num (5186639440655247 / 35184372088832) := by
  decide!

/-- Witness of C14 (amended): binary64, whose rounding and `exp` do not decrease, with the
documented constants 10 and 5, the optimal length 1, the tendon slack length 1/2 and the
lengths 1 and 2. -/
theorem FlPE_nondecreasing_witness :
    Dbl.le
      (HillThelenType.FlPE someHill
        (HillThelenType.computeFlPE Arith.binary64 Libm.binary64Exp someHill
          (Dbl.num 1) (Dbl.num (1 / 2)) (Dbl.num 1) hillHeap))
      (HillThelenType.FlPE someHill
        (HillThelenType.computeFlPE Arith.binary64 Libm.binary64Exp someHill
          (Dbl.num 2) (Dbl.num (1 / 2)) (Dbl.num 1) hillHeap)) = true :=
  (FlPE_nondecreasing Binary64.round64 Binary64.sqrt64 Libm.binary64Exp someHill hillHeap
    10 (5186639440655247 / 35184372088832) (1 / 2) 1 1 2
    Binary64.round64_mono
    (Libm.binary64_exp_mono _ _ _ _ Binary64.expSeries_mono
      (fun x => le_of_lt (Binary64.expSeries_pos x)))
    (by simp [hillHeap, someHill, Heap.writeDbl])
    (by norm_num)
    FlPE_divisor_binary64
    (by norm_num) (by norm_num) (by norm_num) (by norm_num)).2

/-- C14 (the claim fails here): binary64, the documented constants 10 and 5, the optimal
length 1 and the tendon slack length 1/2.  At the length 0.75 and at the next double,
`0.75 + 2^-53`, FlPE is the same double, about -0.0062268: the difference of the two
exponentials is lost when 1 is subtracted.  For the lengths 72 and 73 the argument of `exp`
is 710 and 720, above the greatest double with a finite exponential, so `exp` returns an
infinity and FlPE is that infinity at both lengths.  In both pairs `FlPE(L1) < FlPE(L2)` is
false. -/
theorem FlPE_equal_at_distinct_lengths :
    ((1 / 2 : ℚ) < 3 / 4 ∧ (3 / 4 : ℚ) < 6755399441055745 / 9007199254740992) ∧
    HillThelenType.FlPE someHill
      (HillThelenType.computeFlPE Arith.binary64 Libm.binary64Exp someHill
        (Dbl.num (3 / 4)) (Dbl.num (1 / 2)) (Dbl.num 1) hillHeap)
      = Dbl.num (-1794758268071797 / 288230376151711744) ∧
    HillThelenType.FlPE someHill
      (HillThelenType.computeFlPE Arith.binary64 Libm.binary64Exp someHill
        (Dbl.num (6755399441055745 / 9007199254740992)) (Dbl.num (1 / 2)) (Dbl.num 1) hillHeap)
      = Dbl.num (-1794758268071797 / 288230376151711744) ∧
    Dbl.lt
      (HillThelenType.FlPE someHill
        (HillThelenType.computeFlPE Arith.binary64 Libm.binary64Exp someHill
          (Dbl.num (3 / 4)) (Dbl.num (1 / 2)) (Dbl.num 1) hillHeap))
      (HillThelenType.FlPE someHill
        (HillThelenType.computeFlPE Arith.binary64 Libm.binary64Exp someHill
          (Dbl.num (6755399441055745 / 9007199254740992)) (Dbl.num (1 / 2)) (Dbl.num 1)
          hillHeap)) = false ∧
    Libm.binary64Exp.exp (Dbl.num 710) = Dbl.pinf ∧
    HillThelenType.FlPE someHill
      (HillThelenType.computeFlPE Arith.binary64 Libm.binary64Exp someHill
        (Dbl.num 72) (Dbl.num (1 / 2)) (Dbl.num 1) hillHeap) = Dbl.pinf ∧
    HillThelenType.FlPE someHill
      (HillThelenType.computeFlPE Arith.binary64 Libm.binary64Exp someHill
        (Dbl.num 73) (Dbl.num (1 / 2)) (Dbl.num 1) hillHeap) = Dbl.pinf ∧
    Dbl.lt
      (HillThelenType.FlPE someHill
        (HillThelenType.computeFlPE Arith.binary64 Libm.binary64Exp someHill
          (Dbl.num 72) (Dbl.num (1 / 2)) (Dbl.num 1) hillHeap))
      (HillThelenType.FlPE someHill
        (HillThelenType.computeFlPE Arith.binary64 Libm.binary64Exp someHill
          (Dbl.num 73) (Dbl.num (1 / 2)) (Dbl.num 1) hillHeap)) = false := by
  decide!

end biorbd
